import Mathlib

/-!
OshiMemoSharer: the storage and synchronisation core of `src/content.js`.

A shallow embedding of `NoteCache`, `NoteStorage` and the debounced auto-save
functions of `src/content.js`, followed by theorems about them.

Conventions of the embedding
* JavaScript strings are lists of characters (`Str`), so that `startsWith`,
  `replace` and template literals are plain list operations.
* `Date.now()` is the field `clock` of the state (milliseconds, an integer).
* `chrome.storage.sync` is an association list `store` together with the
  list `calls` of the calls issued so far and a `script` of outcomes: every
  storage call consumes the next outcome, which says how long the call takes
  and whether the returned promise rejects (and with which message).  An
  exhausted script means that the call resolves at once.
* An `async` function is run as one uninterrupted sequence of steps; its result
  is a `Res`: the promise resolves (`ok`), rejects (`throw`), or never settles
  (`pending`).  The interleaving of several tasks is modelled separately by a
  step relation (section `Interleaving`).
-/

namespace OshiMemo

/-! ## Strings -/

/-- JavaScript string, as its list of characters. -/
abbrev Str := List Char

/-- Models `s.startsWith(p)`. -/
def startsWith (s p : Str) : Bool := p.isPrefixOf s

/-- Models `s.includes(p)`. -/
def includes : Str → Str → Bool
  | [], p => p.isPrefixOf []
  | c :: s, p => p.isPrefixOf (c :: s) || includes s p

/-- Models `s.replace(p, r)` for a string pattern `p`: only the first occurrence is replaced. -/
def replaceFirst : Str → Str → Str → Str
  | [], p, r => if p.isPrefixOf [] then r else []
  | c :: s, p, r =>
    if p.isPrefixOf (c :: s) then r ++ (c :: s).drop p.length
    else c :: replaceFirst s p r

/-- Decimal rendering of a number inside a template literal. -/
def numToStr (n : Nat) : Str := (Nat.repr n).data

/-! ## Values -/

/-- Annotation (a note of the sidebar). -/
structure Note where
  timestamp : Str
  timestampInSeconds : Nat
  text : Str
deriving DecidableEq, Repr

/-- Record object stored under a `notes_<id>` key; a field that is `none` is
`undefined` (missing). -/
structure Record where
  notes : Option (List Note)
  videoTitle : Option Str
  timestamp : Option Int
  channelIcon : Option Str
deriving DecidableEq, Repr

/-- Values that `chrome.storage.sync` holds for this extension. -/
inductive Val where
  | num (n : Int)
  | str (s : Str)
  | strings (l : List Str)
  | record (r : Record)
deriving DecidableEq, Repr

/-- JavaScript truthiness of a stored value (arrays and objects are truthy). -/
def Val.truthy : Val → Bool
  | .num n => n != 0
  | .str s => s != []
  | .strings _ => true
  | .record _ => true

/-- Truthiness of `result[key]`, which is `undefined` when the key is absent. -/
def truthy : Option Val → Bool
  | none => false
  | some v => v.truthy

/-- Models `value.timestamp` of a stored value (`undefined` when it has no such field). -/
def Val.timestamp : Val → Option Int
  | .record r => r.timestamp
  | _ => none

/-- Models `value.videoTitle`. -/
def Val.videoTitle : Val → Option Str
  | .record r => r.videoTitle
  | _ => none

/-- Models `value.notes`. -/
def Val.notes : Val → Option (List Note)
  | .record r => r.notes
  | _ => none

/-- Models `value.channelIcon`. -/
def Val.channelIcon : Val → Option Str
  | .record r => r.channelIcon
  | _ => none

/-- Numeric value of a stored number; a value that is not a number is left
outside the model and counts as `NaN` (`none`). -/
def Val.toNumber : Val → Option Int
  | .num n => some n
  | _ => none

/-! ## Errors and results -/

/-- Thrown values: a plain `Error` or a `NoteError` with its `type`. -/
inductive JsError where
  | error (message : Str)
  | noteError (message : Str) (type : Str)
deriving DecidableEq, Repr

/-- Models `error.message`. -/
def JsError.message : JsError → Str
  | .error m => m
  | .noteError m _ => m

/-- Outcome of an `async` function run on its own. -/
inductive Res (α : Type) where
  | ok (a : α)
  | throw (e : JsError)
  | pending
deriving DecidableEq, Repr

/-! ## Maps -/

/-- Models `Map.prototype.set` and object property assignment: replace the value of
an existing key in place, or append the new key. -/
def mapSet {β : Type} : List (Str × β) → Str → β → List (Str × β)
  | [], k, v => [(k, v)]
  | (k', v') :: rest, k, v =>
    if k' = k then (k, v) :: rest else (k', v') :: mapSet rest k v

/-- Models `Map.prototype.get` and property lookup. -/
def mapGet {β : Type} : List (Str × β) → Str → Option β
  | [], _ => none
  | (k', v') :: rest, k => if k' = k then some v' else mapGet rest k

/-- Models `Map.prototype.delete` and property removal. -/
def mapDelete {β : Type} (m : List (Str × β)) (k : Str) : List (Str × β) :=
  m.filter (fun kv => kv.1 ≠ k)

/-! ## NoteCache (content.js, lines 18 to 47) -/

/-- Entry of the cache map: `{ data, timestamp }`. -/
structure CacheEntry (α : Type) where
  data : α
  timestamp : Int
deriving DecidableEq, Repr

/-- The `NoteCache` object: its `cache` map. -/
structure NoteCache (α : Type) where
  cache : List (Str × CacheEntry α)
deriving DecidableEq, Repr

/-- Models `this.CACHE_DURATION = 5 * 60 * 1000`. -/
def CACHE_DURATION : Int := 5 * 60 * 1000

/-- Models `NoteCache.set(key, value)` at clock reading `now`. -/
def NoteCache.set {α : Type} (c : NoteCache α) (key : Str) (value : α) (now : Int) :
    NoteCache α :=
  { cache := mapSet c.cache key { data := value, timestamp := now } }

/-- Models `NoteCache.get(key)` at clock reading `now`: the returned value (`none` is
`null`) and the cache afterwards. -/
def NoteCache.get {α : Type} (c : NoteCache α) (key : Str) (now : Int) :
    Option α × NoteCache α :=
  match mapGet c.cache key with
  | none => (none, c)
  | some cached =>
    let isExpired : Bool := decide (now - cached.timestamp > CACHE_DURATION)
    if isExpired then (none, { cache := mapDelete c.cache key })
    else (some cached.data, c)

/-- Models `NoteCache.clear()`. -/
def NoteCache.clear {α : Type} (_c : NoteCache α) : NoteCache α :=
  { cache := [] }

/-! ## The state: `chrome.storage.sync`, the page and the `NoteStorage` object -/

/-- Outcome of one asynchronous storage call: how many milliseconds it takes
and, when the promise rejects, the message of the error. -/
structure Outcome where
  delay : Nat
  error : Option Str
deriving DecidableEq, Repr

/-- Calls of the `chrome.storage.sync` interface. -/
inductive StorageCall where
  | get (key : Str)
  | getAll
  | set (key : Str) (value : Option Val)
  | remove (keys : List Str)
deriving DecidableEq, Repr

/-- State of the content script as far as `NoteStorage` sees it. -/
structure St where
  /-- contents of `chrome.storage.sync` -/
  store : List (Str × Val)
  /-- storage calls issued so far, oldest first -/
  calls : List StorageCall
  /-- outcomes of the storage calls still to come -/
  script : List Outcome
  /-- Models `Date.now()` -/
  clock : Int
  /-- Models `window.location.pathname` -/
  pathname : Str
  /-- Models `new URLSearchParams(window.location.search).get('v')` -/
  vParam : Option Str
  /-- trimmed text of the `h1.style-scope.ytd-watch-metadata` element, if any -/
  pageTitle : Option Str
  /-- Models `this.cache` -/
  cache : NoteCache (List Note)
  /-- Models `this.retentionDays` -/
  retentionDays : Int
  /-- Models `this._initialized` -/
  initialized : Bool
  /-- Models `this.presetLock` -/
  presetLock : Bool
deriving DecidableEq, Repr

/-- The state right after `new NoteStorage()` on a page, over a given store. -/
def St.fresh (store : List (Str × Val)) (clock : Int) (pathname : Str)
    (vParam pageTitle : Option Str) (script : List Outcome) : St :=
  { store := store, calls := [], script := script, clock := clock,
    pathname := pathname, vParam := vParam, pageTitle := pageTitle,
    cache := { cache := [] }, retentionDays := 30, initialized := false,
    presetLock := false }

/-- Issue a storage call: log it, consume the next outcome of the script and
let its delay pass.  Returns the error message when the call rejects. -/
def issue (c : StorageCall) (s : St) : Option Str × St :=
  match s.script with
  | [] => (none, { s with calls := s.calls ++ [c] })
  | o :: rest =>
    (o.error, { s with calls := s.calls ++ [c], script := rest,
                       clock := s.clock + (o.delay : Int) })

/-- Models `await chrome.storage.sync.get(key)`: the value of `result[key]`. -/
def storageGet (key : Str) (s : St) : Res (Option Val) × St :=
  match issue (.get key) s with
  | (some msg, s1) => (.throw (.error msg), s1)
  | (none, s1) => (.ok (mapGet s1.store key), s1)

/-- Models `await chrome.storage.sync.get(null)`: all entries. -/
def storageGetAll (s : St) : Res (List (Str × Val)) × St :=
  match issue .getAll s with
  | (some msg, s1) => (.throw (.error msg), s1)
  | (none, s1) => (.ok s1.store, s1)

/-- Models `await chrome.storage.sync.set({ [key]: value })`; a property whose value
is `undefined` (`none`) is not serialised, so it stores nothing. -/
def storageSet (key : Str) (value : Option Val) (s : St) : Res Unit × St :=
  match issue (.set key value) s with
  | (some msg, s1) => (.throw (.error msg), s1)
  | (none, s1) =>
    match value with
    | none => (.ok (), s1)
    | some v => (.ok (), { s1 with store := mapSet s1.store key v })

/-- Models `await chrome.storage.sync.remove(keys)`. -/
def storageRemove (keys : List Str) (s : St) : Res Unit × St :=
  match issue (.remove keys) s with
  | (some msg, s1) => (.throw (.error msg), s1)
  | (none, s1) => (.ok (), { s1 with store := keys.foldl mapDelete s1.store })

/-! ## NoteStorage (content.js, lines 50 to 484) -/

/-- Models `this.defaultPresets[presetNumber]`; `none` is `undefined`. -/
def defaultPresets : Nat → Option (List Str)
  | 1 => some [
      "[name]の表情が尊すぎる...🥺".data,
      "推しが尊いすぎて無理...😭💕".data,
      "この瞬間ガチ恋...💘".data,
      "[name]の切り替えすごすぎ！💪".data,
      "このシーン沼る...🌟".data,
      "[name]のオーラやばすぎ...✨".data,
      "最高に推せる瞬間...😌💕".data,
      "この表情最強すぎか！？🔥".data,
      "[name]の全てが尊い...🙏✨".data,
      "ここの[name]マジ天才...🎯".data]
  | 2 => some [
      "This performance was everything! ✨".data,
      "[name] ate and left no crumbs! 🔥".data,
      "The slay is real! Period! 💅".data,
      "[name] understood the assignment! 👑".data,
      "Living for this moment! 💖".data,
      "[name]'s energy is unmatched! ⚡️".data,
      "No thoughts, just [name] being iconic! 🌟".data,
      "Main character energy! We love to see it! 🎭".data,
      "[name] never misses! Periodt! 💯".data,
      "This is giving everything it needs to give! ✨".data]
  | 3 => some [
      "[name] 찢었다! 대박! 🔥".data,
      "이 장면 리플 중독... ✨".data,
      "[name] 믿고 보는 중! 💫".data,
      "찐찐찐! 레전드! 👑".data,
      "이 떵떵이 모먼트! 💅".data,
      "[name] 너무 심쿵해... 💝".data,
      "개좋아! 완전 내 취향! 💯".data,
      "역시 [name] 최고야! ⭐️".data,
      "이 부분 무한반복 중... 🎯".data,
      "visceral 찢었다! 👏✨".data]
  | _ => none

/-- Models `_verifyStorageAccess()`. -/
def verifyStorageAccess (s : St) : Res Bool × St :=
  match storageGet "test".data s with
  | (.ok _, s1) => (.ok true, s1)
  | (.throw _, s1) => (.throw (.error "Storage access denied".data), s1)
  | (.pending, s1) => (.pending, s1)

/-- Models `initialize()` of `NoteStorage`. -/
def initializeStorage (s : St) : Res Bool × St :=
  if s.initialized then (.ok true, s)
  else
    match verifyStorageAccess s with
    | (.ok _, s1) => (.ok true, { s1 with initialized := true })
    | (.throw _, s1) => (.ok false, s1)
    | (.pending, s1) => (.pending, s1)

/-- The opening of every public method:
`if (!this._initialized) { await this.initialize(); }`. -/
def ensureInitialized (s : St) : St :=
  if !s.initialized then (initializeStorage s).2 else s

/-- Models `_acquirePresetLock()`, run on its own: while the lock is held the loop
sleeps and tests again, and nothing else runs that could release the lock, so
the promise never settles (`none`). -/
def acquirePresetLock (s : St) : Option St :=
  if s.presetLock then none else some { s with presetLock := true }

/-- Models `_releasePresetLock()`. -/
def releasePresetLock (s : St) : St := { s with presetLock := false }

/-- The key of a preset: the template literal with `preset_templates_` in front of the number. -/
def presetKey (presetNumber : Nat) : Str :=
  "preset_templates_".data ++ numToStr presetNumber

/-- Models `savePresetTemplates(presetNumber, templates)`; `templates = none` is `undefined`. -/
def savePresetTemplates (presetNumber : Nat) (templates : Option (List Str)) (s : St) :
    Res Bool × St :=
  let s0 := ensureInitialized s
  match acquirePresetLock s0 with
  | none => (.pending, s0)
  | some s1 =>
    let key := presetKey presetNumber
    match storageSet key (templates.map Val.strings) s1 with
    | (.ok _, s2) => (.ok true, releasePresetLock s2)
    | (.throw e, s2) => (.throw e, releasePresetLock s2)
    | (.pending, s2) => (.pending, s2)

/-- Models `loadPresetTemplates(presetNumber)`; the result `none` is `undefined`. -/
def loadPresetTemplates (presetNumber : Nat) (s : St) : Res (Option Val) × St :=
  let s0 := ensureInitialized s
  match acquirePresetLock s0 with
  | none => (.pending, s0)
  | some s1 =>
    let key := presetKey presetNumber
    match storageGet key s1 with
    | (.ok result, s2) =>
      (.ok (if truthy result then result else (defaultPresets presetNumber).map Val.strings),
        releasePresetLock s2)
    | (.throw _, s2) =>
      (.ok ((defaultPresets presetNumber).map Val.strings), releasePresetLock s2)
    | (.pending, s2) => (.pending, s2)

/-- Models `_initializePreset(presetNumber)`. -/
def initializePreset (presetNumber : Nat) (s : St) : Res Bool × St :=
  let key := presetKey presetNumber
  match storageGet key s with
  | (.ok result, s1) =>
    if !truthy result then
      match savePresetTemplates presetNumber (defaultPresets presetNumber) s1 with
      | (.ok _, s2) => (.ok true, s2)
      | (.throw e, s2) => (.throw e, s2)
      | (.pending, s2) => (.pending, s2)
    else (.ok true, s1)
  | (.throw e, s1) => (.throw e, s1)
  | (.pending, s1) => (.pending, s1)

/-- Models `getCurrentPreset()`; the result is the stored value when truthy, else `1`. -/
def getCurrentPreset (s : St) : Res Val × St :=
  let s0 := ensureInitialized s
  match storageGet "current_preset".data s0 with
  | (.ok result, s1) =>
    (.ok (match result with
          | some v => if v.truthy then v else .num 1
          | none => .num 1), s1)
  | (.throw _, s1) => (.ok (.num 1), s1)
  | (.pending, s1) => (.pending, s1)

/-- Models `getCurrentVideoId()`; `none` is `null`. -/
def getCurrentVideoId (s : St) : Option Str :=
  if s.pathname ≠ "/watch".data then none else s.vParam

/-- Models `!videoId`: `null` and the empty string are falsy. -/
def noVideoId : Option Str → Bool
  | none => true
  | some v => v == []

/-- The key of a record: the template literal with `notes_` in front of the video id. -/
def notesKey (videoId : Str) : Str := "notes_".data ++ videoId

/-- Models `new NoteError(msg, error.message.includes('quota') ? 'storage' : 'network')`. -/
def classify (msg : Str) (e : JsError) : JsError :=
  .noteError msg (if includes e.message "quota".data then "storage".data else "network".data)

/-- Models `saveNotes(notes)`. -/
def saveNotes (notes : List Note) (s : St) : Res Bool × St :=
  let s0 := ensureInitialized s
  match getCurrentVideoId s0 with
  | none => (.throw (.noteError "Video ID not found".data "loading".data), s0)
  | some videoId =>
    if noVideoId (some videoId) then
      (.throw (.noteError "Video ID not found".data "loading".data), s0)
    else
      let storageKey := notesKey videoId
      let videoTitle : Str :=
        match s0.pageTitle with
        | some t => if t != [] then t else []
        | none => []
      let record : Record :=
        { notes := some notes, videoTitle := some videoTitle,
          timestamp := some s0.clock, channelIcon := none }
      match storageSet storageKey (some (.record record)) s0 with
      | (.ok _, s1) =>
        (.ok true, { s1 with cache := s1.cache.set videoId notes s1.clock })
      | (.throw e, s1) => (.throw (classify "Failed to save notes".data e), s1)
      | (.pending, s1) => (.pending, s1)

/-- Models `loadNotes()`. -/
def loadNotes (s : St) : Res (List Note) × St :=
  let s0 := ensureInitialized s
  match getCurrentVideoId s0 with
  | none => (.throw (.noteError "Video ID not found".data "loading".data), s0)
  | some videoId =>
    if noVideoId (some videoId) then
      (.throw (.noteError "Video ID not found".data "loading".data), s0)
    else
      match s0.cache.get videoId s0.clock with
      | (some cachedNotes, c) => (.ok cachedNotes, { s0 with cache := c })
      | (none, c) =>
        let s1 := { s0 with cache := c }
        let storageKey := notesKey videoId
        match storageGet storageKey s1 with
        | (.ok result, s2) =>
          let notes : List Note :=
            match result with
            | some v => (v.notes).getD []
            | none => []
          (.ok notes, { s2 with cache := s2.cache.set videoId notes s2.clock })
        | (.throw e, s2) =>
          (.throw (classify "Failed to load notes from storage".data e), s2)
        | (.pending, s2) => (.pending, s2)

/-- Models `clearCache()`. -/
def clearCache (s : St) : St := { s with cache := s.cache.clear }

/-- Models `savePresetNumber(number)`. -/
def savePresetNumber (number : Int) (s : St) : Res Bool × St :=
  let s0 := ensureInitialized s
  match storageSet "current_preset".data (some (.num number)) s0 with
  | (.ok _, s1) => (.ok true, s1)
  | (.throw _, s1) => (.ok false, s1)
  | (.pending, s1) => (.pending, s1)

/-- Models `setRetentionDays(days)`. -/
def setRetentionDays (days : Int) (s : St) : Res Bool × St :=
  if days ≥ 7 ∧ days ≤ 365 then
    let s0 := { s with retentionDays := days }
    match storageSet "retentionDays".data (some (.num days)) s0 with
    | (.ok _, s1) => (.ok true, s1)
    | (.throw e, s1) => (.throw e, s1)
    | (.pending, s1) => (.pending, s1)
  else (.ok false, s)

/-- Models `getRetentionDays()`: the stored value when truthy, else `this.retentionDays`. -/
def getRetentionDays (s : St) : Res Val × St :=
  match storageGet "retentionDays".data s with
  | (.ok result, s1) =>
    (.ok (match result with
          | some v => if v.truthy then v else .num s1.retentionDays
          | none => .num s1.retentionDays), s1)
  | (.throw _, s1) => (.ok (.num s1.retentionDays), s1)
  | (.pending, s1) => (.pending, s1)

/-- Summary object that `loadSavedVideos` pushes for a retained record. -/
structure VideoSummary where
  id : Str
  title : Str
  thumbnail : Str
  notes : List Note
  timestamp : Option Int
  channelIcon : Option Str
deriving DecidableEq, Repr

/-- The object pushed at lines 411 to 418 for the entry `key`, `value`. -/
def summaryOf (key : Str) (value : Val) : VideoSummary :=
  let videoId := replaceFirst key "notes_".data []
  { id := videoId,
    title :=
      (match value.videoTitle with
       | some t => if t != [] then t else "Video ".data ++ videoId
       | none => "Video ".data ++ videoId),
    thumbnail := "https://i.ytimg.com/vi/".data ++ videoId ++ "/mqdefault.jpg".data,
    notes := (value.notes).getD [],
    timestamp := value.timestamp,
    channelIcon :=
      (match value.channelIcon with
       | some c => if c != [] then some c else none
       | none => none) }

/-- The test `currentTime - timestamp > retentionPeriod` of line 405, with
`timestamp = value.timestamp || 0`; a comparison with `NaN` (`none`) is false. -/
def expired (currentTime : Int) (retentionPeriod : Option Int) (value : Val) : Bool :=
  let timestamp : Int :=
    match value.timestamp with
    | some t => if t != 0 then t else 0
    | none => 0
  match retentionPeriod with
  | some p => decide (currentTime - timestamp > p)
  | none => false

/-- The `for` loop of `loadSavedVideos` over `Object.entries(allData)`, with
the list `videos` built so far. -/
def loadSavedVideosLoop (currentTime : Int) (retentionPeriod : Option Int) :
    List (Str × Val) → List VideoSummary → St → Res (List VideoSummary) × St
  | [], videos, s => (.ok videos, s)
  | (key, value) :: rest, videos, s =>
    if !startsWith key "notes_".data then
      loadSavedVideosLoop currentTime retentionPeriod rest videos s
    else if expired currentTime retentionPeriod value then
      match storageRemove [key] s with
      | (.ok _, s1) => loadSavedVideosLoop currentTime retentionPeriod rest videos s1
      | (.throw e, s1) => (.throw e, s1)
      | (.pending, s1) => (.pending, s1)
    else
      loadSavedVideosLoop currentTime retentionPeriod rest (videos ++ [summaryOf key value]) s

/-- The comparator `(a, b) => b.timestamp - a.timestamp` as `sort` reads it:
a difference with `undefined` is `NaN`, which `sort` replaces by `0`. -/
def compareVideos (a b : VideoSummary) : Int :=
  match b.timestamp, a.timestamp with
  | some tb, some ta => tb - ta
  | _, _ => 0

/-- The binary search of `BinaryInsertionSort` in V8's `Array.prototype.sort`:
with `left` and `right` the bounds of the search in the sorted part `a`,
`mid = left + ((right - left) >> 1)`, and `right = mid` when
`comparefn(pivot, a[mid]) < 0`, else `left = mid + 1`.  `fuel` bounds the
number of rounds; the length of `a` is enough. -/
def searchPos {α : Type} (cmp : α → α → Int) (pivot : α) (a : List α) : Nat → Nat → Nat → Nat
  | 0, left, _ => left
  | fuel + 1, left, right =>
    if left < right then
      let mid := left + (right - left) / 2
      match a[mid]? with
      | some x =>
        if cmp pivot x < 0 then searchPos cmp pivot a fuel left mid
        else searchPos cmp pivot a fuel (mid + 1) right
      | none => left
    else left

/-- One round of `BinaryInsertionSort`: the pivot is put at the position found
by the binary search in the sorted part. -/
def binaryInsert {α : Type} (cmp : α → α → Int) (sorted : List α) (pivot : α) : List α :=
  let left := searchPos cmp pivot sorted sorted.length 0 sorted.length
  sorted.take left ++ pivot :: sorted.drop left

/-- The loop of V8's `CountAndMakeRun`: the run goes on while
`order = comparefn(currentElement, previousElement)` is negative, for a
descending run, or not negative, for a run that is not descending.  Returns
the further elements of the run and the elements after it. -/
def growRun {α : Type} (cmp : α → α → Int) (isDescending : Bool) :
    α → List α → List α × List α
  | _, [] => ([], [])
  | previousElement, currentElement :: tl =>
    let order := cmp currentElement previousElement
    if (if isDescending then decide (order ≥ 0) else decide (order < 0)) then
      ([], currentElement :: tl)
    else
      ((currentElement :: (growRun cmp isDescending currentElement tl).1),
       (growRun cmp isDescending currentElement tl).2)

/-- V8's `CountAndMakeRun`: the run at the start of the array, reversed when it
is descending (`comparefn(a[1], a[0]) < 0`), and the elements after it. -/
def countAndMakeRun {α : Type} (cmp : α → α → Int) : List α → List α × List α
  | [] => ([], [])
  | [x] => ([x], [])
  | elementHigh :: elementLow :: tl =>
    let isDescending := decide (cmp elementLow elementHigh < 0)
    let run := elementHigh :: elementLow :: (growRun cmp isDescending elementLow tl).1
    (if isDescending then run.reverse else run, (growRun cmp isDescending elementLow tl).2)

/-- `Array.prototype.sort(comparefn)` as V8, the engine of Chrome, runs it on an
array of fewer than 64 elements: the run at the start is found and made
ascending, and the other elements are put into it one by one by binary
insertion.  With a consistent comparator every stable sort returns this list,
whatever the length; with an inconsistent one (a `NaN` result) the order is
implementation-defined, and from 64 elements on V8 merges several runs, which
this definition does not follow. -/
def v8Sort {α : Type} (cmp : α → α → Int) (l : List α) : List α :=
  (countAndMakeRun cmp l).2.foldl (binaryInsert cmp) (countAndMakeRun cmp l).1

/-- Models `videos.sort((a, b) => b.timestamp - a.timestamp)`. -/
def sortVideos (videos : List VideoSummary) : List VideoSummary :=
  v8Sort compareVideos videos

/-- Models `loadSavedVideos()`. -/
def loadSavedVideos (s : St) : Res (List VideoSummary) × St :=
  let s0 := ensureInitialized s
  let failed : JsError := .error "Failed to load saved videos".data
  match getRetentionDays s0 with
  | (.ok retentionDays, s1) =>
    let retentionPeriod : Option Int :=
      (retentionDays.toNumber).map (fun d => d * 24 * 60 * 60 * 1000)
    let currentTime := s1.clock
    match storageGetAll s1 with
    | (.ok allData, s2) =>
      match loadSavedVideosLoop currentTime retentionPeriod allData [] s2 with
      | (.ok videos, s3) => (.ok (sortVideos videos), s3)
      | (.throw _, s3) => (.throw failed, s3)
      | (.pending, s3) => (.pending, s3)
    | (.throw _, s2) => (.throw failed, s2)
    | (.pending, s2) => (.pending, s2)
  | (.throw _, s1) => (.throw failed, s1)
  | (.pending, s1) => (.pending, s1)

/-- Models `this.cache.delete(videoId)` of line 458.  There `this.cache` is the
`NoteCache` object, whose methods are `set`, `get` and `clear` (lines 24 to
46); it has no method `delete`, so the call throws a `TypeError` and leaves
the cache as it is. -/
def cacheDeleteCall (_videoId : Str) (s : St) : Res Unit × St :=
  (.throw (.error "this.cache.delete is not a function".data), s)

/-- Models `deleteVideo(videoId)`: any error thrown in the `try` block, by the
storage call or by the cache call, is caught and turned into `false`. -/
def deleteVideo (videoId : Str) (s : St) : Res Bool × St :=
  let s0 := ensureInitialized s
  match storageRemove [notesKey videoId] s0 with
  | (.ok _, s1) =>
    match cacheDeleteCall videoId s1 with
    | (.ok _, s2) => (.ok true, s2)
    | (.throw _, s2) => (.ok false, s2)
    | (.pending, s2) => (.pending, s2)
  | (.throw _, s1) => (.ok false, s1)
  | (.pending, s1) => (.pending, s1)

/-- Models `clearAllNotes()`. -/
def clearAllNotes (s : St) : Res Bool × St :=
  let s0 := ensureInitialized s
  match storageGetAll s0 with
  | (.ok allData, s1) =>
    let noteKeys := (allData.map Prod.fst).filter (fun key => startsWith key "notes_".data)
    match storageRemove noteKeys s1 with
    | (.ok _, s2) => (.ok true, { s2 with cache := s2.cache.clear })
    | (.throw _, s2) => (.ok false, s2)
    | (.pending, s2) => (.pending, s2)
  | (.throw _, s1) => (.ok false, s1)
  | (.pending, s1) => (.pending, s1)

/-! ## The debounced auto-save (content.js, lines 488 to 499 and 3326 to 3360) -/

/-- Hexadecimal digit, lower case. -/
def hexDigit (n : Nat) : Char :=
  if n < 10 then Char.ofNat (48 + n) else Char.ofNat (87 + n)

/-- Escape of one character inside a JSON string (`QuoteJSONString`). -/
def jsonQuoteChar (c : Char) : Str :=
  if c = '"' then ['\\', '"']
  else if c = '\\' then ['\\', '\\']
  else if c = '\x08' then ['\\', 'b']
  else if c = '\x0c' then ['\\', 'f']
  else if c = '\n' then ['\\', 'n']
  else if c = '\r' then ['\\', 'r']
  else if c = '\t' then ['\\', 't']
  else if c.toNat < 32 then
    ['\\', 'u', '0', '0', hexDigit (c.toNat / 16), hexDigit (c.toNat % 16)]
  else [c]

/-- JSON rendering of a string. -/
def jsonQuote (s : Str) : Str :=
  ['"'] ++ (s.map jsonQuoteChar).flatten ++ ['"']

/-- JSON rendering of a note object, its properties in creation order
(`addNote`, lines 1366 to 1370). -/
def jsonNote (n : Note) : Str :=
  "\x7b\"timestamp\":".data ++ jsonQuote n.timestamp ++
  ",\"timestampInSeconds\":".data ++ numToStr n.timestampInSeconds ++
  ",\"text\":".data ++ jsonQuote n.text ++ "\x7d".data

/-- Items of an array separated by commas. -/
def jsonItems : List Str → Str
  | [] => []
  | [x] => x
  | x :: y :: rest => x ++ [','] ++ jsonItems (y :: rest)

/-- Models `JSON.stringify(notes)`. -/
def jsonStringify (notes : List Note) : Str :=
  ['['] ++ jsonItems (notes.map jsonNote) ++ [']']

/-- Global variables of the content script that take part in the auto-save,
with the pending timers of the page and two records of what has happened. -/
structure Page where
  /-- the `noteStorage` object and its environment -/
  st : St
  /-- Models `let notes = []` -/
  notes : List Note
  /-- Models `let autoSaveTimeout`: `undefined` or the id of the last timer set -/
  autoSaveTimeout : Option Nat
  /-- Models `let lastSavedContent = ''` -/
  lastSavedContent : Str
  /-- Models `let isSaving = false` -/
  isSaving : Bool
  /-- pending `setTimeout(executeAutoSave, 2000)` timers: id and due time -/
  timers : List (Nat × Int)
  /-- id that the next `setTimeout` returns -/
  nextTimerId : Nat
  /-- number of times `executeAutoSave` has been entered -/
  flushes : Nat
  /-- arguments of the `noteStorage.saveNotes` calls made by `executeAutoSave` -/
  saved : List (List Note)
deriving DecidableEq, Repr

/-- Models `executeAutoSave()`. -/
def executeAutoSave (p : Page) : Page :=
  let p := { p with flushes := p.flushes + 1 }
  if p.isSaving then p
  else
    let currentContent := jsonStringify p.notes
    if currentContent = p.lastSavedContent then
      { p with isSaving := false }
    else
      match saveNotes p.notes p.st with
      | (.ok _, st1) =>
        { p with st := st1, saved := p.saved ++ [p.notes],
                 lastSavedContent := currentContent, isSaving := false }
      | (.throw _, st1) =>
        { p with st := st1, saved := p.saved ++ [p.notes],
                 lastSavedContent := [], isSaving := false }
      | (.pending, st1) =>
        { p with st := st1, saved := p.saved ++ [p.notes], isSaving := true }

/-- Models `clearTimeout(id)`; an `undefined` or unknown id clears nothing. -/
def clearTimeout (id : Option Nat) (timers : List (Nat × Int)) : List (Nat × Int) :=
  match id with
  | none => timers
  | some i => timers.filter (fun t => t.1 ≠ i)

/-- Models `triggerAutoSave()`. -/
def triggerAutoSave (p : Page) : Page :=
  { p with
    timers := clearTimeout p.autoSaveTimeout p.timers ++ [(p.nextTimerId, p.st.clock + 2000)],
    autoSaveTimeout := some p.nextTimerId,
    nextTimerId := p.nextTimerId + 1 }

/-- Run the callback of one timer at its due time (or at once when that time
has passed already). -/
def fire (p : Page) (t : Nat × Int) : Page :=
  executeAutoSave { p with st := { p.st with clock := max p.st.clock t.2 } }

/-- The event loop lets the time pass until `t`: the timers due by then fire,
the earliest first, and the others stay pending. -/
def runUntil (t : Int) (p : Page) : Page :=
  let due := (p.timers.filter (fun x => decide (x.2 ≤ t))).insertionSort (fun a b => a.2 ≤ b.2)
  let p1 := { p with timers := p.timers.filter (fun x => decide (t < x.2)) }
  let p2 := due.foldl fire p1
  { p2 with st := { p2.st with clock := max p2.st.clock t } }

/-- A burst of edits: set the note list and call `triggerAutoSave`, then let
`gap` milliseconds pass, for each item in turn. -/
def burst : List (List Note × Nat) → Page → Page
  | [], p => p
  | (notes, gap) :: rest, p =>
    let p1 := triggerAutoSave { p with notes := notes }
    burst rest (runUntil (p1.st.clock + (gap : Int)) p1)

/-! ## Interleaving of preset operations (content.js, lines 136 to 145 and 186 to 220)

Several calls of `savePresetTemplates` and `loadPresetTemplates` are in
flight at once.  JavaScript runs one task at a time and switches only at an
`await`; a step below is one such uninterrupted run of one task. -/

/-- The preset operation that a task runs. -/
inductive PresetOp where
  | save (presetNumber : Nat) (templates : Option (List Str))
  | load (presetNumber : Nat)
deriving DecidableEq, Repr

/-- Where a task stands. -/
inductive Pc where
  /-- called, nothing run yet -/
  | start
  /-- at `await this.initialize()`, the `get('test')` call in flight -/
  | awaitInit
  /-- at the test of `while (this.presetLock)` -/
  | acquire
  /-- at `await new Promise(resolve => setTimeout(resolve, 100))` -/
  | sleeping
  /-- after `this.presetLock = true`, before the `try` block is entered -/
  | locked
  /-- at `await chrome.storage.sync.set(...)` or `get(key)`, the call in flight -/
  | inStorage
  /-- returned or thrown, the `finally` block done -/
  | done
deriving DecidableEq, Repr

/-- Task: its operation and where it stands. -/
structure Task where
  op : PresetOp
  pc : Pc
deriving DecidableEq, Repr

/-- What the tasks do to the lock and to the store, in order of time. -/
inductive Event where
  | acquired (task : Nat)
  | callStarted (task : Nat)
  | callCompleted (task : Nat)
  | released (task : Nat)
deriving DecidableEq, Repr

/-- The tasks in flight with the shared fields they touch. -/
structure Sys where
  tasks : List Task
  presetLock : Bool
  initialized : Bool
  store : List (Str × Val)
  trace : List Event
deriving DecidableEq, Repr

/-- Replace the program counter of task `i`. -/
def Sys.setPc (y : Sys) (i : Nat) (pc : Pc) : Sys :=
  { y with tasks := y.tasks.modify (fun t => { t with pc := pc }) i }

/-- Effect of the storage call of an operation once it has succeeded. -/
def applyOp (op : PresetOp) (store : List (Str × Val)) : List (Str × Val) :=
  match op with
  | .save n (some templates) => mapSet store (presetKey n) (.strings templates)
  | .save _ none => store
  | .load _ => store

/-- One uninterrupted run of task `i`, up to its next `await`.  `ok` tells
whether the storage call that the task was waiting for has succeeded.  A
task that does not exist or is done leaves the system as it is. -/
def step (i : Nat) (ok : Bool) (y : Sys) : Sys :=
  match y.tasks[i]? with
  | none => y
  | some t =>
    match t.pc with
    | .start =>
      -- `if (!this._initialized) { await this.initialize(); }`
      if y.initialized then y.setPc i .acquire else y.setPc i .awaitInit
    | .awaitInit =>
      -- `get('test')` has settled: `this._initialized = true` on success
      { y.setPc i .acquire with initialized := y.initialized || ok }
    | .acquire =>
      -- `while (this.presetLock) { await sleep } this.presetLock = true;`
      if y.presetLock then y.setPc i .sleeping
      else { y.setPc i .locked with presetLock := true, trace := y.trace ++ [.acquired i] }
    | .sleeping => y.setPc i .acquire
    | .locked =>
      -- the `try` block issues its storage call
      { y.setPc i .inStorage with trace := y.trace ++ [.callStarted i] }
    | .inStorage =>
      -- the call has settled; `return` or `catch`, then `finally` releases
      { y.setPc i .done with
        store := if ok then applyOp t.op y.store else y.store,
        presetLock := false,
        trace := y.trace ++ [.callCompleted i, .released i] }
    | .done => y

/-- Run a schedule: which task runs next, and the outcome of its storage call. -/
def runSchedule : List (Nat × Bool) → Sys → Sys
  | [], y => y
  | (i, ok) :: rest, y => runSchedule rest (step i ok y)

/-- The system in which the given operations have just been called. -/
def Sys.launch (ops : List PresetOp) (initialized : Bool) (store : List (Str × Val)) : Sys :=
  { tasks := ops.map (fun op => { op := op, pc := .start }),
    presetLock := false, initialized := initialized, store := store, trace := [] }

/-- Task holds the lock: it stands between `this.presetLock = true` and the
`finally` block. -/
def Pc.holdsLock : Pc → Bool
  | .locked => true
  | .inStorage => true
  | _ => false

/-- Reading one event of the trace, with `cur` the task whose storage call is
in flight, if any: a call may start only when none is in flight, and the call
that completes is the one in flight.  The result `none` is a violation. -/
def scanEvent (cur : Option Nat) : Event → Option (Option Nat)
  | .callStarted i => if cur.isNone then some (some i) else none
  | .callCompleted i => if cur = some i then some none else none
  | _ => some cur

/-- Reading a trace from the left. -/
def scan : Option Nat → List Event → Option (Option Nat)
  | cur, [] => some cur
  | cur, e :: rest => (scanEvent cur e).bind (fun c => scan c rest)

/-- No storage call of a critical section starts while another one is in
flight: every `callStarted i` is followed by `callCompleted i` before the next
`callStarted`. -/
def serialized (trace : List Event) : Bool := (scan none trace).isSome

/-- Invariant of the interleaved runs, with `h` the task that holds the lock
and `cur` the task whose storage call is in flight. -/
structure LockInv (y : Sys) (h cur : Option Nat) : Prop where
  holder : ∀ j t, y.tasks[j]? = some t → (t.pc.holdsLock = true ↔ h = some j)
  holderValid : ∀ j, h = some j → ∃ t, y.tasks[j]? = some t ∧ t.pc.holdsLock = true
  lock : y.presetLock = h.isSome
  scanned : scan none y.trace = some cur
  inFlight : ∀ j t, y.tasks[j]? = some t → (t.pc = .inStorage ↔ cur = some j)
  curValid : ∀ j, cur = some j → h = some j

/-! ## Predicates used in the statements -/

/-- No storage call still to come rejects. -/
def noFaults (s : St) : Prop := ∀ o ∈ s.script, o.error = none

instance (s : St) : Decidable (noFaults s) := by
  unfold noFaults; infer_instance

/-- Error with which the next storage call rejects; `none` when it resolves. -/
def nextError (s : St) : Option Str :=
  match s.script with
  | [] => none
  | o :: _ => o.error

/-- Calls issued after the first `n` ones. -/
def callsSince (n : Nat) (s : St) : List StorageCall := s.calls.drop n

/-- The reading `currentTime = Date.now()` that `loadSavedVideos` takes, after
its initialization and its `getRetentionDays()` call. -/
def listingTime (s : St) : Int := (getRetentionDays (ensureInitialized s)).2.clock

/-- An entry of the store that the loop of `loadSavedVideos` deletes. -/
def evicted (currentTime : Int) (retentionPeriod : Option Int) (e : Str × Val) : Bool :=
  startsWith e.1 "notes_".data && expired currentTime retentionPeriod e.2

/-- An entry of the store that the loop of `loadSavedVideos` lists. -/
def retained (currentTime : Int) (retentionPeriod : Option Int) (e : Str × Val) : Bool :=
  startsWith e.1 "notes_".data && !expired currentTime retentionPeriod e.2

/-- The record under `key` is excluded from the listing `result` and a storage
`remove` has been issued for its key since the first `n` calls. -/
def excludedAndDeleted (key : Str) (value : Val) (result : List VideoSummary)
    (n : Nat) (s1 : St) : Prop :=
  (∀ v ∈ result, v.id ≠ (summaryOf key value).id) ∧
  StorageCall.remove [key] ∈ callsSince n s1

/-- The record under `key` is included in the listing `result` and no storage
`remove` that names its key has been issued since the first `n` calls. -/
def includedAndKept (key : Str) (value : Val) (result : List VideoSummary)
    (n : Nat) (s1 : St) : Prop :=
  summaryOf key value ∈ result ∧
  ∀ keys, key ∈ keys → StorageCall.remove keys ∉ callsSince n s1

/-- A note used in the examples. -/
def exampleNote : Note :=
  { timestamp := "01:23".data, timestampInSeconds := 83, text := "nice".data }

/-- A fresh content script on the watch page of video `abc` at time `1000`. -/
def watchPage (store : List (Str × Val)) (script : List Outcome) : St :=
  St.fresh store 1000 "/watch".data (some "abc".data) (some "Title".data) script


/-- A record saved at time `t` with one note. -/
def exampleRecord (t : Int) : Val :=
  .record { notes := some [exampleNote], videoTitle := some "Title".data,
            timestamp := some t, channelIcon := none }

/-- A page at time `5000000000` whose store holds a record saved 31 days ago
and a record saved 29 days ago; the retention window is the initial 30 days. -/
def listingPage : St :=
  { watchPage [("notes_old".data, exampleRecord 2321600000),
               ("notes_new".data, exampleRecord 2494400000)] [] with
    clock := 5000000000 }

/-- The last of a series of calls: after the burst `items`, the note list is
set to `last` and `triggerAutoSave` is called once more. -/
def lastCall (items : List (List Note × Nat)) (last : List Note) (p : Page) : Page :=
  triggerAutoSave { burst items p with notes := last }

/-- The page `T` milliseconds after the last call of the series. -/
def afterQuiet (items : List (List Note × Nat)) (last : List Note) (T : Nat) (p : Page) :
    Page :=
  runUntil ((lastCall items last p).st.clock + (T : Int)) (lastCall items last p)

/-- A page on which the note list `[exampleNote]` has just been saved. -/
def savedPage : Page :=
  { st := watchPage [] [], notes := [exampleNote], autoSaveTimeout := none,
    lastSavedContent := jsonStringify [exampleNote], isSaving := false,
    timers := [], nextTimerId := 1, flushes := 0, saved := [] }

/-- Two `savePresetTemplates` calls in flight at once, for presets 1 and 2, on
a store that is not initialized yet. -/
def twoSaves : Sys :=
  Sys.launch [.save 1 (some [['A']]), .save 2 (some [['B']])] false []

/-- A schedule for `twoSaves` in which the second task tests the lock while the
first holds it, sleeps, and takes the lock after the first has released it. -/
def twoSavesSchedule : List (Nat × Bool) :=
  [(0, true), (1, true), (0, true), (1, true), (0, true), (1, true), (0, true), (1, true),
   (0, true), (1, true), (1, true), (1, true), (1, true)]

/-- The state in which the loop of `loadSavedVideos` begins: after the
initialization, the `getRetentionDays()` call and the `get(null)` call. -/
def listingState (s : St) : St :=
  (storageGetAll (getRetentionDays (ensureInitialized s)).2).2

/-- The retention period that `loadSavedVideos` computes from the value `v`
returned by `getRetentionDays()`. -/
def retentionPeriodOf (v : Val) : Option Int :=
  (v.toNumber).map (fun d => d * 24 * 60 * 60 * 1000)

/-- The listing `l` is in descending order of time stamp: of two summaries,
the one that stands first has a time stamp that is not smaller. -/
def descending (l : List VideoSummary) : Prop :=
  l.Pairwise (fun a b => ∃ ta tb, a.timestamp = some ta ∧ b.timestamp = some tb ∧ tb ≤ ta)

/-- The watch page of video `abc` on which one note has been saved and is
cached, already initialized. -/
def cachedPage : St := (saveNotes [exampleNote] (watchPage [] [])).2

/-- The page `listingPage` on which the `remove` call, the fourth storage call
of the listing, rejects. -/
def faultyListingPage : St :=
  { listingPage with
    script := [⟨0, none⟩, ⟨0, none⟩, ⟨0, none⟩, ⟨0, some "network down".data⟩] }

/-- A fresh content script on the home page, where no video is shown. -/
def homePage : St := St.fresh [] 1000 "/".data none none []

/-- The record `{ notes, videoTitle, timestamp: now }` for a note list: the
title is the page title, empty when unavailable, and `now` is the clock when
the record is built, after the initialization. -/
def recordOf (notes : List Note) (s : St) : Val :=
  .record { notes := some notes, videoTitle := some (s.pageTitle.getD []),
            timestamp := some (ensureInitialized s).clock, channelIcon := none }

/-- The page `watchPage` on which the storage write of `saveNotes`, the second
storage call, rejects for a quota reason. -/
def quotaPage : St :=
  watchPage [] [⟨0, none⟩, ⟨0, some "QUOTA_BYTES quota exceeded".data⟩]

/-- A page whose store holds a record, a custom preset and the retention
window, with the notes of the record cached. -/
def mixedPage : St :=
  { cachedPage with
    store := [(notesKey "abc".data, exampleRecord 500),
              (presetKey 1, .strings [['A']]),
              ("retentionDays".data, .num 60)] }

/-- A record without a time stamp. -/
def unstampedRecord : Val :=
  .record { notes := some [exampleNote], videoTitle := some "Title".data,
            timestamp := none, channelIcon := none }

/-- A page at time `1700000000000` whose store holds a retention window of
100000 days, a record saved two days ago, a record without a time stamp and a
record saved one day ago. -/
def unstampedPage : St :=
  { watchPage [("notes_a".data, exampleRecord 1699827200000),
               ("notes_b".data, unstampedRecord),
               ("notes_c".data, exampleRecord 1699913600000),
               ("retentionDays".data, .num 100000)] [] with
    clock := 1700000000000 }

/-- A page at time `5000000000` whose store holds two records within the
retention window, the older one first. -/
def recentPage : St :=
  { watchPage [("notes_a".data, exampleRecord 2494400000),
               ("notes_b".data, exampleRecord 4000000000)] [] with
    clock := 5000000000 }

/-- A fresh content script over an empty store, as at the first use of the
extension. -/
def firstUsePage : St := watchPage [] []

/-! ## Errors by name, preset numbers and opening a video -/

/-- Models `error.name`: `Error` for a plain error and `NoteError` for a
`NoteError` (line 12); the source defines no other error class. -/
def JsError.name : JsError → Str
  | .error _ => "Error".data
  | .noteError _ _ => "NoteError".data

/-- A series of `savePresetNumber` calls, one after the other. -/
def savePresetNumbers : List Int → St → St
  | [], s => s
  | number :: rest, s => savePresetNumbers rest (savePresetNumber number s).2

/-- Models `handleVideoOpen(videoId)` (lines 431 to 448).  `sendError` is the
message with which `chrome.runtime.sendMessage` rejects, if it does.  The
result comes with the list of the URLs passed to `window.open`.  The constant
`url` is declared inside the `try` block (line 439), so the name is not in
scope in the `catch` block: evaluating `window.open(url, '_blank')` there
(line 445) throws a `ReferenceError` before anything is opened. -/
def handleVideoOpen (videoId : Str) (sendError : Option Str) : Res Bool × List Str :=
  match sendError with
  | none =>
    let url := "https://www.youtube.com/watch?v=".data ++ videoId
    (.ok true, [url])
  | some _ => (.throw (.error "url is not defined".data), [])

/-! ## Time stamps and the order of notes (content.js, lines 2020 to 2029, 2232
to 2238, 2347 to 2358 and 1359 to 1384) -/

/-- Models `str.padStart(2, '0')`. -/
def padStart2 (str : Str) : Str :=
  List.replicate (2 - str.length) '0' ++ str

/-- Models `formatTimestamp(seconds)` for a whole number of seconds. -/
def formatTimestamp (seconds : Nat) : Str :=
  let hours := seconds / 3600
  let minutes := (seconds % 3600) / 60
  let secs := seconds % 60
  if hours > 0 then
    padStart2 (numToStr hours) ++ [':'] ++ padStart2 (numToStr minutes) ++ [':'] ++
      padStart2 (numToStr secs)
  else
    padStart2 (numToStr minutes) ++ [':'] ++ padStart2 (numToStr secs)

/-- Models `str.split(':')`, with the field read so far in `cur`. -/
def splitColonAux : Str → Str → List Str
  | cur, [] => [cur]
  | cur, c :: rest =>
    if c = ':' then cur :: splitColonAux [] rest else splitColonAux (cur ++ [c]) rest

/-- Models `str.split(':')`. -/
def splitColon (str : Str) : List Str := splitColonAux [] str

/-- Value of a decimal digit; `none` for any other character. -/
def digitValue (c : Char) : Option Nat :=
  if '0' ≤ c ∧ c ≤ '9' then some (c.toNat - 48) else none

/-- Reading decimal digits from the left, with the value read so far. -/
def parseDigits : Nat → Str → Option Nat
  | acc, [] => some acc
  | acc, c :: rest =>
    match digitValue c with
    | some d => parseDigits (acc * 10 + d) rest
    | none => none

/-- Models `Number(str)` on strings of decimal digits, the empty string
included (`Number('') = 0`); any other string is left outside the model and
counts as `NaN` (`none`). -/
def jsNumber (str : Str) : Option Nat := parseDigits 0 str

/-- Models `convertTimestampToSeconds(timestamp)`; `none` is `NaN`. -/
def convertTimestampToSeconds (timestamp : Str) : Option Nat :=
  match (splitColon timestamp).map jsNumber with
  | [p0, p1, p2] =>
    match p0, p1, p2 with
    | some h, some m, some sec => some (h * 3600 + m * 60 + sec)
    | _, _, _ => none
  | [p0, p1] =>
    match p0, p1 with
    | some m, some sec => some (m * 60 + sec)
    | _, _ => none
  | _ => none

/-- The number `aMinutes * 60 + aSeconds` of `sortNotesByTimestamp`, where
`[aMinutes, aSeconds]` are the first two fields of
`a.timestamp.split(':').map(Number)`; `none` is `NaN`, also when a field is
missing (`undefined`). -/
def sortKey (a : Note) : Option Nat :=
  match (splitColon a.timestamp).map jsNumber with
  | some aMinutes :: some aSeconds :: _ => some (aMinutes * 60 + aSeconds)
  | _ => none

/-- The comparator of `sortNotesByTimestamp` is not positive, so that `a` may
stand before `b`; a `NaN` result is treated by `sort` as `0`. -/
def timecodeOrder (a b : Note) : Bool :=
  match sortKey a, sortKey b with
  | some ka, some kb => decide ((ka : Int) - (kb : Int) ≤ 0)
  | _, _ => true

/-- Models `sortNotesByTimestamp()` on the note list: a stable sort. -/
def sortNotesByTimestamp (notes : List Note) : List Note :=
  notes.insertionSort (fun a b => timecodeOrder a b = true)

/-- Models `addNote()`; `currentTime` is `player.currentTime` in whole
seconds, `none` when the page has no `video` element.  An error thrown by
`saveNotes` is caught and reported by a toast. -/
def addNote (currentTime : Option Nat) (p : Page) : Page :=
  match currentTime with
  | none => p
  | some t =>
    let newNote : Note :=
      { timestamp := formatTimestamp t, timestampInSeconds := t, text := [] }
    let notes := sortNotesByTimestamp (p.notes ++ [newNote])
    { p with notes := notes, st := (saveNotes notes p.st).2 }

/-- The note list is in ascending order of `timestampInSeconds`. -/
def ascending (notes : List Note) : Prop :=
  notes.Pairwise (fun a b => a.timestampInSeconds ≤ b.timestampInSeconds)

instance (notes : List Note) : Decidable (ascending notes) := by
  unfold ascending; infer_instance

/-- A page of video `abc` with one note at two minutes. -/
def twoMinutePage : Page :=
  { st := watchPage [] [],
    notes := [{ timestamp := formatTimestamp 120, timestampInSeconds := 120,
                text := "intro".data }],
    autoSaveTimeout := none, lastSavedContent := [], isSaving := false,
    timers := [], nextTimerId := 1, flushes := 0, saved := [] }

/-- A fresh page on which the write of `savePresetTemplates`, the second
storage call, rejects. -/
def failingWritePage : St :=
  watchPage [] [⟨0, none⟩, ⟨0, some "network down".data⟩]

/-- The value under `current_preset` is absent or one of 1, 2, 3. -/
def presetInRange (s : St) : Prop :=
  mapGet s.store "current_preset".data = none ∨
  ∃ k : Int, (k = 1 ∨ k = 2 ∨ k = 3) ∧ mapGet s.store "current_preset".data = some (.num k)

/-- The auto-save variables while flushes may overlap: `awaiting` lists the
flushes suspended at `await noteStorage.saveNotes(notes)`, each with its
`currentContent`, and `saveCalls` counts the `saveNotes` calls made. -/
structure FlushSys where
  notes : List Note
  lastSavedContent : Str
  isSaving : Bool
  awaiting : List Str
  saveCalls : Nat
deriving DecidableEq, Repr

/-- What happens on the page between two uninterrupted runs. -/
inductive FlushEvent where
  /-- the user edits the note list -/
  | edit (notes : List Note)
  /-- `executeAutoSave` is invoked, by a timer or on `visibilitychange` -/
  | enter
  /-- the `saveNotes` call of the flush that waits longest settles -/
  | settle (ok : Bool)
deriving DecidableEq, Repr

/-- One uninterrupted run.  `enter` is `executeAutoSave` up to its `await`
(lines 3327 to 3339, with the `finally` of line 3351 on the early return of
line 3335); `settle` is the rest of it (lines 3340 to 3352). -/
def flushStep : FlushEvent → FlushSys → FlushSys
  | .edit notes, y => { y with notes := notes }
  | .enter, y =>
    if y.isSaving then y
    else
      let currentContent := jsonStringify y.notes
      if currentContent = y.lastSavedContent then { y with isSaving := false }
      else
        { y with isSaving := true, awaiting := y.awaiting ++ [currentContent],
                 saveCalls := y.saveCalls + 1 }
  | .settle ok, y =>
    match y.awaiting with
    | [] => y
    | currentContent :: rest =>
      { y with awaiting := rest,
               lastSavedContent := if ok then currentContent else [],
               isSaving := false }

/-- Run a series of events. -/
def flushRun : List FlushEvent → FlushSys → FlushSys
  | [], y => y
  | e :: rest, y => flushRun rest (flushStep e y)

/-- The auto-save variables when the content script starts (lines 488 to 499). -/
def FlushSys.start : FlushSys :=
  { notes := [], lastSavedContent := [], isSaving := false, awaiting := [], saveCalls := 0 }

/-- The page `savedPage` with an edited note and a storage write that rejects. -/
def failingSavePage : Page :=
  { savedPage with
    notes := [{ exampleNote with text := "nicer".data }],
    st := quotaPage }

/-! # Theorems -/

/-! ## Maps -/

theorem mapGet_mapSet_self {β : Type} (m : List (Str × β)) (k : Str) (v : β) :
    mapGet (mapSet m k v) k = some v := by
  induction m with
  | nil => simp [mapSet, mapGet]
  | cons kv rest ih =>
    obtain ⟨k', v'⟩ := kv
    by_cases h : k' = k
    · simp [mapSet, mapGet, h]
    · simp [mapSet, mapGet, h, ih]

theorem mapGet_mapSet_other {β : Type} (m : List (Str × β)) (k k2 : Str) (v : β)
    (h : k2 ≠ k) : mapGet (mapSet m k v) k2 = mapGet m k2 := by
  induction m with
  | nil => simp [mapSet, mapGet, h.symm]
  | cons kv rest ih =>
    obtain ⟨k', v'⟩ := kv
    by_cases h1 : k' = k
    · subst h1
      simp [mapSet, mapGet, h.symm]
    · by_cases h2 : k' = k2
      · subst h2
        simp [mapSet, mapGet, h1]
      · simp [mapSet, mapGet, h1, h2, ih]

theorem mapGet_mapDelete_self {β : Type} (m : List (Str × β)) (k : Str) :
    mapGet (mapDelete m k) k = none := by
  induction m with
  | nil => simp [mapDelete, mapGet]
  | cons kv rest ih =>
    obtain ⟨k', v'⟩ := kv
    by_cases h : k' = k
    · simpa [mapDelete, List.filter_cons, h] using ih
    · simpa [mapDelete, List.filter_cons, h, mapGet] using ih

/-! ## NoteCache -/

/-- C7: an entry stored by `NoteCache.set` at time `t0` is still returned by
`NoteCache.get` at `t0 + TTL - 1` ms and `get` returns `null` at
`t0 + TTL + 1` ms, where `TTL = CACHE_DURATION = 300000` ms. -/
theorem C7_ttl_expiry {α : Type} (c : NoteCache α) (key : Str) (value : α) (t0 : Int) :
    CACHE_DURATION = 300000 ∧
    ((c.set key value t0).get key (t0 + CACHE_DURATION - 1)).1 = some value ∧
    ((c.set key value t0).get key (t0 + CACHE_DURATION + 1)).1 = none := by
  refine ⟨by decide, ?_, ?_⟩
  · have h : ¬ (CACHE_DURATION < t0 + CACHE_DURATION - 1 - t0) := by omega
    simp [NoteCache.get, NoteCache.set, mapGet_mapSet_self, h]
  · have h : CACHE_DURATION < t0 + CACHE_DURATION + 1 - t0 := by omega
    simp [NoteCache.get, NoteCache.set, mapGet_mapSet_self, h]

/-- C8, as stated, fails: an entry stored at time `0` and looked up at time
`300000`, that is with `now - storedAt = TTL` (not below `TTL`), is returned
and stays in the map. -/
theorem C8_counterexample :
    ¬ ((300000 : Int) - 0 < CACHE_DURATION) ∧
    (((⟨[]⟩ : NoteCache Nat).set ['k'] 7 0).get ['k'] 300000)
      = (some 7, ⟨[(['k'], ⟨7, 0⟩)]⟩) := by
  decide

/-- C8, amended: `NoteCache.get(key)` returns the stored value, and leaves the
map as it is, exactly when `now - storedAt ≤ TTL`; in every other case (that
is when `now - storedAt > TTL`) it removes the entry from the map and returns
absent (`null`). -/
theorem C8_cache_visibility {α : Type} (c : NoteCache α) (key : Str)
    (entry : CacheEntry α) (now : Int) (h : mapGet c.cache key = some entry) :
    (now - entry.timestamp ≤ CACHE_DURATION →
        c.get key now = (some entry.data, c)) ∧
    (¬ (now - entry.timestamp ≤ CACHE_DURATION) →
        (c.get key now).1 = none ∧
        (c.get key now).2.cache = mapDelete c.cache key ∧
        mapGet (c.get key now).2.cache key = none) := by
  constructor
  · intro hle
    have : ¬ (now - entry.timestamp > CACHE_DURATION) := not_lt.mpr hle
    simp [NoteCache.get, h, this]
  · intro hgt
    have : now - entry.timestamp > CACHE_DURATION := not_le.mp hgt
    simp [NoteCache.get, h, this, mapGet_mapDelete_self]

/-- Witness of `C8_cache_visibility`: an entry stored at time `100`, looked up
at time `200`. -/
theorem C8_cache_visibility_witness :
    mapGet (⟨[(['k'], ⟨7, 100⟩)]⟩ : NoteCache Nat).cache ['k'] = some ⟨7, 100⟩ ∧
    ((⟨[(['k'], ⟨7, 100⟩)]⟩ : NoteCache Nat).get ['k'] 200
      = (some 7, ⟨[(['k'], ⟨7, 100⟩)]⟩)) :=
  ⟨by decide,
   (C8_cache_visibility ⟨[(['k'], ⟨7, 100⟩)]⟩ ['k'] ⟨7, 100⟩ 200 (by decide)).1 (by decide)⟩

/-! ## Storage calls -/

theorem issue_fst (c : StorageCall) (s : St) : (issue c s).1 = nextError s := by
  unfold issue nextError
  cases s.script <;> rfl

theorem issue_store (c : StorageCall) (s : St) : (issue c s).2.store = s.store := by
  unfold issue
  cases s.script <;> rfl

theorem issue_calls (c : StorageCall) (s : St) : (issue c s).2.calls = s.calls ++ [c] := by
  unfold issue
  cases s.script <;> rfl

theorem issue_retentionDays (c : StorageCall) (s : St) :
    (issue c s).2.retentionDays = s.retentionDays := by
  unfold issue
  cases s.script <;> rfl

theorem issue_cache (c : StorageCall) (s : St) : (issue c s).2.cache = s.cache := by
  unfold issue
  cases s.script <;> rfl

theorem issue_presetLock (c : StorageCall) (s : St) :
    (issue c s).2.presetLock = s.presetLock := by
  unfold issue
  cases s.script <;> rfl

theorem issue_initialized (c : StorageCall) (s : St) :
    (issue c s).2.initialized = s.initialized := by
  unfold issue
  cases s.script <;> rfl

theorem issue_pathname (c : StorageCall) (s : St) :
    (issue c s).2.pathname = s.pathname := by
  unfold issue
  cases s.script <;> rfl

theorem issue_vParam (c : StorageCall) (s : St) : (issue c s).2.vParam = s.vParam := by
  unfold issue
  cases s.script <;> rfl

theorem issue_script (c : StorageCall) (s : St) : (issue c s).2.script = s.script.tail := by
  unfold issue
  cases s.script <;> rfl

theorem nextError_of_noFaults (s : St) (h : noFaults s) : nextError s = none := by
  unfold nextError
  cases hs : s.script with
  | nil => rfl
  | cons o rest => exact h o (by simp [hs])

theorem noFaults_issue (c : StorageCall) (s : St) (h : noFaults s) :
    noFaults (issue c s).2 := by
  intro o ho
  rw [issue_script] at ho
  exact h o (List.mem_of_mem_tail ho)

/-! ## Retention window -/

/-- C3: for every `days` below 7 or above 365, `setRetentionDays(days)` returns
`false`, issues no storage call, leaves the store and the field
`retentionDays` unchanged (the whole state is unchanged), so that
`getRetentionDays()` gives the same result before and after the call. -/
theorem C3_retention_rejected (days : Int) (s : St) (h : days < 7 ∨ days > 365) :
    setRetentionDays days s = (.ok false, s) ∧
    (setRetentionDays days s).2.calls = s.calls ∧
    (setRetentionDays days s).2.store = s.store ∧
    (setRetentionDays days s).2.retentionDays = s.retentionDays ∧
    getRetentionDays (setRetentionDays days s).2 = getRetentionDays s := by
  have hn : ¬ (days ≥ 7 ∧ days ≤ 365) := by omega
  have h0 : setRetentionDays days s = (.ok false, s) := by
    simp [setRetentionDays, hn]
  simp [h0]

/-- Witness of `C3_retention_rejected`: 6 days on a fresh page. -/
theorem C3_retention_rejected_witness :
    ((6 : Int) < 7 ∨ (6 : Int) > 365) ∧
    setRetentionDays 6 (St.fresh [] 0 [] none none []) =
      (.ok false, St.fresh [] 0 [] none none []) :=
  ⟨by decide, (C3_retention_rejected 6 (St.fresh [] 0 [] none none []) (by decide)).1⟩

/-- C4: for every integer `days` with `7 ≤ days ≤ 365`, when the storage
write does not reject, `setRetentionDays(days)` returns `true` and a
subsequent `getRetentionDays()` returns exactly `days` (whether its own read
resolves or rejects). -/
theorem C4_retention_accepted (days : Int) (s : St) (h7 : 7 ≤ days) (h365 : days ≤ 365)
    (hok : nextError s = none) :
    (setRetentionDays days s).1 = .ok true ∧
    (getRetentionDays (setRetentionDays days s).2).1 = .ok (.num days) := by
  have hin : days ≥ 7 ∧ days ≤ 365 := ⟨h7, h365⟩
  have hne : days ≠ 0 := by omega
  have hi : ∀ c, (issue c { s with retentionDays := days }).1 = none := by
    intro c; rw [issue_fst]; exact hok
  have hset : setRetentionDays days s =
      (.ok true, { (issue (.set "retentionDays".data (some (.num days)))
                      { s with retentionDays := days }).2 with
                   store := mapSet s.store "retentionDays".data (.num days) }) := by
    have h1 := hi (.set "retentionDays".data (some (.num days)))
    have h2 := issue_store (.set "retentionDays".data (some (.num days)))
      { s with retentionDays := days }
    simp only [setRetentionDays, hin, and_self, if_true, storageSet]
    generalize issue (.set "retentionDays".data (some (.num days)))
      { s with retentionDays := days } = r at h1 h2 ⊢
    obtain ⟨e, s1⟩ := r
    simp only at h1 h2
    subst h1
    simp [h2]
  rw [hset]
  refine ⟨rfl, ?_⟩
  simp only [getRetentionDays, storageGet]
  generalize hr : issue (.get "retentionDays".data) _ = r
  obtain ⟨e, s2⟩ := r
  have hst := issue_store (.get "retentionDays".data)
    { (issue (.set "retentionDays".data (some (.num days)))
        { s with retentionDays := days }).2 with
      store := mapSet s.store "retentionDays".data (.num days) }
  have hrd := issue_retentionDays (.get "retentionDays".data)
    { (issue (.set "retentionDays".data (some (.num days)))
        { s with retentionDays := days }).2 with
      store := mapSet s.store "retentionDays".data (.num days) }
  rw [hr] at hst hrd
  simp only at hst hrd
  have hrd2 : s2.retentionDays = days := by
    rw [hrd, issue_retentionDays]
  cases e with
  | some msg => simp [hrd2]
  | none => simp [hst, mapGet_mapSet_self, Val.truthy, hne]

/-- Witness of `C4_retention_accepted`: 45 days on a fresh page (whose field
`retentionDays` is 30) with a storage call that resolves. -/
theorem C4_retention_accepted_witness :
    (setRetentionDays 45 (St.fresh [] 0 [] none none [])).1 = .ok true ∧
    (getRetentionDays (setRetentionDays 45 (St.fresh [] 0 [] none none [])).2).1
      = .ok (.num 45) :=
  C4_retention_accepted 45 (St.fresh [] 0 [] none none []) (by decide) (by decide) (by rfl)

/-! ## Initialization -/

theorem ensureInitialized_frame (s : St) :
    (ensureInitialized s).cache = s.cache ∧
    (ensureInitialized s).pathname = s.pathname ∧
    (ensureInitialized s).vParam = s.vParam ∧
    (ensureInitialized s).store = s.store ∧
    (ensureInitialized s).presetLock = s.presetLock ∧
    (ensureInitialized s).retentionDays = s.retentionDays ∧
    ((ensureInitialized s).calls = s.calls ∨
     (ensureInitialized s).calls = s.calls ++ [.get "test".data]) := by
  unfold ensureInitialized
  cases hi : s.initialized with
  | true => simp
  | false =>
    have h1 := issue_cache (.get "test".data) s
    have h2 := issue_pathname (.get "test".data) s
    have h3 := issue_vParam (.get "test".data) s
    have h4 := issue_store (.get "test".data) s
    have h5 := issue_presetLock (.get "test".data) s
    have h6 := issue_retentionDays (.get "test".data) s
    have h7 := issue_calls (.get "test".data) s
    simp only [initializeStorage, hi, verifyStorageAccess, storageGet]
    generalize issue (.get "test".data) s = r at h1 h2 h3 h4 h5 h6 h7
    obtain ⟨e, s1⟩ := r
    cases e <;> simp_all

theorem noFaults_ensureInitialized (s : St) (h : noFaults s) :
    noFaults (ensureInitialized s) := by
  unfold ensureInitialized
  cases hi : s.initialized with
  | true => simpa using h
  | false =>
    have h1 := noFaults_issue (.get "test".data) s h
    have h2 := issue_fst (.get "test".data) s
    rw [nextError_of_noFaults s h] at h2
    simp only [initializeStorage, hi, verifyStorageAccess, storageGet]
    generalize issue (.get "test".data) s = r at h1 h2
    obtain ⟨e, s1⟩ := r
    simp only at h2
    subst h2
    simpa [noFaults] using h1

/-! ## Notes store -/

theorem getCurrentVideoId_congr (a b : St) (hp : a.pathname = b.pathname)
    (hv : a.vParam = b.vParam) : getCurrentVideoId a = getCurrentVideoId b := by
  simp [getCurrentVideoId, hp, hv]

/-- What a successful `saveNotes` leaves behind: the page shows a video and the
cache holds the saved list under its id, stamped with the clock at the end. -/
theorem saveNotes_ok (notes : List Note) (s s1 : St)
    (h : saveNotes notes s = (.ok true, s1)) :
    ∃ videoId, videoId ≠ [] ∧ getCurrentVideoId s1 = some videoId ∧
      mapGet s1.cache.cache videoId = some ⟨notes, s1.clock⟩ := by
  obtain ⟨-, hp, hv, -, -, -, -⟩ := ensureInitialized_frame s
  unfold saveNotes at h
  simp only at h
  cases hid : getCurrentVideoId (ensureInitialized s) with
  | none => simp [hid] at h
  | some videoId =>
    simp only [hid] at h
    by_cases hne : videoId = []
    · simp [hne, noVideoId] at h
    · have hno : noVideoId (some videoId) = false := by simp [noVideoId, hne]
      simp only [hno, storageSet] at h
      generalize hc : StorageCall.set (notesKey videoId) _ = c at h
      have h2 := issue_pathname c (ensureInitialized s)
      have h3 := issue_vParam c (ensureInitialized s)
      generalize issue c (ensureInitialized s) = r at h h2 h3
      obtain ⟨e, s2⟩ := r
      cases e with
      | some msg => simp at h
      | none =>
        simp only [Bool.false_eq_true, if_false, Prod.mk.injEq, true_and] at h
        subst h
        refine ⟨videoId, hne, ?_, ?_⟩
        · rw [← hid]
          exact getCurrentVideoId_congr _ _ (by simpa using h2) (by simpa using h3)
        · simp [NoteCache.set, mapGet_mapSet_self]

/-- C1: cache coherence.  After `saveNotes(X)` has succeeded (state `s1`), a
`loadNotes()` for the same video, run in any state `s2` that has the cache and
the location of `s1` and in which the clock at the cache lookup is not more
than `CACHE_DURATION` past the time of the save, returns `X`; the only storage
call it can make is the `get('test')` of a pending initialization, so it makes
no read of the `notes_<id>` record (neither `get(notes_<id>)` nor `get(null)`). -/
theorem C1_cache_coherence (X : List Note) (s s1 s2 : St)
    (hsave : saveNotes X s = (.ok true, s1))
    (hcache : s2.cache = s1.cache) (hpath : s2.pathname = s1.pathname)
    (hv : s2.vParam = s1.vParam)
    (hclock : (ensureInitialized s2).clock - s1.clock ≤ CACHE_DURATION) :
    (loadNotes s2).1 = .ok X ∧
    (∀ c ∈ callsSince s2.calls.length (loadNotes s2).2, c = .get "test".data) ∧
    (∀ videoId, StorageCall.get (notesKey videoId) ∉
        callsSince s2.calls.length (loadNotes s2).2) ∧
    StorageCall.getAll ∉ callsSince s2.calls.length (loadNotes s2).2 := by
  obtain ⟨videoId, hne, hid, hget⟩ := saveNotes_ok X s s1 hsave
  obtain ⟨hc0, hp0, hv0, -, -, -, hcalls⟩ := ensureInitialized_frame s2
  have hid0 : getCurrentVideoId (ensureInitialized s2) = some videoId := by
    rw [← hid]
    exact getCurrentVideoId_congr _ _ (hp0.trans hpath) (hv0.trans hv)
  have hno : noVideoId (some videoId) = false := by simp [noVideoId, hne]
  have hget0 : mapGet (ensureInitialized s2).cache.cache videoId = some ⟨X, s1.clock⟩ := by
    rw [hc0, hcache]; exact hget
  have hfresh : ¬ ((ensureInitialized s2).clock - s1.clock > CACHE_DURATION) :=
    not_lt.mpr hclock
  have hload : loadNotes s2 = (.ok X, ensureInitialized s2) := by
    unfold loadNotes
    simp [hid0, hno, NoteCache.get, hget0, hfresh]
  have hall : ∀ c ∈ callsSince s2.calls.length (loadNotes s2).2, c = .get "test".data := by
    intro c hc
    rw [hload] at hc
    simp only [callsSince] at hc
    rcases hcalls with h | h
    · rw [h] at hc; simp at hc
    · rw [h] at hc; simpa using hc
  refine ⟨by rw [hload], hall, ?_, ?_⟩
  · intro v hmem
    have := hall _ hmem
    simp [notesKey] at this
  · intro hmem
    have := hall _ hmem
    simp at this

/-- Witness of `C1_cache_coherence`: save one note on the watch page of video
`abc` and load 300000 ms later. -/
theorem C1_cache_coherence_witness :
    (loadNotes { (saveNotes [exampleNote] (watchPage [] [])).2 with clock := 301000 }).1
      = .ok [exampleNote] :=
  (C1_cache_coherence [exampleNote] (watchPage [] [])
    (saveNotes [exampleNote] (watchPage [] [])).2
    { (saveNotes [exampleNote] (watchPage [] [])).2 with clock := 301000 }
    (by decide) rfl rfl rfl (by decide)).1

/-! ## Listing and retention -/

theorem storageRemove_calls (keys : List Str) (s : St) :
    (storageRemove keys s).2.calls = s.calls ++ [.remove keys] := by
  have h := issue_calls (.remove keys) s
  unfold storageRemove
  generalize issue (.remove keys) s = r at h
  obtain ⟨e, s1⟩ := r
  cases e <;> simpa using h

theorem storageRemove_noFaults (keys : List Str) (s : St) (h : noFaults s) :
    (storageRemove keys s).1 = .ok () ∧ noFaults (storageRemove keys s).2 := by
  have h1 := noFaults_issue (.remove keys) s h
  have h2 := issue_fst (.remove keys) s
  rw [nextError_of_noFaults s h] at h2
  unfold storageRemove
  generalize issue (.remove keys) s = r at h1 h2
  obtain ⟨e, s1⟩ := r
  simp only at h2
  subst h2
  exact ⟨rfl, by simpa [noFaults] using h1⟩

/-- The loop of `loadSavedVideos`, when it runs to its end, has listed the
retained entries in the order of the store and has issued one `remove` for
each evicted entry, in that order, and no other storage call. -/
theorem loadSavedVideosLoop_ok (ct : Int) (rp : Option Int) (entries : List (Str × Val)) :
    ∀ (videos : List VideoSummary) (s : St) (out : List VideoSummary) (s1 : St),
      loadSavedVideosLoop ct rp entries videos s = (.ok out, s1) →
      out = videos ++ (entries.filter (retained ct rp)).map (fun e => summaryOf e.1 e.2) ∧
      s1.calls = s.calls ++
        (entries.filter (evicted ct rp)).map (fun e => StorageCall.remove [e.1]) := by
  induction entries with
  | nil =>
    intro videos s out s1 h
    simp only [loadSavedVideosLoop, Prod.mk.injEq, Res.ok.injEq] at h
    obtain ⟨h1, h2⟩ := h
    subst h1; subst h2
    simp
  | cons e rest ih =>
    obtain ⟨key, value⟩ := e
    intro videos s out s1 h
    unfold loadSavedVideosLoop at h
    cases hp : startsWith key "notes_".data with
    | false =>
      simp only [hp, Bool.not_false, if_true] at h
      have := ih videos s out s1 h
      simpa [List.filter_cons, retained, evicted, hp] using this
    | true =>
      cases hx : expired ct rp value with
      | true =>
        simp only [hp, hx, Bool.not_true, Bool.false_eq_true, if_false, if_true] at h
        have hc := storageRemove_calls [key] s
        generalize storageRemove [key] s = r at h hc
        obtain ⟨res, s2⟩ := r
        cases res with
        | ok u =>
          simp only at h hc
          obtain ⟨h1, h2⟩ := ih videos s2 out s1 h
          refine ⟨?_, ?_⟩
          · simpa [List.filter_cons, retained, hp, hx] using h1
          · rw [h2, hc]
            simp [List.filter_cons, evicted, hp, hx]
        | throw err => simp at h
        | pending => simp at h
      | false =>
        simp only [hp, hx, Bool.not_true, Bool.false_eq_true, if_false] at h
        obtain ⟨h1, h2⟩ := ih _ s out s1 h
        refine ⟨?_, ?_⟩
        · rw [h1]
          simp [List.filter_cons, retained, hp, hx]
        · rw [h2]
          simp [List.filter_cons, evicted, hp, hx]

/-- Without faults the loop of `loadSavedVideos` runs to its end. -/
theorem loadSavedVideosLoop_total (ct : Int) (rp : Option Int) (entries : List (Str × Val)) :
    ∀ (videos : List VideoSummary) (s : St), noFaults s →
      ∃ out s1, loadSavedVideosLoop ct rp entries videos s = (.ok out, s1) := by
  induction entries with
  | nil =>
    intro videos s _
    exact ⟨videos, s, rfl⟩
  | cons e rest ih =>
    obtain ⟨key, value⟩ := e
    intro videos s hs
    unfold loadSavedVideosLoop
    cases hp : startsWith key "notes_".data with
    | false => simpa using ih videos s hs
    | true =>
      cases hx : expired ct rp value with
      | true =>
        obtain ⟨h1, h2⟩ := storageRemove_noFaults [key] s hs
        generalize storageRemove [key] s = r at h1 h2
        obtain ⟨res, s2⟩ := r
        simp only at h1 h2
        subst h1
        simpa using ih videos s2 h2
      | false => simpa using ih _ s hs

theorem getRetentionDays_frame (s : St) :
    (∃ v, (getRetentionDays s).1 = .ok v) ∧
    (getRetentionDays s).2.store = s.store ∧
    (getRetentionDays s).2.calls = s.calls ++ [.get "retentionDays".data] ∧
    (noFaults s → noFaults (getRetentionDays s).2) := by
  have h1 := issue_store (.get "retentionDays".data) s
  have h2 := issue_calls (.get "retentionDays".data) s
  have h3 := noFaults_issue (.get "retentionDays".data) s
  unfold getRetentionDays storageGet
  generalize issue (.get "retentionDays".data) s = r at h1 h2 h3
  obtain ⟨e, s1⟩ := r
  cases e with
  | some msg => exact ⟨⟨_, rfl⟩, h1, h2, h3⟩
  | none => exact ⟨⟨_, rfl⟩, h1, h2, h3⟩

theorem storageGetAll_frame (s : St) :
    (storageGetAll s).2.calls = s.calls ++ [.getAll] ∧
    (∀ all, (storageGetAll s).1 = .ok all → all = s.store) ∧
    (noFaults s → (storageGetAll s).1 = .ok s.store ∧ noFaults (storageGetAll s).2) := by
  have h1 := issue_store .getAll s
  have h2 := issue_calls .getAll s
  have h3 := noFaults_issue .getAll s
  have h4 := issue_fst .getAll s
  unfold storageGetAll
  generalize issue .getAll s = r at h1 h2 h3 h4
  obtain ⟨e, s1⟩ := r
  cases e with
  | some msg =>
    refine ⟨h2, by simp, ?_⟩
    intro hs
    rw [nextError_of_noFaults s hs] at h4
    simp at h4
  | none =>
    simp only at h1
    refine ⟨h2, by simp [h1], ?_⟩
    intro hs
    exact ⟨by simp [h1], h3 hs⟩

/-- What `loadSavedVideos` has done when it returns a list: with `rp` the
retention period it computed, the list is the sorted list of the summaries of
the retained entries, and the calls it issued are the reads of its preamble
followed by one `remove` for each evicted entry. -/
theorem loadSavedVideos_ok (s : St) (result : List VideoSummary) (s1 : St) (v : Val)
    (hv : (getRetentionDays (ensureInitialized s)).1 = .ok v)
    (h : loadSavedVideos s = (.ok result, s1)) :
    ∃ pre : List StorageCall,
      (∀ c ∈ pre, c = .get "test".data ∨ c = .get "retentionDays".data ∨ c = .getAll) ∧
      result = sortVideos
        ((s.store.filter
            (retained (listingTime s) ((v.toNumber).map (fun d => d * 24 * 60 * 60 * 1000)))).map
          (fun e => summaryOf e.1 e.2)) ∧
      s1.calls = s.calls ++ pre ++
        (s.store.filter
            (evicted (listingTime s) ((v.toNumber).map (fun d => d * 24 * 60 * 60 * 1000)))).map
          (fun e => StorageCall.remove [e.1]) := by
  obtain ⟨-, -, -, hst0, -, -, hcalls0⟩ := ensureInitialized_frame s
  obtain ⟨-, hst1, hcalls1, -⟩ := getRetentionDays_frame (ensureInitialized s)
  unfold loadSavedVideos at h
  simp only at h
  unfold listingTime
  generalize getRetentionDays (ensureInitialized s) = r1 at h hv hst1 hcalls1
  obtain ⟨res1, t1⟩ := r1
  simp only at hv hst1 hcalls1
  subst hv
  simp only at h
  obtain ⟨hcalls2, hall, -⟩ := storageGetAll_frame t1
  generalize storageGetAll t1 = r2 at h hcalls2 hall
  obtain ⟨res2, t2⟩ := r2
  cases res2 with
  | throw e => simp at h
  | pending => simp at h
  | ok allData =>
    have hAll : allData = s.store := by
      rw [hall allData rfl, hst1, hst0]
    subst hAll
    simp only at h hcalls2
    generalize hl : loadSavedVideosLoop _ _ _ [] t2 = r3 at h
    obtain ⟨res3, t3⟩ := r3
    cases res3 with
    | throw e => simp at h
    | pending => simp at h
    | ok videos =>
      simp only [Prod.mk.injEq, Res.ok.injEq] at h
      obtain ⟨hres, hs1⟩ := h
      subst hs1
      obtain ⟨hout, hc3⟩ := loadSavedVideosLoop_ok _ _ _ _ _ _ _ hl
      simp only [List.nil_append] at hout
      rcases hcalls0 with h0 | h0
      · refine ⟨[.get "retentionDays".data, .getAll], by simp, ?_, ?_⟩
        · rw [← hres, hout]
        · rw [hc3, hcalls2, hcalls1, h0]; simp
      · refine ⟨[.get "test".data, .get "retentionDays".data, .getAll], by simp, ?_, ?_⟩
        · rw [← hres, hout]
        · rw [hc3, hcalls2, hcalls1, h0]; simp

/-- Without faults `loadSavedVideos` returns a list. -/
theorem loadSavedVideos_total (s : St) (hs : noFaults s) :
    ∃ result s1, loadSavedVideos s = (.ok result, s1) := by
  have h0 := noFaults_ensureInitialized s hs
  obtain ⟨⟨v, hv⟩, -, -, h1⟩ := getRetentionDays_frame (ensureInitialized s)
  have h1 := h1 h0
  unfold loadSavedVideos
  simp only
  generalize getRetentionDays (ensureInitialized s) = r1 at hv h1
  obtain ⟨res1, t1⟩ := r1
  simp only at hv h1
  subst hv
  simp only
  have h23 := (storageGetAll_frame t1).2.2 h1
  generalize storageGetAll t1 = r2 at h23 ⊢
  obtain ⟨h2, h3⟩ := h23
  obtain ⟨res2, t2⟩ := r2
  simp only at h2 h3
  subst h2
  simp only
  obtain ⟨out, t3, hl⟩ := loadSavedVideosLoop_total t1.clock
    ((v.toNumber).map (fun d => d * 24 * 60 * 60 * 1000)) t1.store [] t2 h3
  rw [hl]
  exact ⟨_, _, rfl⟩

theorem replaceFirst_of_startsWith (key p : Str) (h : startsWith key p = true) :
    replaceFirst key p [] = key.drop p.length := by
  cases key with
  | nil =>
    cases p with
    | nil => simp [replaceFirst]
    | cons c p => simp [startsWith] at h
  | cons c k =>
    simp only [startsWith] at h
    simp [replaceFirst, h]

theorem eq_append_of_startsWith (key p : Str) (h : startsWith key p = true) :
    key = p ++ key.drop p.length := by
  simp only [startsWith, List.isPrefixOf_iff_prefix] at h
  exact (List.prefix_iff_eq_append.mp h).symm

/-- Keys of the `notes_` namespace with the same summary id are the same key. -/
theorem key_eq_of_id_eq (k1 k2 : Str) (v1 v2 : Val)
    (h1 : startsWith k1 "notes_".data = true) (h2 : startsWith k2 "notes_".data = true)
    (h : (summaryOf k1 v1).id = (summaryOf k2 v2).id) : k1 = k2 := by
  simp only [summaryOf] at h
  rw [replaceFirst_of_startsWith k1 _ h1, replaceFirst_of_startsWith k2 _ h2] at h
  rw [eq_append_of_startsWith k1 _ h1, eq_append_of_startsWith k2 _ h2, h]

theorem value_unique (l : List (Str × Val)) (h : (l.map Prod.fst).Nodup)
    (k : Str) (v1 v2 : Val) (h1 : (k, v1) ∈ l) (h2 : (k, v2) ∈ l) : v1 = v2 := by
  induction l with
  | nil => simp at h1
  | cons e rest ih =>
    simp only [List.map_cons, List.nodup_cons, List.mem_map, not_exists, not_and] at h
    obtain ⟨hn, hrest⟩ := h
    rcases List.mem_cons.mp h1 with e1 | m1
    · rcases List.mem_cons.mp h2 with e2 | m2
      · rw [← e1] at e2
        exact (Prod.mk.inj e2).2.symm
      · exact absurd (by rw [← e1]) (hn (k, v2) m2)
    · rcases List.mem_cons.mp h2 with e2 | m2
      · exact absurd (by rw [← e2]) (hn (k, v1) m1)
      · exact ih hrest m1 m2

theorem expired_some (ct p : Int) (value : Val) :
    expired ct (some p) value = decide (ct - (value.timestamp).getD 0 > p) := by
  unfold expired
  cases ht : value.timestamp with
  | none => simp
  | some t =>
    by_cases h0 : t = 0
    · simp [h0]
    · simp [h0]

theorem binaryInsert_perm {α : Type} (cmp : α → α → Int) (sorted : List α) (pivot : α) :
    (binaryInsert cmp sorted pivot).Perm (pivot :: sorted) := by
  unfold binaryInsert
  simp only
  refine List.perm_middle.trans ?_
  rw [List.take_append_drop]

theorem foldl_binaryInsert_perm {α : Type} (cmp : α → α → Int) (rest : List α) :
    ∀ run : List α, (rest.foldl (binaryInsert cmp) run).Perm (run ++ rest) := by
  induction rest with
  | nil => intro run; simp
  | cons x tl ih =>
    intro run
    simp only [List.foldl_cons]
    refine (ih _).trans ?_
    refine ((binaryInsert_perm cmp run x).append_right tl).trans ?_
    have h : (x :: (run ++ tl)).Perm (run ++ x :: tl) := List.perm_middle.symm
    simpa using h

theorem growRun_append {α : Type} (cmp : α → α → Int) (d : Bool) (l : List α) :
    ∀ prev, (growRun cmp d prev l).1 ++ (growRun cmp d prev l).2 = l := by
  induction l with
  | nil => intro prev; rfl
  | cons c tl ih =>
    intro prev
    simp only [growRun]
    split_ifs <;> simp [ih c]

theorem countAndMakeRun_perm {α : Type} (cmp : α → α → Int) (l : List α) :
    ((countAndMakeRun cmp l).1 ++ (countAndMakeRun cmp l).2).Perm l := by
  match l with
  | [] => simp [countAndMakeRun]
  | [x] => simp [countAndMakeRun]
  | x0 :: x1 :: tl =>
    simp only [countAndMakeRun]
    have h := growRun_append cmp (decide (cmp x1 x0 < 0)) tl x1
    split
    · refine (List.Perm.append_right _ (List.reverse_perm _)).trans ?_
      simp [h]
    · simp [h]

/-- The sort returns a rearrangement of its input, whatever the comparator. -/
theorem v8Sort_perm {α : Type} (cmp : α → α → Int) (l : List α) : (v8Sort cmp l).Perm l :=
  (foldl_binaryInsert_perm cmp _ _).trans (countAndMakeRun_perm cmp l)

theorem sortVideos_perm (l : List VideoSummary) : (sortVideos l).Perm l :=
  v8Sort_perm compareVideos l

theorem mem_sortVideos (v : VideoSummary) (l : List VideoSummary) :
    v ∈ sortVideos l ↔ v ∈ l :=
  (sortVideos_perm l).mem_iff

/-- C2: retention eviction.  Let `d` be the number that `getRetentionDays`
returns to `loadSavedVideos`, `now` the clock reading the listing takes, and
let the store (with distinct keys) hold `value` under a `notes_` key, with
`timestamp` its time stamp (`0` when missing).  Without storage faults
`loadSavedVideos` returns a list; and whenever it returns a list, the record is
excluded from the list and a `remove` of its key is issued if
`now - timestamp > d * 86400000`, and otherwise it is included and no `remove`
names its key.  In particular a record saved `d + 1` days ago is excluded and
deleted and a record saved `d - 1` days ago is included and not deleted. -/
theorem C2_retention_eviction (s : St) (d : Int) (key : Str) (value : Val)
    (hd : (getRetentionDays (ensureInitialized s)).1 = .ok (.num d))
    (hkeys : (s.store.map Prod.fst).Nodup)
    (hmem : (key, value) ∈ s.store)
    (hpre : startsWith key "notes_".data = true) :
    (noFaults s → ∃ result s1, loadSavedVideos s = (.ok result, s1)) ∧
    ∀ result s1, loadSavedVideos s = (.ok result, s1) →
      (listingTime s - (value.timestamp).getD 0 > d * 86400000 →
        excludedAndDeleted key value result s.calls.length s1) ∧
      (¬ (listingTime s - (value.timestamp).getD 0 > d * 86400000) →
        includedAndKept key value result s.calls.length s1) ∧
      (value.timestamp = some (listingTime s - (d + 1) * 86400000) →
        excludedAndDeleted key value result s.calls.length s1) ∧
      (value.timestamp = some (listingTime s - (d - 1) * 86400000) →
        includedAndKept key value result s.calls.length s1) := by
  refine ⟨loadSavedVideos_total s, ?_⟩
  intro result s1 hrun
  obtain ⟨pre, hpre_calls, hres, hcalls⟩ := loadSavedVideos_ok s result s1 (.num d) hd hrun
  simp only [Val.toNumber, Option.map_some'] at hres hcalls
  have hsince : callsSince s.calls.length s1 = pre ++
      (s.store.filter (evicted (listingTime s) (some (d * 24 * 60 * 60 * 1000)))).map
        (fun e => StorageCall.remove [e.1]) := by
    simp [callsSince, hcalls, List.append_assoc]
  have hexp : expired (listingTime s) (some (d * 24 * 60 * 60 * 1000)) value
      = decide (listingTime s - (value.timestamp).getD 0 > d * 86400000) := by
    rw [expired_some]
    congr 1
    apply propext
    constructor <;> intro h <;> omega
  have hA : listingTime s - (value.timestamp).getD 0 > d * 86400000 →
      excludedAndDeleted key value result s.calls.length s1 := by
    intro hgt
    have hx : expired (listingTime s) (some (d * 24 * 60 * 60 * 1000)) value = true := by
      rw [hexp]; exact decide_eq_true hgt
    constructor
    · intro v hv hid
      rw [hres, mem_sortVideos] at hv
      obtain ⟨e, he, hev⟩ := List.mem_map.mp hv
      obtain ⟨hemem, hret⟩ := List.mem_filter.mp he
      simp only [retained, Bool.and_eq_true, Bool.not_eq_true'] at hret
      obtain ⟨k2, v2⟩ := e
      simp only at hret hev
      have hk : k2 = key := by
        apply key_eq_of_id_eq k2 key v2 value hret.1 hpre
        rw [hev]; exact hid
      subst hk
      have hv2 : v2 = value := value_unique s.store hkeys k2 v2 value hemem hmem
      subst hv2
      rw [hx] at hret
      exact absurd hret.2 (by simp)
    · rw [hsince]
      apply List.mem_append_right
      apply List.mem_map.mpr
      exact ⟨(key, value), List.mem_filter.mpr ⟨hmem, by simp [evicted, hpre, hx]⟩, rfl⟩
  have hB : ¬ (listingTime s - (value.timestamp).getD 0 > d * 86400000) →
      includedAndKept key value result s.calls.length s1 := by
    intro hle
    have hx : expired (listingTime s) (some (d * 24 * 60 * 60 * 1000)) value = false := by
      rw [hexp]; exact decide_eq_false hle
    constructor
    · rw [hres, mem_sortVideos]
      apply List.mem_map.mpr
      exact ⟨(key, value), List.mem_filter.mpr ⟨hmem, by simp [retained, hpre, hx]⟩, rfl⟩
    · intro keys hk hin
      rw [hsince] at hin
      rcases List.mem_append.mp hin with hp | hr
      · rcases hpre_calls _ hp with h | h | h <;> simp at h
      · obtain ⟨e, he, hev⟩ := List.mem_map.mp hr
        obtain ⟨hemem, hevi⟩ := List.mem_filter.mp he
        simp only [evicted, Bool.and_eq_true] at hevi
        obtain ⟨k2, v2⟩ := e
        simp only [StorageCall.remove.injEq] at hev
        simp only at hevi
        subst hev
        have hk2 : k2 = key := (List.mem_singleton.mp hk).symm
        subst hk2
        have hv2 : v2 = value := value_unique s.store hkeys k2 v2 value hemem hmem
        subst hv2
        rw [hx] at hevi
        exact absurd hevi.2 (by simp)
  refine ⟨hA, hB, ?_, ?_⟩
  · intro hts
    apply hA
    rw [hts]
    simp only [Option.getD_some]
    omega
  · intro hts
    apply hB
    rw [hts]
    simp only [Option.getD_some]
    omega

/-- Witness of `C2_retention_eviction`: of two records saved 31 and 29 days
ago, with the retention window at 30 days, the first is excluded and deleted
and the listing is the summary of the second. -/
theorem C2_retention_eviction_witness :
    excludedAndDeleted "notes_old".data (exampleRecord 2321600000)
      [summaryOf "notes_new".data (exampleRecord 2494400000)]
      listingPage.calls.length (loadSavedVideos listingPage).2 :=
  ((C2_retention_eviction listingPage 30 "notes_old".data (exampleRecord 2321600000)
      (by decide) (by decide) (by decide) (by decide)).2
    [summaryOf "notes_new".data (exampleRecord 2494400000)]
    (loadSavedVideos listingPage).2 (by decide)).1 (by decide)

/-! ## Presets -/

theorem presetKey_ne (n m : Nat) (hn : n = 1 ∨ n = 2 ∨ n = 3) (hm : m = 1 ∨ m = 2 ∨ m = 3)
    (h : m ≠ n) : presetKey m ≠ presetKey n := by
  rcases hn with rfl | rfl | rfl <;> rcases hm with rfl | rfl | rfl <;>
    first
    | exact absurd rfl h
    | decide

theorem storageSet_cases (k : Str) (v : Val) (s : St) :
    ((storageSet k (some v) s).1 = .ok () ∧
      (storageSet k (some v) s).2.store = mapSet s.store k v ∨
     (∃ e, (storageSet k (some v) s).1 = .throw e) ∧
      (storageSet k (some v) s).2.store = s.store) ∧
    (storageSet k (some v) s).2.presetLock = s.presetLock ∧
    (nextError s = none → (storageSet k (some v) s).1 = .ok ()) ∧
    (noFaults s → noFaults (storageSet k (some v) s).2) := by
  have h1 := issue_store (.set k (some v)) s
  have h2 := issue_presetLock (.set k (some v)) s
  have h3 := issue_fst (.set k (some v)) s
  have h4 := noFaults_issue (.set k (some v)) s
  unfold storageSet
  generalize issue (.set k (some v)) s = r at h1 h2 h3 h4
  obtain ⟨e, s1⟩ := r
  simp only at h1 h2 h3 h4
  cases e with
  | some msg =>
    refine ⟨Or.inr ⟨⟨_, rfl⟩, h1⟩, h2, ?_, h4⟩
    intro hn
    rw [hn] at h3
    simp at h3
  | none =>
    refine ⟨Or.inl ⟨rfl, by simp [h1]⟩, h2, fun _ => rfl, ?_⟩
    intro hs
    simpa [noFaults] using h4 hs

theorem storageGet_cases (k : Str) (s : St) :
    ((storageGet k s).1 = .ok (mapGet s.store k) ∨ ∃ e, (storageGet k s).1 = .throw e) ∧
    (storageGet k s).2.store = s.store ∧
    (storageGet k s).2.presetLock = s.presetLock ∧
    (nextError s = none → (storageGet k s).1 = .ok (mapGet s.store k)) ∧
    (noFaults s → noFaults (storageGet k s).2) := by
  have h1 := issue_store (.get k) s
  have h2 := issue_presetLock (.get k) s
  have h3 := issue_fst (.get k) s
  have h4 := noFaults_issue (.get k) s
  unfold storageGet
  generalize issue (.get k) s = r at h1 h2 h3 h4
  obtain ⟨e, s1⟩ := r
  simp only at h1 h2 h3 h4
  cases e with
  | some msg =>
    refine ⟨Or.inr ⟨_, rfl⟩, h1, h2, ?_, h4⟩
    intro hn
    rw [hn] at h3
    simp at h3
  | none => exact ⟨Or.inl (by simp [h1]), h1, h2, fun _ => by simp [h1], h4⟩

/-- What `savePresetTemplates` does in any run: it never stays pending when the
lock is free, it leaves the lock free, and the store is either unchanged
(the promise rejects) or updated at the key of the preset (it resolves). -/
theorem savePresetTemplates_cases (n : Nat) (T : List Str) (s : St)
    (hl : s.presetLock = false) :
    ((savePresetTemplates n (some T) s).1 = .ok true ∧
      (savePresetTemplates n (some T) s).2.store = mapSet s.store (presetKey n) (.strings T) ∨
     (∃ e, (savePresetTemplates n (some T) s).1 = .throw e) ∧
      (savePresetTemplates n (some T) s).2.store = s.store) ∧
    (savePresetTemplates n (some T) s).2.presetLock = false ∧
    (noFaults s → (savePresetTemplates n (some T) s).1 = .ok true ∧
      noFaults (savePresetTemplates n (some T) s).2) := by
  obtain ⟨-, -, -, hst0, hl0, -, -⟩ := ensureInitialized_frame s
  have hf0 := noFaults_ensureInitialized s
  unfold savePresetTemplates
  simp only
  generalize ensureInitialized s = s0 at hst0 hl0 hf0
  rw [hl] at hl0
  simp only [acquirePresetLock, hl0, Bool.false_eq_true, if_false, Option.map_some']
  obtain ⟨hc, -, hne, hnf⟩ :=
    storageSet_cases (presetKey n) (.strings T) { s0 with presetLock := true }
  generalize storageSet (presetKey n) (some (.strings T)) { s0 with presetLock := true } = r
    at hc hne hnf
  obtain ⟨res, s2⟩ := r
  simp only at hc hne hnf
  cases res with
  | ok u =>
    refine ⟨Or.inl ⟨rfl, ?_⟩, rfl, fun hs => ⟨rfl, ?_⟩⟩
    · rcases hc with ⟨-, h⟩ | ⟨⟨e, h⟩, -⟩
      · simpa [releasePresetLock, hst0] using h
      · simp at h
    · have := hnf (hf0 hs)
      simpa [releasePresetLock, noFaults] using this
  | throw e =>
    refine ⟨Or.inr ⟨⟨e, rfl⟩, ?_⟩, rfl, fun hs => ?_⟩
    · rcases hc with ⟨h, -⟩ | ⟨-, h⟩
      · simp at h
      · simpa [releasePresetLock, hst0] using h
    · have := hne (nextError_of_noFaults _ (hf0 hs))
      simp at this
  | pending =>
    rcases hc with ⟨h, -⟩ | ⟨⟨e, h⟩, -⟩ <;> simp at h

/-- What `loadPresetTemplates` returns when the lock is free and no storage
call rejects: the stored value when it is truthy, else the built-in default. -/
theorem loadPresetTemplates_noFaults (n : Nat) (s : St) (hl : s.presetLock = false)
    (hf : noFaults s) :
    (loadPresetTemplates n s).1 =
      .ok (if truthy (mapGet s.store (presetKey n)) then mapGet s.store (presetKey n)
           else (defaultPresets n).map Val.strings) := by
  obtain ⟨-, -, -, hst0, hl0, -, -⟩ := ensureInitialized_frame s
  have hf0 := noFaults_ensureInitialized s hf
  unfold loadPresetTemplates
  simp only
  generalize ensureInitialized s = s0 at hst0 hl0 hf0
  rw [hl] at hl0
  simp only [acquirePresetLock, hl0, Bool.false_eq_true, if_false]
  obtain ⟨-, -, -, hne, -⟩ := storageGet_cases (presetKey n) { s0 with presetLock := true }
  have hne := hne (nextError_of_noFaults _ (by simpa [noFaults] using hf0))
  generalize storageGet (presetKey n) { s0 with presetLock := true } = r at hne
  obtain ⟨res, s2⟩ := r
  simp only at hne
  subst hne
  simp [hst0]

theorem savePresetTemplates_ok (n : Nat) (T : List Str) (s s1 : St)
    (h : savePresetTemplates n (some T) s = (.ok true, s1)) :
    s1.store = mapSet s.store (presetKey n) (.strings T) ∧ s1.presetLock = false := by
  have hl : s.presetLock = false := by
    cases hp : s.presetLock with
    | false => rfl
    | true =>
      obtain ⟨-, -, -, -, hl0, -, -⟩ := ensureInitialized_frame s
      rw [hp] at hl0
      simp [savePresetTemplates, acquirePresetLock, hl0] at h
  obtain ⟨hc, hlock, -⟩ := savePresetTemplates_cases n T s hl
  rw [h] at hc hlock
  rcases hc with ⟨-, hst⟩ | ⟨⟨e, he⟩, -⟩
  · exact ⟨hst, hlock⟩
  · simp at he

/-- C5: preset round trip and independence, for `n`, `m` in `{1, 2, 3}` and
every template list `T`.  After `savePresetTemplates(n, T)` has succeeded
(state `s1`) the lock is free, and in a run without storage faults
`loadPresetTemplates(n)` returns `T`; for `m ≠ n`, `loadPresetTemplates(m)`
returns after the save what it returns before the save, which is the built-in
default list of `m` when nothing is stored under `m`. -/
theorem C5_preset_round_trip (n m : Nat) (T : List Str) (s s1 : St)
    (hn : n = 1 ∨ n = 2 ∨ n = 3) (hm : m = 1 ∨ m = 2 ∨ m = 3)
    (hsave : savePresetTemplates n (some T) s = (.ok true, s1)) :
    s1.presetLock = false ∧
    (∀ s2 : St, s2.store = s1.store → s2.presetLock = false → noFaults s2 →
      (loadPresetTemplates n s2).1 = .ok (some (.strings T))) ∧
    (m ≠ n → ∀ a b : St, a.store = s.store → b.store = s1.store →
      a.presetLock = false → b.presetLock = false → noFaults a → noFaults b →
      (loadPresetTemplates m b).1 = (loadPresetTemplates m a).1 ∧
      (mapGet s.store (presetKey m) = none →
        (loadPresetTemplates m b).1 = .ok ((defaultPresets m).map Val.strings))) := by
  obtain ⟨hst, hlock⟩ := savePresetTemplates_ok n T s s1 hsave
  refine ⟨hlock, ?_, ?_⟩
  · intro s2 h2 hl2 hf2
    rw [loadPresetTemplates_noFaults n s2 hl2 hf2, h2, hst, mapGet_mapSet_self]
    simp [truthy, Val.truthy]
  · intro hne a b ha hb hla hlb hfa hfb
    have hkey := presetKey_ne n m hn hm hne
    have hsame : mapGet b.store (presetKey m) = mapGet a.store (presetKey m) := by
      rw [hb, hst, ha, mapGet_mapSet_other _ _ _ _ hkey]
    rw [loadPresetTemplates_noFaults m b hlb hfb, loadPresetTemplates_noFaults m a hla hfa,
      hsame]
    refine ⟨rfl, ?_⟩
    intro hnone
    rw [ha, hnone]
    simp [truthy]

/-- Witness of `C5_preset_round_trip`: save preset 2 as `["A", "B"]` on a fresh
page; preset 2 then loads as `["A", "B"]`. -/
theorem C5_preset_round_trip_witness :
    (loadPresetTemplates 2 (savePresetTemplates 2 (some [['A'], ['B']]) (watchPage [] [])).2).1
      = .ok (some (.strings [['A'], ['B']])) :=
  (C5_preset_round_trip 2 1 [['A'], ['B']] (watchPage [] [])
    (savePresetTemplates 2 (some [['A'], ['B']]) (watchPage [] [])).2
    (by decide) (by decide) (by decide)).2.1
    (savePresetTemplates 2 (some [['A'], ['B']]) (watchPage [] [])).2 rfl (by decide) (by decide)

/-- C6: idempotent seeding, for `n` in `{1, 2, 3}`.  If a template list is
stored under `preset_templates_n`, `_initializePreset(n)` leaves the store
unchanged (in every run).  If nothing is stored, the lock is free and no
storage call rejects, it returns `true` and stores `defaultPresets[n]` under
that key.  Hence, from any store, running it twice in a row yields the same
store as running it once. -/
theorem C6_idempotent_seeding (n : Nat) (s : St) (hn : n = 1 ∨ n = 2 ∨ n = 3) :
    (∀ l, mapGet s.store (presetKey n) = some (.strings l) →
      (initializePreset n s).2.store = s.store ∧
      mapGet (initializePreset n s).2.store (presetKey n) = some (.strings l)) ∧
    (mapGet s.store (presetKey n) = none → s.presetLock = false → noFaults s →
      (initializePreset n s).1 = .ok true ∧
      ∃ l, defaultPresets n = some l ∧
        (initializePreset n s).2.store = mapSet s.store (presetKey n) (.strings l) ∧
        mapGet (initializePreset n s).2.store (presetKey n) = some (.strings l)) ∧
    (s.presetLock = false → noFaults s →
      (initializePreset n (initializePreset n s).2).2.store = (initializePreset n s).2.store) := by
  have hdef : ∃ l, defaultPresets n = some l := by
    rcases hn with rfl | rfl | rfl <;> exact ⟨_, rfl⟩
  obtain ⟨l0, hl0⟩ := hdef
  -- one run, described by what the read returns
  have hrun : ∀ t : St,
      (truthy (mapGet t.store (presetKey n)) = true →
        (initializePreset n t).2.store = t.store) ∧
      (t.presetLock = false → noFaults t →
        (initializePreset n t).1 = .ok true ∧
        (initializePreset n t).2.presetLock = false ∧
        noFaults (initializePreset n t).2 ∧
        (initializePreset n t).2.store =
          (if truthy (mapGet t.store (presetKey n)) then t.store
           else mapSet t.store (presetKey n) (.strings l0))) := by
    intro t
    obtain ⟨hc, hst, hlk, hne, hnf⟩ := storageGet_cases (presetKey n) t
    unfold initializePreset
    simp only
    generalize storageGet (presetKey n) t = r at hc hst hlk hne hnf
    obtain ⟨res, t1⟩ := r
    simp only at hc hst hlk hne hnf
    constructor
    · intro htr
      rcases hc with h | ⟨e, h⟩
      · subst h
        simp [htr, hst]
      · subst h
        simp [hst]
    · intro hlt hft
      have hres := hne (nextError_of_noFaults t hft)
      subst hres
      have hf1 := hnf hft
      simp only
      cases htr : truthy (mapGet t.store (presetKey n)) with
      | true => simp [hst, hlk, hlt, hf1]
      | false =>
        obtain ⟨hc2, hlk2, hok2⟩ := savePresetTemplates_cases n l0 t1 (hlk.trans hlt)
        obtain ⟨hok2, hf2⟩ := hok2 hf1
        rw [hl0]
        simp only [Bool.not_false, if_true, Bool.false_eq_true, if_false]
        generalize savePresetTemplates n (some l0) t1 = r2 at hc2 hlk2 hok2 hf2
        obtain ⟨res2, t2⟩ := r2
        simp only at hc2 hlk2 hok2 hf2
        subst hok2
        rcases hc2 with ⟨-, h⟩ | ⟨⟨e, h⟩, -⟩
        · simp [hlk2, hf2, h, hst]
        · simp at h
  refine ⟨?_, ?_, ?_⟩
  · intro l hl
    have h := (hrun s).1 (by simp [hl, truthy, Val.truthy])
    exact ⟨h, by rw [h]; exact hl⟩
  · intro hnone hlk hf
    obtain ⟨h1, -, -, h4⟩ := (hrun s).2 hlk hf
    rw [hnone] at h4
    simp only [truthy, Bool.false_eq_true, if_false] at h4
    exact ⟨h1, l0, hl0, h4, by rw [h4]; exact mapGet_mapSet_self _ _ _⟩
  · intro hlk hf
    obtain ⟨-, h2, h3, h4⟩ := (hrun s).2 hlk hf
    apply (hrun (initializePreset n s).2).1
    rw [h4]
    cases htr : truthy (mapGet s.store (presetKey n)) with
    | true => simpa using htr
    | false => simp [mapGet_mapSet_self, truthy, Val.truthy]

/-- Witness of `C6_idempotent_seeding`: on a store that holds the custom list
`["A"]` under `preset_templates_1`, `_initializePreset(1)` changes nothing. -/
theorem C6_idempotent_seeding_witness :
    (initializePreset 1 (watchPage [(presetKey 1, .strings [['A']])] [])).2.store
      = [(presetKey 1, .strings [['A']])] :=
  ((C6_idempotent_seeding 1 (watchPage [(presetKey 1, .strings [['A']])] [])
      (by decide)).1 [['A']] (by decide)).1

/-! ## Debounced auto-save -/

theorem triggerAutoSave_timers (p : Page)
    (hwf : ∀ t ∈ p.timers, p.autoSaveTimeout = some t.1) :
    (triggerAutoSave p).timers = [(p.nextTimerId, p.st.clock + 2000)] := by
  have hclear : clearTimeout p.autoSaveTimeout p.timers = [] := by
    cases ha : p.autoSaveTimeout with
    | none =>
      cases ht : p.timers with
      | nil => rfl
      | cons t rest =>
        have := hwf t (by simp [ht])
        rw [ha] at this
        simp at this
    | some i =>
      simp only [clearTimeout]
      apply List.filter_eq_nil_iff.mpr
      intro t ht
      have := hwf t ht
      rw [ha] at this
      simp only [Option.some.injEq] at this
      simp [this]
  simp [triggerAutoSave, hclear]

/-- Waiting less than the delay of the only pending timer fires nothing. -/
theorem runUntil_early (p : Page) (id : Nat) (due t : Int)
    (ht : p.timers = [(id, due)]) (hlt : t < due) :
    runUntil t p = { p with st := { p.st with clock := max p.st.clock t } } := by
  have h1 : ¬ (due ≤ t) := not_le.mpr hlt
  simp [runUntil, ht, h1, hlt]

/-- A burst of calls, each less than 2000 ms after the one before, runs no
flush and keeps at most the timer of its last call pending. -/
theorem burst_quiet (items : List (List Note × Nat)) :
    ∀ p : Page, (∀ t ∈ p.timers, p.autoSaveTimeout = some t.1) →
      (∀ it ∈ items, it.2 < 2000) →
      (∀ t ∈ (burst items p).timers, (burst items p).autoSaveTimeout = some t.1) ∧
      (burst items p).flushes = p.flushes ∧
      (burst items p).saved = p.saved ∧
      (burst items p).isSaving = p.isSaving ∧
      (burst items p).lastSavedContent = p.lastSavedContent := by
  induction items with
  | nil =>
    intro p hwf _
    exact ⟨hwf, rfl, rfl, rfl, rfl⟩
  | cons it rest ih =>
    obtain ⟨notes, gap⟩ := it
    intro p hwf hgaps
    have hgap : gap < 2000 := hgaps (notes, gap) (by simp)
    have htm := triggerAutoSave_timers { p with notes := notes } hwf
    have hearly := runUntil_early (triggerAutoSave { p with notes := notes })
      p.nextTimerId (p.st.clock + 2000)
      ((triggerAutoSave { p with notes := notes }).st.clock + (gap : Int)) htm
      (by simp only [triggerAutoSave]; omega)
    simp only [burst]
    rw [hearly]
    obtain ⟨h1, h2, h3, h4, h5⟩ := ih
      { triggerAutoSave { p with notes := notes } with
        st := { (triggerAutoSave { p with notes := notes }).st with
                clock := max (triggerAutoSave { p with notes := notes }).st.clock
                  ((triggerAutoSave { p with notes := notes }).st.clock + (gap : Int)) } }
      (by
        intro t ht
        simp only [htm, List.mem_singleton] at ht
        subst ht
        simp [triggerAutoSave])
      (fun it hit => hgaps it (List.mem_cons_of_mem _ hit))
    exact ⟨h1, h2, h3, h4, h5⟩

theorem executeAutoSave_flushes (p : Page) : (executeAutoSave p).flushes = p.flushes + 1 := by
  unfold executeAutoSave
  simp only
  split
  · rfl
  · split
    · rfl
    · split <;> rfl

theorem executeAutoSave_timers (p : Page) : (executeAutoSave p).timers = p.timers := by
  unfold executeAutoSave
  simp only
  split
  · rfl
  · split
    · rfl
    · split <;> rfl

theorem executeAutoSave_saved (p : Page) :
    (executeAutoSave p).saved = p.saved ++
      (if p.isSaving = true ∨ jsonStringify p.notes = p.lastSavedContent then []
       else [p.notes]) := by
  unfold executeAutoSave
  simp only
  cases hs : p.isSaving with
  | true => simp
  | false =>
    by_cases hc : jsonStringify p.notes = p.lastSavedContent
    · simp [hc]
    · simp only [Bool.false_eq_true, if_false, hc, false_or]
      split <;> rfl

/-- Waiting until the only pending timer is due fires it, once. -/
theorem runUntil_due (p : Page) (id : Nat) (due t : Int)
    (ht : p.timers = [(id, due)]) (hle : due ≤ t) :
    runUntil t p =
      { fire { p with timers := [] } (id, due) with
        st := { (fire { p with timers := [] } (id, due)).st with
                clock := max (fire { p with timers := [] } (id, due)).st.clock t } } := by
  have h1 : ¬ (t < due) := not_lt.mpr hle
  simp [runUntil, ht, h1, hle]

/-- C9, as stated, fails: on a page whose note list has just been saved, the
text of the note is edited and, 500 ms later, edited back.  The two calls of
`triggerAutoSave` are followed by one flush, which makes no `saveNotes` call,
since the serialized list equals `lastSavedContent`. -/
theorem C9_counterexample :
    (afterQuiet [([{ exampleNote with text := "niceb".data }], 500)] [exampleNote] 2000
        savedPage).flushes = 1 ∧
    (afterQuiet [([{ exampleNote with text := "niceb".data }], 500)] [exampleNote] 2000
        savedPage).saved = [] := by
  decide

/-- C9, amended: a series of calls of `triggerAutoSave`, each made less than
2000 ms after the one before, runs no flush while it lasts and leaves only the
timer of the last call pending, due 2000 ms after that call; once `T ≥ 2000` ms
have passed exactly one flush has run and no timer is pending.  That flush
makes one `saveNotes` call, with the note list as it stands at the flush, when
no flush is in flight and the serialized list differs from `lastSavedContent`,
and makes no `saveNotes` call otherwise. -/
theorem C9_debounce_coalescing (p : Page) (items : List (List Note × Nat))
    (last : List Note) (T : Nat)
    (hwf : ∀ t ∈ p.timers, p.autoSaveTimeout = some t.1)
    (hgaps : ∀ it ∈ items, it.2 < 2000) (hT : 2000 ≤ T) :
    (burst items p).flushes = p.flushes ∧
    (lastCall items last p).timers =
      [((burst items p).nextTimerId, (burst items p).st.clock + 2000)] ∧
    (afterQuiet items last T p).flushes = p.flushes + 1 ∧
    (afterQuiet items last T p).timers = [] ∧
    (afterQuiet items last T p).saved = p.saved ++
      (if p.isSaving = true ∨ jsonStringify last = p.lastSavedContent then []
       else [last]) := by
  obtain ⟨h1, h2, h3, h4, h5⟩ := burst_quiet items p hwf hgaps
  have htm : (lastCall items last p).timers =
      [((burst items p).nextTimerId, (burst items p).st.clock + 2000)] :=
    triggerAutoSave_timers { burst items p with notes := last } h1
  have hclock : (lastCall items last p).st.clock = (burst items p).st.clock := rfl
  have hrun := runUntil_due (lastCall items last p) _ _
    ((lastCall items last p).st.clock + (T : Int)) htm (by rw [hclock]; omega)
  refine ⟨h2, htm, ?_, ?_, ?_⟩
  · unfold afterQuiet
    rw [hrun]
    simp only [fire, executeAutoSave_flushes]
    simpa [lastCall, triggerAutoSave] using h2
  · unfold afterQuiet
    rw [hrun]
    simp only [fire, executeAutoSave_timers]
  · unfold afterQuiet
    rw [hrun]
    simp only [fire, executeAutoSave_saved]
    simp [lastCall, triggerAutoSave, h3, h4, h5]

/-- Witness of `C9_debounce_coalescing`: the note of a saved page is edited
twice within 500 ms; one flush runs and saves the list of the last edit. -/
theorem C9_debounce_coalescing_witness :
    (afterQuiet [([{ exampleNote with text := "niceb".data }], 500)]
        [{ exampleNote with text := "nicer".data }] 2000 savedPage).saved
      = savedPage.saved ++
        (if savedPage.isSaving = true ∨
            jsonStringify [{ exampleNote with text := "nicer".data }]
              = savedPage.lastSavedContent then []
         else [[{ exampleNote with text := "nicer".data }]]) :=
  (C9_debounce_coalescing savedPage [([{ exampleNote with text := "niceb".data }], 500)]
    [{ exampleNote with text := "nicer".data }] 2000
    (by decide) (by decide) (by decide)).2.2.2.2

/-! ## Interleaved preset operations -/

theorem setPc_tasks (y : Sys) (i : Nat) (pc : Pc) (j : Nat) :
    (y.setPc i pc).tasks[j]? =
      if i = j then (y.tasks[j]?).map (fun t => { t with pc := pc }) else y.tasks[j]? := by
  by_cases hij : i = j
  · subst hij
    simp [Sys.setPc]
  · simp [Sys.setPc, List.getElem?_modify_ne _ _ hij, hij]

theorem scan_append (a b : List Event) :
    ∀ cur, scan cur (a ++ b) = (scan cur a).bind (fun c => scan c b) := by
  induction a with
  | nil => intro cur; simp [scan]
  | cons e rest ih =>
    intro cur
    simp only [List.cons_append, scan]
    cases scanEvent cur e with
    | none => rfl
    | some c => simpa using ih c

/-- Moving a task between two places outside the critical section keeps the
invariant. -/
theorem LockInv.move {y : Sys} {h cur : Option Nat} (inv : LockInv y h cur)
    (i : Nat) (t : Task) (ht : y.tasks[i]? = some t) (pc : Pc)
    (hold : t.pc.holdsLock = false) (hnew : pc.holdsLock = false)
    (y1 : Sys) (htasks : y1.tasks = (y.setPc i pc).tasks)
    (hlock : y1.presetLock = y.presetLock) (htrace : y1.trace = y.trace) :
    LockInv y1 h cur := by
  have hne : h ≠ some i := by
    intro hh
    have := (inv.holder i t ht).mpr hh
    rw [hold] at this
    exact absurd this (by simp)
  have hpcne : pc ≠ .inStorage := by
    intro hh; rw [hh] at hnew; simp [Pc.holdsLock] at hnew
  have hcne : cur ≠ some i := fun hh => hne (inv.curValid i hh)
  refine ⟨?_, ?_, ?_, ?_, ?_, inv.curValid⟩
  · intro j t1 h1
    rw [htasks, setPc_tasks] at h1
    by_cases hij : i = j
    · subst hij
      simp only [if_true, ht, Option.map_some', Option.some.injEq] at h1
      subst h1
      simp [hnew, hne]
    · simp only [hij, if_false] at h1
      exact inv.holder j t1 h1
  · intro j hj
    obtain ⟨t1, h1, h2⟩ := inv.holderValid j hj
    have hij : i ≠ j := by
      intro hh; subst hh; exact hne hj
    exact ⟨t1, by rw [htasks, setPc_tasks]; simp [hij, h1], h2⟩
  · rw [hlock]; exact inv.lock
  · rw [htrace]; exact inv.scanned
  · intro j t1 h1
    rw [htasks, setPc_tasks] at h1
    by_cases hij : i = j
    · subst hij
      simp only [if_true, ht, Option.map_some', Option.some.injEq] at h1
      subst h1
      simp [hpcne, hcne]
    · simp only [hij, if_false] at h1
      exact inv.inFlight j t1 h1

/-- Taking the free lock keeps the invariant, with the task as the holder. -/
theorem LockInv.take {y : Sys} {h cur : Option Nat} (inv : LockInv y h cur)
    (i : Nat) (t : Task) (ht : y.tasks[i]? = some t) (hfree : y.presetLock = false) :
    LockInv { y.setPc i .locked with presetLock := true, trace := y.trace ++ [.acquired i] }
      (some i) cur := by
  have hh : h = none := by
    have := inv.lock
    rw [hfree] at this
    cases h with
    | none => rfl
    | some j => simp at this
  have hc : cur = none := by
    cases hcur : cur with
    | none => rfl
    | some j =>
      have := inv.curValid j hcur
      rw [hh] at this
      simp at this
  subst hh
  subst hc
  refine ⟨?_, ?_, rfl, ?_, ?_, ?_⟩
  · intro j t1 h1
    simp only [setPc_tasks] at h1
    by_cases hij : i = j
    · subst hij
      simp only [if_true, ht, Option.map_some', Option.some.injEq] at h1
      subst h1
      simp [Pc.holdsLock]
    · simp only [hij, if_false] at h1
      have := inv.holder j t1 h1
      simp only [false_iff, reduceCtorEq] at this
      simp [this, hij]
  · intro j hj
    simp only [Option.some.injEq] at hj
    subst hj
    exact ⟨{ t with pc := .locked }, by simp [setPc_tasks, ht], rfl⟩
  · simp only [scan_append, inv.scanned, Option.some_bind, scan, scanEvent]
  · intro j t1 h1
    simp only [setPc_tasks] at h1
    by_cases hij : i = j
    · subst hij
      simp only [if_true, ht, Option.map_some', Option.some.injEq] at h1
      subst h1
      simp
    · simp only [hij, if_false] at h1
      exact inv.inFlight j t1 h1
  · intro j hj
    simp at hj

/-- The holder of the lock issues its storage call: no call is in flight. -/
theorem LockInv.start {y : Sys} {h cur : Option Nat} (inv : LockInv y h cur)
    (i : Nat) (t : Task) (ht : y.tasks[i]? = some t) (hpc : t.pc = .locked) :
    LockInv { y.setPc i .inStorage with trace := y.trace ++ [.callStarted i] }
      (some i) (some i) := by
  have hh : h = some i := (inv.holder i t ht).mp (by simp [hpc, Pc.holdsLock])
  have hc : cur = none := by
    cases hcur : cur with
    | none => rfl
    | some j =>
      have h1 := inv.curValid j hcur
      rw [hh] at h1
      simp only [Option.some.injEq] at h1
      subst h1
      have := (inv.inFlight i t ht).mpr hcur
      rw [hpc] at this
      simp at this
  subst hh
  subst hc
  refine ⟨?_, ?_, ?_, ?_, ?_, ?_⟩
  · intro j t1 h1
    simp only [setPc_tasks] at h1
    by_cases hij : i = j
    · subst hij
      simp only [if_true, ht, Option.map_some', Option.some.injEq] at h1
      subst h1
      simp [Pc.holdsLock]
    · simp only [hij, if_false] at h1
      exact inv.holder j t1 h1
  · intro j hj
    simp only [Option.some.injEq] at hj
    subst hj
    exact ⟨{ t with pc := .inStorage }, by simp [setPc_tasks, ht], rfl⟩
  · exact inv.lock
  · simp only [scan_append, inv.scanned, Option.some_bind, scan, scanEvent]
    rfl
  · intro j t1 h1
    simp only [setPc_tasks] at h1
    by_cases hij : i = j
    · subst hij
      simp only [if_true, ht, Option.map_some', Option.some.injEq] at h1
      subst h1
      simp
    · simp only [hij, if_false] at h1
      have := inv.inFlight j t1 h1
      simp only [reduceCtorEq, iff_false] at this
      simp [this, hij]
  · intro j hj
    exact hj

/-- The storage call of the holder settles and the lock is released. -/
theorem LockInv.finish {y : Sys} {h cur : Option Nat} (inv : LockInv y h cur)
    (i : Nat) (t : Task) (ht : y.tasks[i]? = some t) (hpc : t.pc = .inStorage)
    (store : List (Str × Val)) :
    LockInv { y.setPc i .done with
              store := store, presetLock := false,
              trace := y.trace ++ [.callCompleted i, .released i] }
      none none := by
  have hh : h = some i := (inv.holder i t ht).mp (by simp [hpc, Pc.holdsLock])
  have hc : cur = some i := (inv.inFlight i t ht).mp hpc
  subst hh
  subst hc
  refine ⟨?_, ?_, rfl, ?_, ?_, ?_⟩
  · intro j t1 h1
    simp only [setPc_tasks] at h1
    by_cases hij : i = j
    · subst hij
      simp only [if_true, ht, Option.map_some', Option.some.injEq] at h1
      subst h1
      simp [Pc.holdsLock]
    · simp only [hij, if_false] at h1
      have := inv.holder j t1 h1
      simp only [Option.some.injEq, hij] at this
      simp [this]
  · intro j hj
    simp at hj
  · simp only [scan_append, inv.scanned, Option.some_bind, scan, scanEvent]
    simp
  · intro j t1 h1
    simp only [setPc_tasks] at h1
    by_cases hij : i = j
    · subst hij
      simp only [if_true, ht, Option.map_some', Option.some.injEq] at h1
      subst h1
      simp
    · simp only [hij, if_false] at h1
      have := inv.inFlight j t1 h1
      simp only [Option.some.injEq, hij] at this
      simp [this]
  · intro j hj
    simp at hj

/-- Every step keeps the invariant. -/
theorem step_inv (i : Nat) (ok : Bool) (y : Sys) (h cur : Option Nat)
    (inv : LockInv y h cur) : ∃ h1 cur1, LockInv (step i ok y) h1 cur1 := by
  unfold step
  cases ht : y.tasks[i]? with
  | none => exact ⟨h, cur, inv⟩
  | some t =>
    simp only
    cases hpc : t.pc with
    | start =>
      simp only
      split
      · exact ⟨h, cur, inv.move i t ht .acquire (by simp [hpc, Pc.holdsLock]) rfl _ rfl rfl rfl⟩
      · exact ⟨h, cur, inv.move i t ht .awaitInit (by simp [hpc, Pc.holdsLock]) rfl _ rfl rfl rfl⟩
    | awaitInit =>
      exact ⟨h, cur, inv.move i t ht .acquire (by simp [hpc, Pc.holdsLock]) rfl _ rfl rfl rfl⟩
    | acquire =>
      simp only
      cases hl : y.presetLock with
      | true =>
        exact ⟨h, cur, inv.move i t ht .sleeping (by simp [hpc, Pc.holdsLock]) rfl _ rfl rfl rfl⟩
      | false => exact ⟨some i, cur, inv.take i t ht hl⟩
    | sleeping =>
      exact ⟨h, cur, inv.move i t ht .acquire (by simp [hpc, Pc.holdsLock]) rfl _ rfl rfl rfl⟩
    | locked => exact ⟨some i, some i, inv.start i t ht hpc⟩
    | inStorage => exact ⟨none, none, inv.finish i t ht hpc _⟩
    | done => exact ⟨h, cur, inv⟩

theorem runSchedule_inv (schedule : List (Nat × Bool)) :
    ∀ (y : Sys) (h cur : Option Nat), LockInv y h cur →
      ∃ h1 cur1, LockInv (runSchedule schedule y) h1 cur1 := by
  induction schedule with
  | nil => intro y h cur inv; exact ⟨h, cur, inv⟩
  | cons e rest ih =>
    obtain ⟨i, ok⟩ := e
    intro y h cur inv
    obtain ⟨h1, cur1, inv1⟩ := step_inv i ok y h cur inv
    exact ih _ h1 cur1 inv1

theorem launch_inv (ops : List PresetOp) (initialized : Bool) (store : List (Str × Val)) :
    LockInv (Sys.launch ops initialized store) none none := by
  refine ⟨?_, ?_, rfl, rfl, ?_, ?_⟩
  · intro j t h1
    simp only [Sys.launch, List.getElem?_map] at h1
    cases hop : ops[j]? with
    | none => simp [hop] at h1
    | some op =>
      simp only [hop, Option.map_some', Option.some.injEq] at h1
      subst h1
      simp [Pc.holdsLock]
  · intro j hj
    simp at hj
  · intro j t h1
    simp only [Sys.launch, List.getElem?_map] at h1
    cases hop : ops[j]? with
    | none => simp [hop] at h1
    | some op =>
      simp only [hop, Option.map_some', Option.some.injEq] at h1
      subst h1
      simp
  · intro j hj
    simp at hj

/-- C10: single-flight preset lock.  For any preset operations
(`savePresetTemplates` or `loadPresetTemplates`, for the same or for different
preset numbers) called at once and any interleaving of their steps: at every
moment at most one of them holds `presetLock`; the lock is set exactly when
one holds it; and in the order of events, no storage call of a critical
section starts before the one started earlier has completed. -/
theorem C10_single_flight_lock (ops : List PresetOp) (initialized : Bool)
    (store : List (Str × Val)) (schedule : List (Nat × Bool)) :
    (∀ (i j : Nat) (ti tj : Task),
      (runSchedule schedule (Sys.launch ops initialized store)).tasks[i]? = some ti →
      (runSchedule schedule (Sys.launch ops initialized store)).tasks[j]? = some tj →
      ti.pc.holdsLock = true → tj.pc.holdsLock = true → i = j) ∧
    ((runSchedule schedule (Sys.launch ops initialized store)).presetLock = true ↔
      ∃ (i : Nat) (t : Task),
        (runSchedule schedule (Sys.launch ops initialized store)).tasks[i]? = some t ∧
        t.pc.holdsLock = true) ∧
    serialized (runSchedule schedule (Sys.launch ops initialized store)).trace = true := by
  obtain ⟨h, cur, inv⟩ := runSchedule_inv schedule _ none none
    (launch_inv ops initialized store)
  refine ⟨?_, ?_, ?_⟩
  · intro i j ti tj hi hj hli hlj
    have h1 := (inv.holder i ti hi).mp hli
    have h2 := (inv.holder j tj hj).mp hlj
    rw [h1] at h2
    exact Option.some.inj h2
  · rw [inv.lock]
    constructor
    · intro hs
      cases hh : h with
      | none => rw [hh] at hs; simp at hs
      | some j =>
        obtain ⟨t, h1, h2⟩ := inv.holderValid j hh
        exact ⟨j, t, h1, h2⟩
    · rintro ⟨i, t, h1, h2⟩
      rw [(inv.holder i t h1).mp h2]
      rfl
  · simp [serialized, inv.scanned]

/-- Witness of `C10_single_flight_lock`: a run of two concurrent saves. -/
theorem C10_single_flight_lock_witness :
    serialized (runSchedule twoSavesSchedule
      (Sys.launch [.save 1 (some [['A']]), .save 2 (some [['B']])] false [])).trace = true :=
  (C10_single_flight_lock [.save 1 (some [['A']]), .save 2 (some [['B']])] false []
    twoSavesSchedule).2.2

/-- The run of `twoSaves` under `twoSavesSchedule`: both tasks finish, the
second write starts after the first has completed, and both lists are stored. -/
theorem twoSaves_run :
    (runSchedule twoSavesSchedule twoSaves).trace =
      [.acquired 0, .callStarted 0, .callCompleted 0, .released 0,
       .acquired 1, .callStarted 1, .callCompleted 1, .released 1] ∧
    (runSchedule twoSavesSchedule twoSaves).store =
      [(presetKey 1, .strings [['A']]), (presetKey 2, .strings [['B']])] ∧
    (runSchedule twoSavesSchedule twoSaves).presetLock = false := by
  decide

/-! ## Notes store: read-through, whole-record writes and failures -/

theorem issue_pageTitle (c : StorageCall) (s : St) :
    (issue c s).2.pageTitle = s.pageTitle := by
  unfold issue
  cases s.script <;> rfl

theorem ensureInitialized_pageTitle (s : St) :
    (ensureInitialized s).pageTitle = s.pageTitle := by
  unfold ensureInitialized
  cases hi : s.initialized with
  | true => simp
  | false =>
    have h1 := issue_pageTitle (.get "test".data) s
    simp only [initializeStorage, hi, verifyStorageAccess, storageGet]
    generalize issue (.get "test".data) s = r at h1
    obtain ⟨e, s1⟩ := r
    cases e <;> simp_all

theorem ensureInitialized_of_initialized (s : St) (h : s.initialized = true) :
    ensureInitialized s = s := by
  simp [ensureInitialized, h]

theorem ensureInitialized_calls_fresh (s : St) (h : s.initialized = false) :
    (ensureInitialized s).calls = s.calls ++ [.get "test".data] := by
  have h7 := issue_calls (.get "test".data) s
  simp only [ensureInitialized, h, initializeStorage, verifyStorageAccess, storageGet]
  generalize issue (.get "test".data) s = r at h7
  obtain ⟨e, s1⟩ := r
  cases e <;> simp_all

/-- The cache lookup of `loadNotes` misses when there is no entry or the entry
has expired. -/
theorem cacheGet_miss (c : NoteCache (List Note)) (key : Str) (now : Int)
    (h : mapGet c.cache key = none ∨
      ∃ e, mapGet c.cache key = some e ∧ now - e.timestamp > CACHE_DURATION) :
    (c.get key now).1 = none := by
  rcases h with h | ⟨e, h, hgt⟩
  · simp [NoteCache.get, h]
  · simp [NoteCache.get, h, hgt]

/-- C11: read-through on a miss.  When the page shows a video whose id has no
live cache entry (none, or one that has expired at the time of the lookup) and
the storage read resolves, `loadNotes` issues `get(notes_<id>)`, returns the
`notes` field of the stored value, the empty list when that field is missing
or nothing is stored under the key, and the cache then holds the returned list
under the id, stamped with the clock. -/
theorem C11_read_through (s : St) (videoId : Str)
    (hid : getCurrentVideoId s = some videoId) (hne : videoId ≠ [])
    (hmiss : mapGet s.cache.cache videoId = none ∨
      ∃ e, mapGet s.cache.cache videoId = some e ∧
        (ensureInitialized s).clock - e.timestamp > CACHE_DURATION)
    (hread : nextError (ensureInitialized s) = none) :
    (loadNotes s).1 = .ok (match mapGet s.store (notesKey videoId) with
                           | some v => (v.notes).getD []
                           | none => []) ∧
    StorageCall.get (notesKey videoId) ∈ callsSince s.calls.length (loadNotes s).2 ∧
    (mapGet s.store (notesKey videoId) = none → (loadNotes s).1 = .ok []) ∧
    (∀ r l, mapGet s.store (notesKey videoId) = some (.record r) → r.notes = some l →
      (loadNotes s).1 = .ok l) ∧
    (∀ l, (loadNotes s).1 = .ok l →
      mapGet (loadNotes s).2.cache.cache videoId = some ⟨l, (loadNotes s).2.clock⟩) := by
  obtain ⟨hc0, hp0, hv0, hst0, -, -, hcalls0⟩ := ensureInitialized_frame s
  have hid0 : getCurrentVideoId (ensureInitialized s) = some videoId := by
    rw [← hid]; exact getCurrentVideoId_congr _ _ hp0 hv0
  have hno : noVideoId (some videoId) = false := by simp [noVideoId, hne]
  have hmiss0 : ((ensureInitialized s).cache.get videoId (ensureInitialized s).clock).1
      = none := by
    apply cacheGet_miss
    rw [hc0]; exact hmiss
  have hload : ∃ s3 : St,
      loadNotes s = (.ok (match mapGet s.store (notesKey videoId) with
                          | some v => (v.notes).getD []
                          | none => []), s3) ∧
      s3.calls = (ensureInitialized s).calls ++ [.get (notesKey videoId)] ∧
      mapGet s3.cache.cache videoId = some ⟨(match mapGet s.store (notesKey videoId) with
                          | some v => (v.notes).getD []
                          | none => []), s3.clock⟩ := by
    unfold loadNotes
    simp only [hid0, hno, Bool.false_eq_true, if_false]
    generalize (ensureInitialized s).cache.get videoId (ensureInitialized s).clock = g
      at hmiss0
    obtain ⟨o, c⟩ := g
    simp only at hmiss0
    subst hmiss0
    simp only [storageGet]
    have h1 := issue_fst (.get (notesKey videoId)) { ensureInitialized s with cache := c }
    have h2 := issue_store (.get (notesKey videoId)) { ensureInitialized s with cache := c }
    have h3 := issue_calls (.get (notesKey videoId)) { ensureInitialized s with cache := c }
    have hn : nextError { ensureInitialized s with cache := c } = none := hread
    rw [hn] at h1
    generalize issue (.get (notesKey videoId)) { ensureInitialized s with cache := c } = r
      at h1 h2 h3
    obtain ⟨e, s2⟩ := r
    simp only at h1 h2 h3
    subst h1
    simp only [h2, hst0]
    exact ⟨_, rfl, h3, by simp [NoteCache.set, mapGet_mapSet_self]⟩
  obtain ⟨s3, hl, hcalls, hcache⟩ := hload
  have hmem : StorageCall.get (notesKey videoId) ∈ callsSince s.calls.length (loadNotes s).2 := by
    rw [hl]
    simp only [callsSince, hcalls]
    rcases hcalls0 with h | h <;> rw [h] <;> simp
  refine ⟨by rw [hl], hmem, ?_, ?_, ?_⟩
  · intro hnone
    rw [hl, hnone]
  · intro r l hr hn
    rw [hl, hr]
    simp [Val.notes, hn]
  · intro l hres
    rw [hl] at hres ⊢
    simp only [Res.ok.injEq] at hres
    rw [← hres]
    exact hcache

/-- Witness of `C11_read_through`: a fresh page of video `abc` whose record is
stored and not cached. -/
theorem C11_read_through_witness :
    (loadNotes (watchPage [(notesKey "abc".data, exampleRecord 500)] [])).1
      = .ok [exampleNote] :=
  (C11_read_through (watchPage [(notesKey "abc".data, exampleRecord 500)] []) "abc".data
    (by decide) (by decide) (Or.inl (by decide)) (by decide)).2.2.2.1
    { notes := some [exampleNote], videoTitle := some "Title".data,
      timestamp := some 500, channelIcon := none }
    [exampleNote] (by decide) rfl

/-- C12: a successful `saveNotes(notes)` stores under `notes_<id>` exactly the
record `{ notes, videoTitle, timestamp: now }` (the title empty when the page
has none), by one `set` call that replaces the value of that key and leaves
every other key as it was, and then sets the cache entry of the id to `notes`. -/
theorem C12_whole_record (notes : List Note) (s s1 : St)
    (h : saveNotes notes s = (.ok true, s1)) :
    ∃ videoId, getCurrentVideoId s = some videoId ∧ videoId ≠ [] ∧
      s1.store = mapSet s.store (notesKey videoId) (recordOf notes s) ∧
      mapGet s1.store (notesKey videoId) = some (recordOf notes s) ∧
      (∀ k, k ≠ notesKey videoId → mapGet s1.store k = mapGet s.store k) ∧
      StorageCall.set (notesKey videoId) (some (recordOf notes s)) ∈
        callsSince s.calls.length s1 ∧
      mapGet s1.cache.cache videoId = some ⟨notes, s1.clock⟩ ∧
      (s.pageTitle = none → (recordOf notes s).videoTitle = some []) := by
  obtain ⟨-, hp, hv, hst0, -, -, hcalls0⟩ := ensureInitialized_frame s
  have hpt := ensureInitialized_pageTitle s
  unfold saveNotes at h
  simp only at h
  cases hid : getCurrentVideoId (ensureInitialized s) with
  | none => simp [hid] at h
  | some videoId =>
    simp only [hid] at h
    by_cases hne : videoId = []
    · simp [hne, noVideoId] at h
    · have hno : noVideoId (some videoId) = false := by simp [noVideoId, hne]
      have htitle : (match (ensureInitialized s).pageTitle with
            | some t => if (t != []) = true then t else []
            | none => []) = s.pageTitle.getD [] := by
        rw [hpt]
        cases s.pageTitle with
        | none => rfl
        | some t => by_cases ht : t = [] <;> simp [ht]
      simp only [hno, storageSet, htitle] at h
      have hrec : Val.record ⟨some notes, some (s.pageTitle.getD []),
          some (ensureInitialized s).clock, none⟩ = recordOf notes s := rfl
      rw [hrec] at h
      have h2 := issue_store (.set (notesKey videoId) (some (recordOf notes s)))
        (ensureInitialized s)
      have h3 := issue_calls (.set (notesKey videoId) (some (recordOf notes s)))
        (ensureInitialized s)
      generalize issue (.set (notesKey videoId) (some (recordOf notes s)))
        (ensureInitialized s) = r at h h2 h3
      obtain ⟨e, s2⟩ := r
      cases e with
      | some msg => simp at h
      | none =>
        simp only [Bool.false_eq_true, if_false, Prod.mk.injEq, true_and] at h
        subst h
        simp only at h2 h3
        have hstore : mapSet s2.store (notesKey videoId) (recordOf notes s)
            = mapSet s.store (notesKey videoId) (recordOf notes s) := by
          rw [h2, hst0]
        refine ⟨videoId, ?_, hne, hstore, ?_, ?_, ?_, ?_, ?_⟩
        · rw [← hid]
          exact (getCurrentVideoId_congr _ _ hp hv).symm
        · simp only [hstore]
          exact mapGet_mapSet_self _ _ _
        · intro k hk
          simp only [hstore]
          exact mapGet_mapSet_other _ _ _ _ hk
        · simp only [callsSince, h3]
          rcases hcalls0 with h0 | h0 <;> rw [h0] <;> simp
        · simp [NoteCache.set, mapGet_mapSet_self]
        · intro hnone
          simp [recordOf, Val.videoTitle, hnone]

/-- Witness of `C12_whole_record`: one note saved on the watch page of `abc`;
the store then holds the record under `notes_abc`. -/
theorem C12_whole_record_witness :
    mapGet (saveNotes [exampleNote] (watchPage [] [])).2.store (notesKey "abc".data)
      = some (recordOf [exampleNote] (watchPage [] [])) := by
  obtain ⟨v, h1, -, -, h4, -⟩ := C12_whole_record [exampleNote] (watchPage [] [])
    (saveNotes [exampleNote] (watchPage [] [])).2 (by decide)
  have hv : getCurrentVideoId (watchPage [] []) = some "abc".data := by decide
  rw [hv] at h1
  rw [Option.some.inj h1]
  exact h4

/-- C13, as stated, fails: on a fresh page that shows no video, `loadNotes`
fails with the `loading` error only after `initialize()` has issued its
`get('test')` storage call. -/
theorem C13_counterexample :
    homePage.initialized = false ∧ homePage.calls = [] ∧
    (loadNotes homePage).1 = .throw (.noteError "Video ID not found".data "loading".data) ∧
    (loadNotes homePage).2.calls = [.get "test".data] := by
  decide

/-- C13, amended: whenever no current video id can be determined (the path is
not `/watch`, or the `v` parameter is missing or empty), `loadNotes` fails with
a `NoteError` of type `loading`.  It never reads a notes record: when the store
is initialized already it makes no storage call at all, and when it is not,
the `get('test')` call of `initialize()` is the one storage call it makes. -/
theorem C13_no_record_context (s : St)
    (h : s.pathname ≠ "/watch".data ∨ s.vParam = none ∨ s.vParam = some []) :
    (loadNotes s).1 = .throw (.noteError "Video ID not found".data "loading".data) ∧
    (s.initialized = true → (loadNotes s).2.calls = s.calls) ∧
    (s.initialized = false → (loadNotes s).2.calls = s.calls ++ [.get "test".data]) := by
  obtain ⟨-, hp0, hv0, -, -, -, -⟩ := ensureInitialized_frame s
  have hid : noVideoId (getCurrentVideoId s) = true := by
    unfold getCurrentVideoId
    rcases h with h | h | h
    · simp [h, noVideoId]
    · by_cases hp : s.pathname = "/watch".data <;> simp [hp, h, noVideoId]
    · by_cases hp : s.pathname = "/watch".data <;> simp [hp, h, noVideoId]
  have hid0 : noVideoId (getCurrentVideoId (ensureInitialized s)) = true := by
    rw [getCurrentVideoId_congr _ _ hp0 hv0]; exact hid
  have hload : loadNotes s =
      (.throw (.noteError "Video ID not found".data "loading".data), ensureInitialized s) := by
    unfold loadNotes
    simp only
    cases hg : getCurrentVideoId (ensureInitialized s) with
    | none => rfl
    | some v =>
      rw [hg] at hid0
      simp [hid0]
  refine ⟨by rw [hload], ?_, ?_⟩
  · intro hi
    rw [hload, ensureInitialized_of_initialized s hi]
  · intro hi
    rw [hload]
    exact ensureInitialized_calls_fresh s hi

/-- Witness of `C13_no_record_context`: the home page, already initialized. -/
theorem C13_no_record_context_witness :
    (loadNotes { homePage with initialized := true }).1
      = .throw (.noteError "Video ID not found".data "loading".data) ∧
    (loadNotes { homePage with initialized := true }).2.calls = [] :=
  ⟨(C13_no_record_context { homePage with initialized := true } (Or.inl (by decide))).1,
   (C13_no_record_context { homePage with initialized := true } (Or.inl (by decide))).2.1 rfl⟩

/-- C14: failure classification of `saveNotes`.  When the storage write
rejects with an error of message `msg`, the call throws a `NoteError` of type
`storage` if `msg` contains `quota` and of type `network` otherwise; and
whatever `saveNotes` throws, in any run, is a `NoteError`. -/
theorem C14_failure_classification (notes : List Note) (s : St) :
    (∀ videoId msg, getCurrentVideoId s = some videoId → videoId ≠ [] →
      nextError (ensureInitialized s) = some msg →
      (saveNotes notes s).1 = .throw (.noteError "Failed to save notes".data
        (if includes msg "quota".data then "storage".data else "network".data))) ∧
    (∀ e, (saveNotes notes s).1 = .throw e → ∃ m t, e = .noteError m t) := by
  obtain ⟨-, hp0, hv0, -, -, -, -⟩ := ensureInitialized_frame s
  constructor
  · intro videoId msg hid hne hfail
    have hid0 : getCurrentVideoId (ensureInitialized s) = some videoId := by
      rw [← hid]; exact getCurrentVideoId_congr _ _ hp0 hv0
    have hno : noVideoId (some videoId) = false := by simp [noVideoId, hne]
    unfold saveNotes
    simp only [hid0, hno, Bool.false_eq_true, if_false, storageSet]
    generalize hc : StorageCall.set (notesKey videoId) _ = c
    have h1 := issue_fst c (ensureInitialized s)
    rw [hfail] at h1
    generalize issue c (ensureInitialized s) = r at h1
    obtain ⟨e, s2⟩ := r
    simp only at h1
    subst h1
    simp [classify, JsError.message]
  · intro e he
    unfold saveNotes at he
    simp only at he
    cases hid : getCurrentVideoId (ensureInitialized s) with
    | none =>
      simp only [hid, Res.throw.injEq] at he
      exact ⟨_, _, he.symm⟩
    | some videoId =>
      simp only [hid] at he
      by_cases hno : noVideoId (some videoId) = true
      · simp only [hno, if_true, Res.throw.injEq] at he
        exact ⟨_, _, he.symm⟩
      · simp only [hno, Bool.false_eq_true, if_false, storageSet] at he
        generalize hc : StorageCall.set (notesKey videoId) _ = c at he
        generalize issue c (ensureInitialized s) = r at he
        obtain ⟨o, s2⟩ := r
        cases o with
        | none => simp at he
        | some msg =>
          simp only [classify, Res.throw.injEq] at he
          exact ⟨_, _, he.symm⟩

/-- Witness of `C14_failure_classification`: a write that rejects with a quota
message on the watch page of `abc`. -/
theorem C14_failure_classification_witness :
    (saveNotes [exampleNote] quotaPage).1 = .throw (.noteError "Failed to save notes".data
      (if includes "QUOTA_BYTES quota exceeded".data "quota".data then "storage".data
       else "network".data)) :=
  (C14_failure_classification [exampleNote] quotaPage).1 "abc".data
    "QUOTA_BYTES quota exceeded".data (by decide) (by decide) (by decide)

/-! ## Deleting records -/

/-- In every run `deleteVideo` ends in the `catch` block: it never returns
`true` and never touches the cache. -/
theorem deleteVideo_false (videoId : Str) (s : St) :
    (deleteVideo videoId s).1 = .ok false ∧ (deleteVideo videoId s).2.cache = s.cache := by
  obtain ⟨hc0, -, -, -, -, -, -⟩ := ensureInitialized_frame s
  have h1 := issue_cache (.remove [notesKey videoId]) (ensureInitialized s)
  unfold deleteVideo storageRemove cacheDeleteCall
  simp only
  generalize issue (.remove [notesKey videoId]) (ensureInitialized s) = r at h1
  obtain ⟨e, s1⟩ := r
  simp only at h1
  cases e with
  | some msg => exact ⟨rfl, h1.trans hc0⟩
  | none => exact ⟨rfl, h1.trans hc0⟩

/-- C15 at the failing input: on the watch page of `abc`, with the record
stored and its notes cached, the storage removal of `deleteVideo("abc")`
succeeds and the record is gone from the store, yet the call returns `false`
and the cache still serves the deleted notes to the next `loadNotes()`. -/
theorem C15_deleteVideo_failing_input :
    mapGet cachedPage.store (notesKey "abc".data) ≠ none ∧
    nextError cachedPage = none ∧
    (deleteVideo "abc".data cachedPage).1 = .ok false ∧
    mapGet (deleteVideo "abc".data cachedPage).2.store (notesKey "abc".data) = none ∧
    (loadNotes (deleteVideo "abc".data cachedPage).2).1 = .ok [exampleNote] := by
  decide

theorem foldl_mapDelete (keys : List Str) :
    ∀ store : List (Str × Val),
      keys.foldl mapDelete store = store.filter (fun kv => decide (kv.1 ∉ keys)) := by
  induction keys with
  | nil => intro store; simp
  | cons k rest ih =>
    intro store
    simp only [List.foldl_cons, ih, mapDelete, List.filter_filter]
    apply List.filter_congr
    intro kv _
    by_cases h1 : kv.1 = k <;> by_cases h2 : kv.1 ∈ rest <;> simp [h1, h2]

theorem mapGet_filter_key (q : Str → Bool) (l : List (Str × Val)) (k : Str) :
    mapGet (l.filter (fun kv => q kv.1)) k = if q k then mapGet l k else none := by
  induction l with
  | nil => simp [mapGet]
  | cons e rest ih =>
    obtain ⟨k1, v1⟩ := e
    by_cases hq : q k1 = true
    · by_cases hk : k1 = k
      · subst hk
        simp [List.filter_cons, hq, mapGet]
      · simp [List.filter_cons, hq, mapGet, hk, ih]
    · have hq2 : q k1 = false := by simpa using hq
      by_cases hk : k1 = k
      · subst hk
        simp [List.filter_cons, hq2, ih]
      · simp [List.filter_cons, hq2, mapGet, hk, ih]

/-- Removing the keys of the `notes_` namespace from a store leaves the entries
whose key does not start with `notes_`. -/
theorem remove_noteKeys (store : List (Str × Val)) :
    ((store.map Prod.fst).filter (fun key => startsWith key "notes_".data)).foldl
        mapDelete store
      = store.filter (fun kv => !startsWith kv.1 "notes_".data) := by
  rw [foldl_mapDelete]
  apply List.filter_congr
  intro kv hkv
  have hmem : kv.1 ∈ store.map Prod.fst := List.mem_map_of_mem _ hkv
  cases hs : startsWith kv.1 "notes_".data <;> simp [List.mem_filter, hs, hmem]

theorem storageRemove_cases (keys : List Str) (s : St) :
    ((storageRemove keys s).1 = .ok () ∧ nextError s = none ∧
      (storageRemove keys s).2.store = keys.foldl mapDelete s.store ∨
     (∃ e, (storageRemove keys s).1 = .throw e) ∧ (∃ msg, nextError s = some msg) ∧
      (storageRemove keys s).2.store = s.store) ∧
    (storageRemove keys s).2.cache = s.cache := by
  have h1 := issue_store (.remove keys) s
  have h2 := issue_cache (.remove keys) s
  have h3 := issue_fst (.remove keys) s
  unfold storageRemove
  generalize issue (.remove keys) s = r at h1 h2 h3
  obtain ⟨e, s1⟩ := r
  simp only at h1 h2 h3
  cases e with
  | some msg => exact ⟨Or.inr ⟨⟨_, rfl⟩, ⟨msg, h3.symm⟩, h1⟩, h2⟩
  | none => exact ⟨Or.inl ⟨rfl, h3.symm, by simp [h1]⟩, h2⟩

theorem storageGetAll_cases (s : St) :
    ((storageGetAll s).1 = .ok s.store ∧ nextError s = none ∨
     (∃ e, (storageGetAll s).1 = .throw e) ∧ ∃ msg, nextError s = some msg) ∧
    (storageGetAll s).2.store = s.store := by
  have h1 := issue_store .getAll s
  have h3 := issue_fst .getAll s
  unfold storageGetAll
  generalize issue .getAll s = r at h1 h3
  obtain ⟨e, s1⟩ := r
  simp only at h1 h3
  cases e with
  | some msg => exact ⟨Or.inr ⟨⟨_, rfl⟩, ⟨msg, h3.symm⟩⟩, h1⟩
  | none => exact ⟨Or.inl ⟨by simp [h1], h3.symm⟩, h1⟩

/-- C16: `clearAllNotes` never throws: in every run it returns `true` or
`false`, and it returns `false` when its `get(null)` call or its `remove` call
rejects.  When it returns `true`, the store holds exactly its former entries
whose key does not start with `notes_`: every key of that namespace is gone,
every other key has its value unchanged, and the cache is empty.  Without
storage faults it returns `true`. -/
theorem C16_clearAllNotes_frame (s : St) :
    ((clearAllNotes s).1 = .ok true ∨ (clearAllNotes s).1 = .ok false) ∧
    (∀ msg, nextError (ensureInitialized s) = some msg → (clearAllNotes s).1 = .ok false) ∧
    (∀ msg, nextError (storageGetAll (ensureInitialized s)).2 = some msg →
      (clearAllNotes s).1 = .ok false) ∧
    ((clearAllNotes s).1 = .ok true →
      (clearAllNotes s).2.store
        = s.store.filter (fun kv => !startsWith kv.1 "notes_".data) ∧
      (∀ k, startsWith k "notes_".data = true → mapGet (clearAllNotes s).2.store k = none) ∧
      (∀ k, startsWith k "notes_".data = false →
        mapGet (clearAllNotes s).2.store k = mapGet s.store k) ∧
      (clearAllNotes s).2.cache.cache = []) ∧
    (noFaults s → (clearAllNotes s).1 = .ok true) := by
  obtain ⟨-, -, -, hst0, -, -, -⟩ := ensureInitialized_frame s
  have hf0 := noFaults_ensureInitialized s
  obtain ⟨hga, hst1⟩ := storageGetAll_cases (ensureInitialized s)
  have hf1 := (storageGetAll_frame (ensureInitialized s)).2.2
  unfold clearAllNotes
  simp only
  generalize storageGetAll (ensureInitialized s) = r1 at hga hst1 hf1
  obtain ⟨res1, t1⟩ := r1
  simp only at hga hst1 hf1
  rcases hga with ⟨hok, hn0⟩ | ⟨⟨e, he⟩, ⟨msg0, hn0⟩⟩
  · subst hok
    simp only
    rw [hst0] at hst1 ⊢
    obtain ⟨hrm, -⟩ := storageRemove_cases
      ((s.store.map Prod.fst).filter (fun key => startsWith key "notes_".data)) t1
    generalize storageRemove
      ((s.store.map Prod.fst).filter (fun key => startsWith key "notes_".data)) t1 = r2 at hrm
    obtain ⟨res2, t2⟩ := r2
    simp only at hrm
    rcases hrm with ⟨hok2, hn1, hst2⟩ | ⟨⟨e2, he2⟩, ⟨msg1, hn1⟩, hst2⟩
    · subst hok2
      have hstore : t2.store = s.store.filter (fun kv => !startsWith kv.1 "notes_".data) := by
        rw [hst2, hst1, remove_noteKeys]
      refine ⟨Or.inl rfl, ?_, ?_, ?_, fun _ => rfl⟩
      · intro msg hm; rw [hn0] at hm; simp at hm
      · intro msg hm; rw [hn1] at hm; simp at hm
      · intro _
        refine ⟨hstore, ?_, ?_, rfl⟩
        · intro k hk
          simp only [hstore]
          rw [mapGet_filter_key (fun key => !startsWith key "notes_".data)]
          simp [hk]
        · intro k hk
          simp only [hstore]
          rw [mapGet_filter_key (fun key => !startsWith key "notes_".data)]
          simp [hk]
    · subst he2
      refine ⟨Or.inr rfl, fun _ _ => rfl, fun _ _ => rfl, ?_, ?_⟩
      · intro h; simp at h
      · intro hs
        have := nextError_of_noFaults t1 (hf1 (hf0 hs)).2
        rw [hn1] at this
        simp at this
  · subst he
    refine ⟨Or.inr rfl, fun _ _ => rfl, fun _ _ => rfl, ?_, ?_⟩
    · intro h; simp at h
    · intro hs
      have := nextError_of_noFaults _ (hf0 hs)
      rw [hn0] at this
      simp at this

/-- Witness of `C16_clearAllNotes_frame`: a store with a record, a preset and
the retention window; only the record goes. -/
theorem C16_clearAllNotes_frame_witness :
    (clearAllNotes mixedPage).1 = .ok true ∧
    (clearAllNotes mixedPage).2.store
      = mixedPage.store.filter (fun kv => !startsWith kv.1 "notes_".data) :=
  ⟨(C16_clearAllNotes_frame mixedPage).2.2.2.2 (by decide),
   ((C16_clearAllNotes_frame mixedPage).2.2.2.1 (by decide)).1⟩

/-! ## Order of the listing -/

/-- On a sorted part, the binary search finds the place of the pivot: the
elements before it are not smaller in key, the elements from it on are smaller.
Here the comparator is the difference of the keys on the elements that
satisfy `P`. -/
theorem searchPos_spec {α : Type} (cmp : α → α → Int) (key : α → Int) (P : α → Prop)
    (hcmp : ∀ a b, P a → P b → cmp a b = key b - key a)
    (a : List α) (pivot : α) (hP : ∀ x ∈ a, P x) (hp : P pivot)
    (hs : a.Pairwise (fun x y => key y ≤ key x)) :
    ∀ fuel left right, right - left ≤ fuel → left ≤ right → right ≤ a.length →
      (∀ i (h : i < a.length), i < left → key pivot ≤ key a[i]) →
      (∀ i (h : i < a.length), right ≤ i → key a[i] < key pivot) →
      searchPos cmp pivot a fuel left right ≤ a.length ∧
      (∀ i (h : i < a.length), i < searchPos cmp pivot a fuel left right →
        key pivot ≤ key a[i]) ∧
      (∀ i (h : i < a.length), searchPos cmp pivot a fuel left right ≤ i →
        key a[i] < key pivot) := by
  have hsorted := List.pairwise_iff_getElem.mp hs
  intro fuel
  induction fuel with
  | zero =>
    intro left right hf hle hlen hlo hhi
    have : left = right := by omega
    subst this
    simp only [searchPos]
    exact ⟨hlen, hlo, hhi⟩
  | succ fuel ih =>
    intro left right hf hle hlen hlo hhi
    simp only [searchPos]
    by_cases hlt : left < right
    · simp only [hlt, if_true]
      have hmid : left + (right - left) / 2 < a.length := by omega
      rw [List.getElem?_eq_getElem hmid]
      simp only
      have hc : cmp pivot a[left + (right - left) / 2]
          = key a[left + (right - left) / 2] - key pivot :=
        hcmp _ _ hp (hP _ (List.getElem_mem hmid))
      by_cases hneg : cmp pivot a[left + (right - left) / 2] < 0
      · simp only [hneg, if_true]
        apply ih left (left + (right - left) / 2) (by omega) (by omega) (by omega) hlo
        intro i hi hge
        have hk : key a[left + (right - left) / 2] < key pivot := by rw [hc] at hneg; omega
        by_cases heq : i = left + (right - left) / 2
        · subst heq; exact hk
        · have := hsorted (left + (right - left) / 2) i hmid hi (by omega)
          omega
      · simp only [hneg, if_false]
        apply ih (left + (right - left) / 2 + 1) right (by omega) (by omega) hlen _ hhi
        intro i hi hlt2
        have hk : key pivot ≤ key a[left + (right - left) / 2] := by rw [hc] at hneg; omega
        by_cases heq : i = left + (right - left) / 2
        · subst heq; exact hk
        · have := hsorted i (left + (right - left) / 2) hi hmid (by omega)
          omega
    · simp only [hlt, if_false]
      have : left = right := by omega
      subst this
      exact ⟨hlen, hlo, hhi⟩

theorem binaryInsert_sorted {α : Type} (cmp : α → α → Int) (key : α → Int) (P : α → Prop)
    (hcmp : ∀ a b, P a → P b → cmp a b = key b - key a)
    (a : List α) (pivot : α) (hP : ∀ x ∈ a, P x) (hp : P pivot)
    (hs : a.Pairwise (fun x y => key y ≤ key x)) :
    (binaryInsert cmp a pivot).Pairwise (fun x y => key y ≤ key x) := by
  obtain ⟨hr, hlo, hhi⟩ := searchPos_spec cmp key P hcmp a pivot hP hp hs a.length 0 a.length
    (by omega) (by omega) (by omega) (fun i _ h => absurd h (by omega))
    (fun i h hge => absurd hge (by omega))
  unfold binaryInsert
  simp only
  generalize searchPos cmp pivot a a.length 0 a.length = r at hr hlo hhi
  have hsplit : (a.take r ++ a.drop r).Pairwise (fun x y => key y ≤ key x) := by
    rw [List.take_append_drop]; exact hs
  obtain ⟨h1, h2, h3⟩ := List.pairwise_append.mp hsplit
  rw [List.pairwise_append]
  refine ⟨h1, ?_, ?_⟩
  · rw [List.pairwise_cons]
    refine ⟨?_, h2⟩
    intro y hy
    obtain ⟨i, hi, rfl⟩ := List.mem_drop_iff_getElem.mp hy
    exact le_of_lt (hhi (r + i) (by omega) (by omega))
  · intro x hx y hy
    rcases List.mem_cons.mp hy with rfl | hy
    · obtain ⟨i, hi, rfl⟩ := List.mem_take_iff_getElem.mp hx
      exact hlo i (by omega) (by omega)
    · exact h3 x hx y hy

theorem foldl_binaryInsert_sorted {α : Type} (cmp : α → α → Int) (key : α → Int)
    (P : α → Prop) (hcmp : ∀ a b, P a → P b → cmp a b = key b - key a) (rest : List α) :
    ∀ run : List α, (∀ x ∈ run, P x) → (∀ x ∈ rest, P x) →
      run.Pairwise (fun x y => key y ≤ key x) →
      (rest.foldl (binaryInsert cmp) run).Pairwise (fun x y => key y ≤ key x) := by
  induction rest with
  | nil => intro run _ _ hs; exact hs
  | cons p tl ih =>
    intro run hrun hrest hs
    simp only [List.foldl_cons]
    apply ih
    · intro x hx
      rcases List.mem_cons.mp ((binaryInsert_perm cmp run p).mem_iff.mp hx) with rfl | h
      · exact hrest _ (by simp)
      · exact hrun x h
    · intro x hx
      exact hrest x (List.mem_cons_of_mem _ hx)
    · exact binaryInsert_sorted cmp key P hcmp run p hrun (hrest p (by simp)) hs

theorem growRun_chain_false {α : Type} (cmp : α → α → Int) (key : α → Int) (P : α → Prop)
    (hcmp : ∀ a b, P a → P b → cmp a b = key b - key a) (l : List α) :
    ∀ prev, P prev → (∀ x ∈ l, P x) →
      List.Chain (fun x y => key y ≤ key x) prev (growRun cmp false prev l).1 := by
  induction l with
  | nil => intro prev _ _; simp [growRun]
  | cons c tl ih =>
    intro prev hp hl
    have hc : cmp c prev = key prev - key c := hcmp _ _ (hl c (by simp)) hp
    simp only [growRun, Bool.false_eq_true, if_false]
    by_cases hneg : cmp c prev < 0
    · simp [hneg]
    · simp only [hneg, decide_False, Bool.false_eq_true, if_false]
      refine List.Chain.cons (by omega) ?_
      exact ih c (hl c (by simp)) (fun x hx => hl x (List.mem_cons_of_mem _ hx))

theorem growRun_chain_true {α : Type} (cmp : α → α → Int) (key : α → Int) (P : α → Prop)
    (hcmp : ∀ a b, P a → P b → cmp a b = key b - key a) (l : List α) :
    ∀ prev, P prev → (∀ x ∈ l, P x) →
      List.Chain (fun x y => key x < key y) prev (growRun cmp true prev l).1 := by
  induction l with
  | nil => intro prev _ _; simp [growRun]
  | cons c tl ih =>
    intro prev hp hl
    have hc : cmp c prev = key prev - key c := hcmp _ _ (hl c (by simp)) hp
    simp only [growRun, if_true]
    by_cases hge : cmp c prev ≥ 0
    · simp [hge]
    · simp only [hge, decide_False, Bool.false_eq_true, if_false]
      refine List.Chain.cons (by omega) ?_
      exact ih c (hl c (by simp)) (fun x hx => hl x (List.mem_cons_of_mem _ hx))

theorem countAndMakeRun_sorted {α : Type} (cmp : α → α → Int) (key : α → Int) (P : α → Prop)
    (hcmp : ∀ a b, P a → P b → cmp a b = key b - key a)
    (l : List α) (hl : ∀ x ∈ l, P x) :
    (countAndMakeRun cmp l).1.Pairwise (fun x y => key y ≤ key x) := by
  match l, hl with
  | [], _ => simp [countAndMakeRun]
  | [x], _ => simp [countAndMakeRun]
  | x0 :: x1 :: tl, hl =>
    have h0 : P x0 := hl x0 (by simp)
    have h1 : P x1 := hl x1 (by simp)
    have htl : ∀ x ∈ tl, P x := fun x hx => hl x (by simp [hx])
    have hc : cmp x1 x0 = key x0 - key x1 := hcmp _ _ h1 h0
    simp only [countAndMakeRun]
    by_cases hneg : cmp x1 x0 < 0
    · simp only [hneg, decide_True, if_true]
      rw [List.pairwise_reverse]
      haveI : IsTrans α (fun x y => key x < key y) := ⟨fun _ _ _ h1 h2 => lt_trans h1 h2⟩
      have hchain : List.Chain (fun x y => key x < key y) x0
          (x1 :: (growRun cmp true x1 tl).1) :=
        List.Chain.cons (by omega) (growRun_chain_true cmp key P hcmp tl x1 h1 htl)
      have hp := List.chain_iff_pairwise.mp hchain
      rw [List.pairwise_cons] at hp
      have hp2 : (x0 :: x1 :: (growRun cmp true x1 tl).1).Pairwise (fun x y => key x < key y) :=
        List.pairwise_cons.mpr hp
      exact hp2.imp (fun h => le_of_lt h)
    · simp only [hneg, decide_False, Bool.false_eq_true, if_false]
      haveI : IsTrans α (fun x y => key y ≤ key x) := ⟨fun _ _ _ h1 h2 => le_trans h2 h1⟩
      have hchain : List.Chain (fun x y => key y ≤ key x) x0
          (x1 :: (growRun cmp false x1 tl).1) :=
        List.Chain.cons (by omega) (growRun_chain_false cmp key P hcmp tl x1 h1 htl)
      have hp := List.chain_iff_pairwise.mp hchain
      rw [List.pairwise_cons] at hp
      exact List.pairwise_cons.mpr hp

/-- With a comparator that is the difference of the keys, the sort returns its
input in descending order of key. -/
theorem v8Sort_sorted {α : Type} (cmp : α → α → Int) (key : α → Int) (P : α → Prop)
    (hcmp : ∀ a b, P a → P b → cmp a b = key b - key a)
    (l : List α) (hl : ∀ x ∈ l, P x) :
    (v8Sort cmp l).Pairwise (fun x y => key y ≤ key x) := by
  have hmem : ∀ x, x ∈ (countAndMakeRun cmp l).1 ++ (countAndMakeRun cmp l).2 → P x :=
    fun x hx => hl x ((countAndMakeRun_perm cmp l).mem_iff.mp hx)
  unfold v8Sort
  apply foldl_binaryInsert_sorted cmp key P hcmp
  · intro x hx; exact hmem x (List.mem_append_left _ hx)
  · intro x hx; exact hmem x (List.mem_append_right _ hx)
  · exact countAndMakeRun_sorted cmp key P hcmp l hl

/-- Summaries that all have a time stamp are sorted by `sortVideos` into
descending order of time stamp. -/
theorem sortVideos_descending (l : List VideoSummary)
    (h : ∀ a ∈ l, ∃ t, a.timestamp = some t) : descending (sortVideos l) := by
  have hsorted : (sortVideos l).Pairwise
      (fun x y => (y.timestamp).getD 0 ≤ (x.timestamp).getD 0) := by
    apply v8Sort_sorted compareVideos (fun v => (v.timestamp).getD 0)
      (fun v => ∃ t, v.timestamp = some t) _ l h
    rintro a b ⟨ta, hta⟩ ⟨tb, htb⟩
    simp [compareVideos, hta, htb]
  unfold descending
  apply List.Pairwise.imp_of_mem _ hsorted
  intro a b ha hb hab
  obtain ⟨ta, hta⟩ := h a ((mem_sortVideos a l).mp ha)
  obtain ⟨tb, htb⟩ := h b ((mem_sortVideos b l).mp hb)
  refine ⟨ta, tb, hta, htb, ?_⟩
  simpa [hta, htb] using hab

/-- A record without a time stamp among stamped ones: the run `1, 2` at the
start is descending for the comparator and is reversed, the record without a
time stamp compares as equal and is put behind the run, and the record with
time stamp `3` is put at the front by the binary search. -/
theorem sortVideos_unstamped :
    sortVideos [summaryOf "notes_a".data (exampleRecord 1),
                summaryOf "notes_b".data (exampleRecord 2),
                summaryOf "notes_c".data unstampedRecord,
                summaryOf "notes_d".data (exampleRecord 3)] =
      [summaryOf "notes_d".data (exampleRecord 3),
       summaryOf "notes_b".data (exampleRecord 2),
       summaryOf "notes_a".data (exampleRecord 1),
       summaryOf "notes_c".data unstampedRecord] := by
  decide

/-- C17, as stated, fails: the store holds a record saved two days ago, a
record without a time stamp and a record saved one day ago, all three within
the stored retention window.  The comparator gives `NaN` against the record
without a time stamp, the sort leaves the three summaries in the order of the
store, and the older record stands before the newer one. -/
theorem C17_counterexample :
    (loadSavedVideos unstampedPage).1 =
      .ok [summaryOf "notes_a".data (exampleRecord 1699827200000),
           summaryOf "notes_b".data unstampedRecord,
           summaryOf "notes_c".data (exampleRecord 1699913600000)] ∧
    (summaryOf "notes_a".data (exampleRecord 1699827200000)).timestamp
      = some 1699827200000 ∧
    (summaryOf "notes_c".data (exampleRecord 1699913600000)).timestamp
      = some 1699913600000 ∧
    (1699827200000 : Int) < 1699913600000 ∧
    ¬ descending [summaryOf "notes_a".data (exampleRecord 1699827200000),
                  summaryOf "notes_b".data unstampedRecord,
                  summaryOf "notes_c".data (exampleRecord 1699913600000)] := by
  refine ⟨by decide, rfl, rfl, by decide, ?_⟩
  intro h
  unfold descending at h
  rw [List.pairwise_cons] at h
  obtain ⟨ta, tb, hta, htb, hle⟩ :=
    h.1 (summaryOf "notes_c".data (exampleRecord 1699913600000)) (by simp)
  have h1 : ta = 1699827200000 := by
    have : (summaryOf "notes_a".data (exampleRecord 1699827200000)).timestamp
        = some 1699827200000 := rfl
    rw [this] at hta
    exact (Option.some.inj hta).symm
  have h2 : tb = 1699913600000 := by
    have : (summaryOf "notes_c".data (exampleRecord 1699913600000)).timestamp
        = some 1699913600000 := rfl
    rw [this] at htb
    exact (Option.some.inj htb).symm
  omega

/-- C17, amended: order of the listing.  Without storage faults
`loadSavedVideos` returns a list.  Whenever it returns a list, for every
store content the list is a rearrangement of the summaries of the retained
`notes_` entries of the store, one for each, so every summary in it comes from
a key of the `notes_` namespace; and the list is in descending order of time
stamp whenever every summary in it has a time stamp, in particular whenever
every value under a `notes_` key carries one (as every record written by
`saveNotes` does). -/
theorem C17_listing_order (s : St) :
    (noFaults s → ∃ result s1, loadSavedVideos s = (.ok result, s1)) ∧
    ∀ result s1, loadSavedVideos s = (.ok result, s1) →
      (∃ v, (getRetentionDays (ensureInitialized s)).1 = .ok v ∧
        result.Perm
          ((s.store.filter (retained (listingTime s) (retentionPeriodOf v))).map
            (fun e => summaryOf e.1 e.2))) ∧
      (∀ x ∈ result, ∃ key value, (key, value) ∈ s.store ∧
        startsWith key "notes_".data = true ∧ x = summaryOf key value) ∧
      ((∀ x ∈ result, ∃ t, x.timestamp = some t) → descending result) ∧
      ((∀ kv ∈ s.store, startsWith kv.1 "notes_".data = true →
          ∃ t, kv.2.timestamp = some t) → descending result) := by
  refine ⟨loadSavedVideos_total s, ?_⟩
  intro result s1 hrun
  obtain ⟨⟨v, hv⟩, -, -, -⟩ := getRetentionDays_frame (ensureInitialized s)
  obtain ⟨pre, -, hres, -⟩ := loadSavedVideos_ok s result s1 v hv hrun
  have hmem : ∀ x ∈ (s.store.filter (retained (listingTime s) (retentionPeriodOf v))).map
      (fun e => summaryOf e.1 e.2),
      ∃ key value, (key, value) ∈ s.store ∧
        startsWith key "notes_".data = true ∧ x = summaryOf key value := by
    intro x hx
    obtain ⟨e, he, hex⟩ := List.mem_map.mp hx
    obtain ⟨hes, hret⟩ := List.mem_filter.mp he
    simp only [retained, Bool.and_eq_true] at hret
    exact ⟨e.1, e.2, hes, hret.1, hex.symm⟩
  have hres2 : result = sortVideos
      ((s.store.filter (retained (listingTime s) (retentionPeriodOf v))).map
        (fun e => summaryOf e.1 e.2)) := hres
  have hdesc : (∀ x ∈ result, ∃ t, x.timestamp = some t) → descending result := by
    intro hall
    rw [hres2]
    apply sortVideos_descending
    intro a ha
    exact hall a (by rw [hres2, mem_sortVideos]; exact ha)
  refine ⟨⟨v, hv, ?_⟩, ?_, hdesc, ?_⟩
  · rw [hres2]
    exact sortVideos_perm _
  · intro x hx
    rw [hres2, mem_sortVideos] at hx
    exact hmem x hx
  · intro htime
    apply hdesc
    intro x hx
    rw [hres2, mem_sortVideos] at hx
    obtain ⟨key, value, hkv, hpre, rfl⟩ := hmem x hx
    obtain ⟨t, ht⟩ := htime (key, value) hkv hpre
    exact ⟨t, by simpa [summaryOf] using ht⟩

/-- Witness of `C17_listing_order`: two retained records, stored older first,
are listed newer first. -/
theorem C17_listing_order_witness :
    descending [summaryOf "notes_b".data (exampleRecord 4000000000),
                summaryOf "notes_a".data (exampleRecord 2494400000)] :=
  ((C17_listing_order recentPage).2
    [summaryOf "notes_b".data (exampleRecord 4000000000),
     summaryOf "notes_a".data (exampleRecord 2494400000)]
    (loadSavedVideos recentPage).2 (by decide)).2.2.1 (by
      intro x hx
      simp only [List.mem_cons, List.mem_singleton, List.not_mem_nil, or_false] at hx
      rcases hx with rfl | rfl
      · exact ⟨4000000000, rfl⟩
      · exact ⟨2494400000, rfl⟩)

/-! ## A failed delete during the listing -/

theorem storageRemove_script (keys : List Str) (s : St) (x : Outcome) (tl : List Outcome)
    (hs : s.script = x :: tl) :
    (x.error = none → (storageRemove keys s).1 = .ok () ∧
      (storageRemove keys s).2.script = tl) ∧
    (∀ m, x.error = some m → (storageRemove keys s).1 = .throw (.error m)) := by
  unfold storageRemove issue
  rw [hs]
  constructor
  · intro hx
    simp [hx]
  · intro m hx
    simp [hx]

/-- The loop of `loadSavedVideos` stops with an error at the first `remove`
that rejects. -/
theorem loadSavedVideosLoop_abort (ct : Int) (rp : Option Int) (o : Outcome)
    (rest : List Outcome) (msg : Str) (ho : o.error = some msg)
    (entries : List (Str × Val)) :
    ∀ (videos : List VideoSummary) (t : St) (oks : List Outcome),
      t.script = oks ++ o :: rest → (∀ x ∈ oks, x.error = none) →
      oks.length < (entries.filter (evicted ct rp)).length →
      ∃ e t1, loadSavedVideosLoop ct rp entries videos t = (.throw e, t1) := by
  induction entries with
  | nil =>
    intro videos t oks _ _ hlen
    simp at hlen
  | cons e restE ih =>
    obtain ⟨key, value⟩ := e
    intro videos t oks hscript hoks hlen
    unfold loadSavedVideosLoop
    cases hp : startsWith key "notes_".data with
    | false =>
      simp only [Bool.not_false, if_true]
      apply ih videos t oks hscript hoks
      simpa [List.filter_cons, evicted, hp] using hlen
    | true =>
      cases hx : expired ct rp value with
      | false =>
        simp only [Bool.not_true, Bool.false_eq_true, if_false]
        apply ih _ t oks hscript hoks
        simpa [List.filter_cons, evicted, hp, hx] using hlen
      | true =>
        simp only [Bool.not_true, Bool.false_eq_true, if_false, if_true]
        cases oks with
        | nil =>
          have h := (storageRemove_script [key] t o rest (by simpa using hscript)).2 msg ho
          generalize storageRemove [key] t = r at h
          obtain ⟨res, t1⟩ := r
          simp only at h
          subst h
          exact ⟨_, _, rfl⟩
        | cons x oks1 =>
          have hxok : x.error = none := hoks x (by simp)
          obtain ⟨h1, h2⟩ := (storageRemove_script [key] t x (oks1 ++ o :: rest)
            (by simpa using hscript)).1 hxok
          generalize storageRemove [key] t = r at h1 h2
          obtain ⟨res, t1⟩ := r
          simp only at h1 h2
          subst h1
          simp only
          apply ih videos t1 oks1 h2 (fun y hy => hoks y (List.mem_cons_of_mem _ hy))
          have : oks1.length + 1 < (restE.filter (evicted ct rp)).length + 1 := by
            simpa [List.filter_cons, evicted, hp, hx] using hlen
          omega

/-- C18, as stated, fails: on a page with an expired record and a record within
the retention window, the `remove` issued for the expired record rejects and
`loadSavedVideos` rejects too; it returns no summary of the retained record. -/
theorem C18_counterexample :
    retained (listingTime faultyListingPage) (some (30 * 24 * 60 * 60 * 1000))
      ("notes_new".data, exampleRecord 2494400000) = true ∧
    (loadSavedVideos faultyListingPage).2.calls =
      [.get "test".data, .get "retentionDays".data, .getAll, .remove ["notes_old".data]] ∧
    (loadSavedVideos faultyListingPage).1 =
      .throw (.error "Failed to load saved videos".data) := by
  decide

/-- C18, amended: if a storage `remove` issued for an expired record rejects
during `loadSavedVideos`, the listing is aborted: `loadSavedVideos` rejects
with the error `Failed to load saved videos` and returns no summaries.  Here
the script of the state in which the loop begins says that `remove` number
`oks.length + 1` rejects, and the store has at least that many expired records. -/
theorem C18_aborted_listing (s : St) (v : Val) (oks : List Outcome) (o : Outcome)
    (rest : List Outcome) (msg : Str)
    (hv : (getRetentionDays (ensureInitialized s)).1 = .ok v)
    (hscript : (listingState s).script = oks ++ o :: rest)
    (hoks : ∀ x ∈ oks, x.error = none) (ho : o.error = some msg)
    (hlen : oks.length <
      (s.store.filter (evicted (listingTime s) (retentionPeriodOf v))).length) :
    (loadSavedVideos s).1 = .throw (.error "Failed to load saved videos".data) := by
  obtain ⟨-, -, -, hst0, -, -, -⟩ := ensureInitialized_frame s
  obtain ⟨-, hst1, -, -⟩ := getRetentionDays_frame (ensureInitialized s)
  unfold loadSavedVideos
  simp only
  unfold listingState at hscript
  unfold listingTime retentionPeriodOf at hlen
  generalize getRetentionDays (ensureInitialized s) = r1 at hv hst1 hscript hlen
  obtain ⟨res1, t1⟩ := r1
  simp only at hv hst1 hscript hlen
  subst hv
  simp only
  obtain ⟨-, hall, -⟩ := storageGetAll_frame t1
  have hsettle := (storageGetAll_cases t1).1
  generalize storageGetAll t1 = r2 at hall hscript hsettle
  obtain ⟨res2, t2⟩ := r2
  simp only at hall hscript hsettle
  cases res2 with
  | throw e => rfl
  | pending =>
    -- `get(null)` settles in every run
    rcases hsettle with ⟨h, -⟩ | ⟨⟨e, h⟩, -⟩ <;> simp at h
  | ok allData =>
    have hAll : allData = s.store := by rw [hall allData rfl, hst1, hst0]
    subst hAll
    simp only
    obtain ⟨e, t3, hl⟩ := loadSavedVideosLoop_abort t1.clock
      ((v.toNumber).map (fun d => d * 24 * 60 * 60 * 1000)) o rest msg ho s.store [] t2 oks
      hscript hoks hlen
    rw [hl]

/-- Witness of `C18_aborted_listing`: the first `remove` of the listing rejects. -/
theorem C18_aborted_listing_witness :
    (loadSavedVideos faultyListingPage).1 =
      .throw (.error "Failed to load saved videos".data) :=
  C18_aborted_listing faultyListingPage (.num 30) [] ⟨0, some "network down".data⟩ []
    "network down".data (by decide) (by decide) (by intro x hx; cases hx) rfl (by decide)

/-! ## Preset fallback and seeding -/

/-- What `loadPresetTemplates` returns when the lock is free: with a read that
resolves, the stored value when truthy and else the default; with a read that
rejects, the default. -/
theorem loadPresetTemplates_cases (n : Nat) (s : St) (hl : s.presetLock = false) :
    (nextError (ensureInitialized s) = none →
      (loadPresetTemplates n s).1 =
        .ok (if truthy (mapGet s.store (presetKey n)) then mapGet s.store (presetKey n)
             else (defaultPresets n).map Val.strings)) ∧
    (∀ msg, nextError (ensureInitialized s) = some msg →
      (loadPresetTemplates n s).1 = .ok ((defaultPresets n).map Val.strings)) := by
  obtain ⟨-, -, -, hst0, hl0, -, -⟩ := ensureInitialized_frame s
  unfold loadPresetTemplates
  simp only
  generalize ensureInitialized s = s0 at hst0 hl0
  rw [hl] at hl0
  simp only [acquirePresetLock, hl0, Bool.false_eq_true, if_false, storageGet]
  have h1 := issue_fst (.get (presetKey n)) { s0 with presetLock := true }
  have h2 := issue_store (.get (presetKey n)) { s0 with presetLock := true }
  have hn : nextError { s0 with presetLock := true } = nextError s0 := rfl
  rw [hn] at h1
  generalize issue (.get (presetKey n)) { s0 with presetLock := true } = r at h1 h2
  obtain ⟨e, s2⟩ := r
  simp only at h1 h2
  constructor
  · intro hnone
    rw [hnone] at h1
    subst h1
    simp [h2, hst0]
  · intro msg hsome
    rw [hsome] at h1
    subst h1
    rfl

/-- In no run does `loadPresetTemplates` throw. -/
theorem loadPresetTemplates_no_throw (n : Nat) (s : St) (e : JsError) :
    (loadPresetTemplates n s).1 ≠ .throw e := by
  unfold loadPresetTemplates
  simp only
  cases acquirePresetLock (ensureInitialized s) with
  | none => simp
  | some s1 =>
    simp only
    generalize storageGet (presetKey n) s1 = r
    obtain ⟨res, s2⟩ := r
    cases res <;> simp

/-- C19: preset load fallback, for `n` in `{1, 2, 3}`.  `loadPresetTemplates(n)`
never throws.  With the lock free it returns the built-in default list of `n`
when nothing is stored under `preset_templates_n`, and also when the storage
read rejects, and it returns the stored list when one is stored and the read
resolves. -/
theorem C19_preset_fallback (n : Nat) (s : St) (hn : n = 1 ∨ n = 2 ∨ n = 3) :
    (∀ e, (loadPresetTemplates n s).1 ≠ .throw e) ∧
    (s.presetLock = false →
      ∃ l, defaultPresets n = some l ∧
        (mapGet s.store (presetKey n) = none →
          (loadPresetTemplates n s).1 = .ok (some (.strings l))) ∧
        (∀ msg, nextError (ensureInitialized s) = some msg →
          (loadPresetTemplates n s).1 = .ok (some (.strings l))) ∧
        (∀ T, mapGet s.store (presetKey n) = some (.strings T) →
          nextError (ensureInitialized s) = none →
          (loadPresetTemplates n s).1 = .ok (some (.strings T)))) := by
  refine ⟨loadPresetTemplates_no_throw n s, ?_⟩
  intro hl
  have hdef : ∃ l, defaultPresets n = some l := by
    rcases hn with rfl | rfl | rfl <;> exact ⟨_, rfl⟩
  obtain ⟨l, hdl⟩ := hdef
  obtain ⟨hok, hfail⟩ := loadPresetTemplates_cases n s hl
  refine ⟨l, hdl, ?_, ?_, ?_⟩
  · intro hnone
    cases hne : nextError (ensureInitialized s) with
    | none =>
      rw [hok hne, hnone, hdl]
      simp [truthy]
    | some msg =>
      rw [hfail msg hne, hdl]
      rfl
  · intro msg hne
    rw [hfail msg hne, hdl]
    rfl
  · intro T hT hne
    rw [hok hne, hT]
    simp [truthy, Val.truthy]

/-- Witness of `C19_preset_fallback`: on the first use, with an empty store,
preset 2 loads as its built-in default list. -/
theorem C19_preset_fallback_witness :
    (loadPresetTemplates 2 firstUsePage).1 = .ok ((defaultPresets 2).map Val.strings) := by
  obtain ⟨l, h1, h2, -⟩ := (C19_preset_fallback 2 firstUsePage (by decide)).2 (by decide)
  rw [h1]
  exact h2 (by decide)

/-- Initialization writes nothing: the store is the same before and after. -/
theorem initializeStorage_store (s : St) : (initializeStorage s).2.store = s.store := by
  by_cases hi : s.initialized = true
  · simp [initializeStorage, hi]
  · have h := (ensureInitialized_frame s).2.2.2.1
    simpa [ensureInitialized, hi] using h

/-- C20 at the failing input: on the first use over an empty store, each of the
four public preset operations runs the initialization, which only issues
`get('test')`; afterwards none of the keys `preset_templates_1`,
`preset_templates_2`, `preset_templates_3` is in the store, except the one that
`savePresetTemplates` wrote itself. -/
theorem C20_no_seeding :
    (getCurrentPreset firstUsePage).2.initialized = true ∧
    (getCurrentPreset firstUsePage).2.calls =
      [.get "test".data, .get "current_preset".data] ∧
    (getCurrentPreset firstUsePage).2.store = [] ∧
    (loadPresetTemplates 1 firstUsePage).2.store = [] ∧
    (savePresetNumber 2 firstUsePage).2.store = [("current_preset".data, .num 2)] ∧
    (savePresetTemplates 2 (some [['A']]) firstUsePage).2.store =
      [(presetKey 2, .strings [['A']])] ∧
    mapGet (savePresetTemplates 2 (some [['A']]) firstUsePage).2.store (presetKey 1) = none ∧
    mapGet (savePresetTemplates 2 (some [['A']]) firstUsePage).2.store (presetKey 3) = none := by
  decide

/-! ## Failure of a preset write, and the release of the lock -/

/-- C21, as stated, fails: when the write of `savePresetTemplates` rejects with
the error `network down`, the call rejects with that same plain `Error`; its
name is `Error`, not `StorageError`. -/
theorem C21_counterexample :
    nextError (ensureInitialized failingWritePage) = some "network down".data ∧
    (savePresetTemplates 2 (some [['A']]) failingWritePage).1
      = .throw (.error "network down".data) ∧
    JsError.name (.error "network down".data) ≠ "StorageError".data := by
  decide

/-- C21, amended: for every preset number and template list, when the lock is
free and the underlying storage write rejects, `savePresetTemplates` does not
return normally but rejects, and the error it rejects with is the error of the
storage call, rethrown as it was caught; the store is unchanged and the lock
is released. -/
theorem C21_save_failure (n : Nat) (T : Option (List Str)) (s : St) (msg : Str)
    (hl : s.presetLock = false)
    (hfail : nextError (ensureInitialized s) = some msg) :
    (savePresetTemplates n T s).1 = .throw (.error msg) ∧
    (savePresetTemplates n T s).2.store = s.store ∧
    (savePresetTemplates n T s).2.presetLock = false := by
  obtain ⟨-, -, -, hst0, hl0, -, -⟩ := ensureInitialized_frame s
  unfold savePresetTemplates
  simp only
  generalize ensureInitialized s = s0 at hst0 hl0 hfail
  rw [hl] at hl0
  simp only [acquirePresetLock, hl0, Bool.false_eq_true, if_false, storageSet]
  have h1 := issue_fst (.set (presetKey n) (T.map Val.strings)) { s0 with presetLock := true }
  have h2 := issue_store (.set (presetKey n) (T.map Val.strings))
    { s0 with presetLock := true }
  have hn : nextError { s0 with presetLock := true } = nextError s0 := rfl
  rw [hn, hfail] at h1
  generalize issue (.set (presetKey n) (T.map Val.strings)) { s0 with presetLock := true } = r
    at h1 h2
  obtain ⟨e, s2⟩ := r
  simp only at h1 h2
  subst h1
  exact ⟨rfl, by simpa [releasePresetLock, hst0] using h2, rfl⟩

/-- Witness of `C21_save_failure`: the write of preset 2 rejects. -/
theorem C21_save_failure_witness :
    (savePresetTemplates 2 (some [['A']]) failingWritePage).1
      = .throw (.error "network down".data) :=
  (C21_save_failure 2 (some [['A']]) failingWritePage "network down".data
    (by decide) (by decide)).1

/-- C26: lock release.  Whenever a `savePresetTemplates` or a
`loadPresetTemplates` call completes, by returning or by throwing,
`presetLock` is `false` afterwards; and with the lock free at the start, the
call does complete, whether its storage call resolves or rejects. -/
theorem C26_lock_release (n : Nat) (T : Option (List Str)) (s : St) :
    ((savePresetTemplates n T s).1 ≠ .pending →
      (savePresetTemplates n T s).2.presetLock = false) ∧
    ((loadPresetTemplates n s).1 ≠ .pending →
      (loadPresetTemplates n s).2.presetLock = false) ∧
    (s.presetLock = false →
      (savePresetTemplates n T s).1 ≠ .pending ∧ (loadPresetTemplates n s).1 ≠ .pending) := by
  obtain ⟨-, -, -, -, hl0, -, -⟩ := ensureInitialized_frame s
  have hsave : ∀ s1 : St,
      (match storageSet (presetKey n) (T.map Val.strings) s1 with
        | (.ok _, s2) => ((.ok true : Res Bool), releasePresetLock s2)
        | (.throw e, s2) => (.throw e, releasePresetLock s2)
        | (.pending, s2) => (.pending, s2)).1 ≠ .pending ∧
      (match storageSet (presetKey n) (T.map Val.strings) s1 with
        | (.ok _, s2) => ((.ok true : Res Bool), releasePresetLock s2)
        | (.throw e, s2) => (.throw e, releasePresetLock s2)
        | (.pending, s2) => (.pending, s2)).2.presetLock = false := by
    intro s1
    unfold storageSet
    generalize issue (.set (presetKey n) (T.map Val.strings)) s1 = r
    obtain ⟨e, s2⟩ := r
    cases e with
    | some msg => exact ⟨by simp, rfl⟩
    | none => cases T.map Val.strings <;> exact ⟨by simp, rfl⟩
  have hload : ∀ s1 : St,
      (match storageGet (presetKey n) s1 with
        | (.ok result, s2) =>
          ((.ok (if truthy result then result else (defaultPresets n).map Val.strings) :
              Res (Option Val)), releasePresetLock s2)
        | (.throw _, s2) => (.ok ((defaultPresets n).map Val.strings), releasePresetLock s2)
        | (.pending, s2) => (.pending, s2)).1 ≠ .pending ∧
      (match storageGet (presetKey n) s1 with
        | (.ok result, s2) =>
          ((.ok (if truthy result then result else (defaultPresets n).map Val.strings) :
              Res (Option Val)), releasePresetLock s2)
        | (.throw _, s2) => (.ok ((defaultPresets n).map Val.strings), releasePresetLock s2)
        | (.pending, s2) => (.pending, s2)).2.presetLock = false := by
    intro s1
    unfold storageGet
    generalize issue (.get (presetKey n)) s1 = r
    obtain ⟨e, s2⟩ := r
    cases e with
    | some msg => exact ⟨by simp, rfl⟩
    | none => exact ⟨by simp, rfl⟩
  unfold savePresetTemplates loadPresetTemplates
  simp only
  cases hlk : (ensureInitialized s).presetLock with
  | true =>
    simp only [acquirePresetLock, hlk, if_true]
    refine ⟨fun h => absurd rfl h, fun h => absurd rfl h, ?_⟩
    intro hfree
    rw [hl0, hfree] at hlk
    simp at hlk
  | false =>
    simp only [acquirePresetLock, hlk, Bool.false_eq_true, if_false]
    exact ⟨fun _ => (hsave _).2, fun _ => (hload _).2, fun _ => ⟨(hsave _).1, (hload _).1⟩⟩

/-- Witness of `C26_lock_release`: a save whose write rejects leaves the lock
free. -/
theorem C26_lock_release_witness :
    (savePresetTemplates 2 (some [['A']]) failingWritePage).2.presetLock = false :=
  (C26_lock_release 2 (some [['A']]) failingWritePage).1 (by decide)

/-! ## The current preset and opening a video -/

theorem savePresetNumber_store (number : Int) (s : St) :
    (savePresetNumber number s).2.store = s.store ∨
    (savePresetNumber number s).2.store
      = mapSet s.store "current_preset".data (.num number) := by
  obtain ⟨-, -, -, hst0, -, -, -⟩ := ensureInitialized_frame s
  obtain ⟨hc, -, -, -⟩ := storageSet_cases "current_preset".data (.num number)
    (ensureInitialized s)
  unfold savePresetNumber
  simp only
  generalize storageSet "current_preset".data (some (.num number)) (ensureInitialized s) = r
    at hc
  obtain ⟨res, s1⟩ := r
  simp only at hc
  rcases hc with ⟨h1, h2⟩ | ⟨⟨e, h1⟩, h2⟩
  · subst h1
    exact Or.inr (by rw [← hst0]; exact h2)
  · subst h1
    exact Or.inl (by rw [← hst0]; exact h2)

theorem getCurrentPreset_cases (s : St) :
    (nextError (ensureInitialized s) = none →
      (getCurrentPreset s).1 = .ok (match mapGet s.store "current_preset".data with
                                    | some v => if v.truthy then v else .num 1
                                    | none => .num 1)) ∧
    (∀ msg, nextError (ensureInitialized s) = some msg →
      (getCurrentPreset s).1 = .ok (.num 1)) := by
  obtain ⟨-, -, -, hst0, -, -, -⟩ := ensureInitialized_frame s
  unfold getCurrentPreset storageGet
  simp only
  have h1 := issue_fst (.get "current_preset".data) (ensureInitialized s)
  have h2 := issue_store (.get "current_preset".data) (ensureInitialized s)
  generalize issue (.get "current_preset".data) (ensureInitialized s) = r at h1 h2
  obtain ⟨e, s1⟩ := r
  simp only at h1 h2
  constructor
  · intro hn
    rw [hn] at h1
    subst h1
    simp [h2, hst0]
  · intro msg hn
    rw [hn] at h1
    subst h1
    rfl

theorem savePresetNumbers_inRange (numbers : List Int) :
    ∀ s : St, (∀ n ∈ numbers, n = 1 ∨ n = 2 ∨ n = 3) → presetInRange s →
      presetInRange (savePresetNumbers numbers s) := by
  induction numbers with
  | nil => intro s _ h; exact h
  | cons k rest ih =>
    intro s hargs hin
    apply ih _ (fun n hn => hargs n (List.mem_cons_of_mem _ hn))
    rcases savePresetNumber_store k s with h | h
    · unfold presetInRange; rw [h]; exact hin
    · unfold presetInRange; rw [h]
      exact Or.inr ⟨k, hargs k (by simp), mapGet_mapSet_self _ _ _⟩

/-- C24, as stated, fails: `savePresetNumber(7)` stores `7` under
`current_preset`, and `getCurrentPreset()` then returns `7`. -/
theorem C24_counterexample :
    (savePresetNumber 7 firstUsePage).1 = .ok true ∧
    mapGet (savePresetNumber 7 firstUsePage).2.store "current_preset".data = some (.num 7) ∧
    (getCurrentPreset (savePresetNumber 7 firstUsePage).2).1 = .ok (.num 7) := by
  decide

/-- C24, amended: `savePresetNumber` stores its argument as it is, so the
range is kept by the callers.  Starting with `current_preset` absent or in
`{1, 2, 3}`, after any series of `savePresetNumber` calls whose arguments lie
in `{1, 2, 3}` (each write resolving or rejecting) the stored value is absent
or in `{1, 2, 3}` and `getCurrentPreset()` returns a number in `{1, 2, 3}`;
and in any state `getCurrentPreset()` returns `1` when nothing is stored or
the read rejects. -/
theorem C24_preset_range (numbers : List Int) (s : St)
    (hargs : ∀ n ∈ numbers, n = 1 ∨ n = 2 ∨ n = 3) (hinit : presetInRange s) :
    presetInRange (savePresetNumbers numbers s) ∧
    (∃ k : Int, (k = 1 ∨ k = 2 ∨ k = 3) ∧
      (getCurrentPreset (savePresetNumbers numbers s)).1 = .ok (.num k)) ∧
    (∀ t : St, mapGet t.store "current_preset".data = none →
      (getCurrentPreset t).1 = .ok (.num 1)) ∧
    (∀ (t : St) (msg : Str), nextError (ensureInitialized t) = some msg →
      (getCurrentPreset t).1 = .ok (.num 1)) := by
  have hin := savePresetNumbers_inRange numbers s hargs hinit
  have hnone : ∀ t : St, mapGet t.store "current_preset".data = none →
      (getCurrentPreset t).1 = .ok (.num 1) := by
    intro t ht
    cases hne : nextError (ensureInitialized t) with
    | none => rw [(getCurrentPreset_cases t).1 hne, ht]
    | some msg => exact (getCurrentPreset_cases t).2 msg hne
  refine ⟨hin, ?_, hnone, fun t msg h => (getCurrentPreset_cases t).2 msg h⟩
  generalize savePresetNumbers numbers s = t at hin
  rcases hin with h | ⟨k, hk, h⟩
  · exact ⟨1, Or.inl rfl, hnone t h⟩
  · cases hne : nextError (ensureInitialized t) with
    | none =>
      refine ⟨k, hk, ?_⟩
      rw [(getCurrentPreset_cases t).1 hne, h]
      have : k ≠ 0 := by omega
      simp [Val.truthy, this]
    | some msg => exact ⟨1, Or.inl rfl, (getCurrentPreset_cases t).2 msg hne⟩

/-- Witness of `C24_preset_range`: presets 2 and then 3 are chosen on the first
use. -/
theorem C24_preset_range_witness :
    presetInRange (savePresetNumbers [2, 3] firstUsePage) :=
  (C24_preset_range [2, 3] firstUsePage (by decide) (Or.inl (by decide))).1

/-- C25 at the failing input: when `chrome.runtime.sendMessage` rejects,
`handleVideoOpen("abc")` opens nothing and rejects with the `ReferenceError`
of the `catch` block; when the message is sent it opens the watch URL and
returns `true`. -/
theorem C25_handleVideoOpen_failing_input :
    handleVideoOpen "abc".data (some "Extension context invalidated.".data)
      = (.throw (.error "url is not defined".data), []) ∧
    handleVideoOpen "abc".data none
      = (.ok true, ["https://www.youtube.com/watch?v=abc".data]) := by
  decide

/-! ## Flushes: retry, fingerprint and single flight -/

/-- The promise of `saveNotes` settles in every run: it resolves to `true` or
it rejects. -/
theorem saveNotes_settles (notes : List Note) (s : St) :
    (saveNotes notes s).1 = .ok true ∨ ∃ e, (saveNotes notes s).1 = .throw e := by
  unfold saveNotes
  simp only
  cases getCurrentVideoId (ensureInitialized s) with
  | none => exact Or.inr ⟨_, rfl⟩
  | some videoId =>
    simp only
    by_cases hno : noVideoId (some videoId) = true
    · simp only [hno, if_true]
      exact Or.inr ⟨_, rfl⟩
    · simp only [hno, Bool.false_eq_true, if_false, storageSet]
      generalize hc : StorageCall.set (notesKey videoId) _ = c
      generalize issue c (ensureInitialized s) = r
      obtain ⟨o, s2⟩ := r
      cases o with
      | none => exact Or.inl rfl
      | some msg => exact Or.inr ⟨_, rfl⟩

/-- The serialization of a note list is never the empty string. -/
theorem jsonStringify_ne_nil (notes : List Note) : jsonStringify notes ≠ [] := by
  simp [jsonStringify]

/-- C22: retry after a failed auto-save.  After an `executeAutoSave` whose
`saveNotes` call fails, `lastSavedContent` is the empty string and `isSaving`
is `false`; the empty string is the serialization of no note list; so the next
`executeAutoSave` with that `lastSavedContent` and `isSaving` false calls
`saveNotes` with the note list as it then is, whatever it is. -/
theorem C22_retry_after_failure (p : Page) (e : JsError)
    (hs : p.isSaving = false) (hne : jsonStringify p.notes ≠ p.lastSavedContent)
    (hfail : (saveNotes p.notes p.st).1 = .throw e) :
    (executeAutoSave p).lastSavedContent = [] ∧
    (executeAutoSave p).isSaving = false ∧
    (∀ l, jsonStringify l ≠ (executeAutoSave p).lastSavedContent) ∧
    (∀ q : Page, q.lastSavedContent = (executeAutoSave p).lastSavedContent →
      q.isSaving = false → (executeAutoSave q).saved = q.saved ++ [q.notes]) := by
  have hlast : (executeAutoSave p).lastSavedContent = [] := by
    unfold executeAutoSave
    simp only [hs, Bool.false_eq_true, if_false, hne]
    generalize saveNotes p.notes p.st = r at hfail
    obtain ⟨res, st1⟩ := r
    simp only at hfail
    subst hfail
    rfl
  have hsav : (executeAutoSave p).isSaving = false := by
    unfold executeAutoSave
    simp only [hs, Bool.false_eq_true, if_false, hne]
    generalize saveNotes p.notes p.st = r at hfail
    obtain ⟨res, st1⟩ := r
    simp only at hfail
    subst hfail
    rfl
  refine ⟨hlast, hsav, ?_, ?_⟩
  · intro l
    rw [hlast]
    exact jsonStringify_ne_nil l
  · intro q hq hqs
    rw [executeAutoSave_saved, hqs, hq, hlast]
    simp [jsonStringify_ne_nil]

/-- Witness of `C22_retry_after_failure`: a flush whose write rejects for a
quota reason. -/
theorem C22_retry_after_failure_witness :
    (executeAutoSave failingSavePage).lastSavedContent = [] ∧
    (executeAutoSave failingSavePage).isSaving = false :=
  ⟨(C22_retry_after_failure failingSavePage
      (.noteError "Failed to save notes".data "storage".data)
      (by decide) (by decide) (by decide)).1,
   (C22_retry_after_failure failingSavePage
      (.noteError "Failed to save notes".data "storage".data)
      (by decide) (by decide) (by decide)).2.1⟩

/-- C27: fingerprint short-circuit.  With `isSaving` false, `executeAutoSave`
calls `saveNotes` exactly when `JSON.stringify(notes)` differs from
`lastSavedContent`.  When they are equal it makes no storage call and leaves
`lastSavedContent` as it is; when they differ and the save succeeds,
`lastSavedContent` becomes the serialization computed at the start of the
flush. -/
theorem C27_fingerprint (p : Page) (hs : p.isSaving = false) :
    ((executeAutoSave p).saved = p.saved ++ [p.notes] ↔
      jsonStringify p.notes ≠ p.lastSavedContent) ∧
    (jsonStringify p.notes = p.lastSavedContent →
      (executeAutoSave p).saved = p.saved ∧
      (executeAutoSave p).st = p.st ∧
      (executeAutoSave p).lastSavedContent = p.lastSavedContent) ∧
    (jsonStringify p.notes ≠ p.lastSavedContent →
      (executeAutoSave p).st = (saveNotes p.notes p.st).2 ∧
      ((saveNotes p.notes p.st).1 = .ok true →
        (executeAutoSave p).lastSavedContent = jsonStringify p.notes)) := by
  refine ⟨?_, ?_, ?_⟩
  · rw [executeAutoSave_saved, hs]
    by_cases hc : jsonStringify p.notes = p.lastSavedContent <;> simp [hc]
  · intro hc
    refine ⟨by rw [executeAutoSave_saved, hs]; simp [hc], ?_, ?_⟩ <;>
      simp [executeAutoSave, hs, hc]
  · intro hc
    unfold executeAutoSave
    simp only [hs, Bool.false_eq_true, if_false, hc]
    generalize saveNotes p.notes p.st = r
    obtain ⟨res, st1⟩ := r
    cases res with
    | ok b => exact ⟨rfl, fun _ => rfl⟩
    | throw e => exact ⟨rfl, fun h => by simp at h⟩
    | pending => exact ⟨rfl, fun h => by simp at h⟩

/-- Witness of `C27_fingerprint`: on a page whose list has just been saved the
flush makes no storage call. -/
theorem C27_fingerprint_witness :
    (executeAutoSave savedPage).saved = savedPage.saved ∧
    (executeAutoSave savedPage).st = savedPage.st ∧
    (executeAutoSave savedPage).lastSavedContent = savedPage.lastSavedContent :=
  (C27_fingerprint savedPage (by decide)).2.1 (by decide)

theorem flushStep_inv (e : FlushEvent) (y : FlushSys)
    (h : y.awaiting.length = if y.isSaving then 1 else 0) :
    (flushStep e y).awaiting.length = if (flushStep e y).isSaving then 1 else 0 := by
  cases e with
  | edit notes => exact h
  | enter =>
    unfold flushStep
    cases hs : y.isSaving with
    | true => simpa [hs] using h
    | false =>
      rw [hs] at h
      simp only [Bool.false_eq_true, if_false] at h ⊢
      by_cases hc : jsonStringify y.notes = y.lastSavedContent
      · simp [hs, hc, h]
      · simp [hs, hc, h]
  | settle ok =>
    unfold flushStep
    cases ha : y.awaiting with
    | nil => simpa [ha] using h
    | cons c rest =>
      cases hs : y.isSaving with
      | true =>
        rw [ha, hs] at h
        simp only [List.length_cons, if_true] at h
        have : rest.length = 0 := by omega
        simp [ha, this]
      | false =>
        rw [ha, hs] at h
        simp at h

theorem flushRun_inv (events : List FlushEvent) :
    ∀ y : FlushSys, (y.awaiting.length = if y.isSaving then 1 else 0) →
      (flushRun events y).awaiting.length = if (flushRun events y).isSaving then 1 else 0 := by
  induction events with
  | nil => intro y h; exact h
  | cons e rest ih => intro y h; exact ih _ (flushStep_inv e y h)

/-- C28: single-flight flush.  An `executeAutoSave` invoked while `isSaving`
is `true` returns without calling `saveNotes`, without a storage call and
without changing `lastSavedContent` or `isSaving`; one that starts with
`isSaving` false ends with `isSaving` false, on the skip, the success and the
failure path.  And when flushes, edits and the settling of `saveNotes` calls
follow one another in any order, at most one flush is waiting for its
`saveNotes` call at any time, and `isSaving` is `true` exactly then. -/
theorem C28_single_flight (p : Page) (events : List FlushEvent) :
    (p.isSaving = true →
      (executeAutoSave p).saved = p.saved ∧
      (executeAutoSave p).st = p.st ∧
      (executeAutoSave p).lastSavedContent = p.lastSavedContent ∧
      (executeAutoSave p).isSaving = true) ∧
    (p.isSaving = false → (executeAutoSave p).isSaving = false) ∧
    (flushRun events FlushSys.start).awaiting.length ≤ 1 ∧
    ((flushRun events FlushSys.start).isSaving = true ↔
      (flushRun events FlushSys.start).awaiting.length = 1) := by
  refine ⟨?_, ?_, ?_, ?_⟩
  · intro hs
    simp [executeAutoSave, hs]
  · intro hs
    unfold executeAutoSave
    simp only [hs, Bool.false_eq_true, if_false]
    split
    · rfl
    · rcases saveNotes_settles p.notes p.st with h | ⟨e, h⟩
      · generalize saveNotes p.notes p.st = r at h
        obtain ⟨res, st1⟩ := r
        simp only at h
        subst h
        rfl
      · generalize saveNotes p.notes p.st = r at h
        obtain ⟨res, st1⟩ := r
        simp only at h
        subst h
        rfl
  · have h := flushRun_inv events FlushSys.start rfl
    rw [h]
    split <;> simp
  · have h := flushRun_inv events FlushSys.start rfl
    rw [h]
    cases (flushRun events FlushSys.start).isSaving <;> simp

/-- Witness of `C28_single_flight`: a flush entered while another one is in
flight changes nothing. -/
theorem C28_single_flight_witness :
    (executeAutoSave { failingSavePage with isSaving := true }).saved = [] ∧
    (executeAutoSave { failingSavePage with isSaving := true }).isSaving = true :=
  ⟨((C28_single_flight { failingSavePage with isSaving := true } []).1 rfl).1,
   ((C28_single_flight { failingSavePage with isSaving := true } []).1 rfl).2.2.2⟩

/-- A write that rejects on a page that shows a video makes `saveNotes` throw. -/
theorem saveNotes_throws_of_write_failure (notes : List Note) (s : St) (videoId msg : Str)
    (hid : getCurrentVideoId s = some videoId) (hne : videoId ≠ [])
    (hfail : nextError (ensureInitialized s) = some msg) :
    ∃ e, (saveNotes notes s).1 = .throw e := by
  obtain ⟨-, hp0, hv0, -, -, -, -⟩ := ensureInitialized_frame s
  have hid0 : getCurrentVideoId (ensureInitialized s) = some videoId := by
    rw [← hid]; exact getCurrentVideoId_congr _ _ hp0 hv0
  have hno : noVideoId (some videoId) = false := by simp [noVideoId, hne]
  unfold saveNotes
  simp only [hid0, hno, Bool.false_eq_true, if_false, storageSet]
  generalize hc : StorageCall.set (notesKey videoId) _ = c
  have h1 := issue_fst c (ensureInitialized s)
  rw [hfail] at h1
  generalize issue c (ensureInitialized s) = r at h1
  obtain ⟨e, s2⟩ := r
  simp only at h1
  subst h1
  exact ⟨_, rfl⟩

/-- C29: persistence before cache.  Whenever `saveNotes` throws, and so when
its storage write rejects, the cache and the store are exactly as before the
call; and a write that rejects on a page that shows a video does make it
throw. -/
theorem C29_cache_after_write (notes : List Note) (s : St) :
    (∀ e, (saveNotes notes s).1 = .throw e →
      (saveNotes notes s).2.cache = s.cache ∧ (saveNotes notes s).2.store = s.store) ∧
    (∀ videoId msg, getCurrentVideoId s = some videoId → videoId ≠ [] →
      nextError (ensureInitialized s) = some msg →
      (∃ e, (saveNotes notes s).1 = .throw e) ∧
      mapGet (saveNotes notes s).2.cache.cache videoId = mapGet s.cache.cache videoId) := by
  obtain ⟨hc0, hp0, hv0, hst0, -, -, -⟩ := ensureInitialized_frame s
  have hthrow : ∀ e, (saveNotes notes s).1 = .throw e →
      (saveNotes notes s).2.cache = s.cache ∧ (saveNotes notes s).2.store = s.store := by
    intro e he
    unfold saveNotes at he ⊢
    simp only at he ⊢
    cases hid : getCurrentVideoId (ensureInitialized s) with
    | none => exact ⟨hc0, hst0⟩
    | some videoId =>
      simp only [hid] at he ⊢
      by_cases hno : noVideoId (some videoId) = true
      · simp only [hno, if_true]
        exact ⟨hc0, hst0⟩
      · simp only [hno, Bool.false_eq_true, if_false, storageSet] at he ⊢
        generalize hc : StorageCall.set (notesKey videoId) _ = c at he ⊢
        have h1 := issue_cache c (ensureInitialized s)
        have h2 := issue_store c (ensureInitialized s)
        generalize issue c (ensureInitialized s) = r at he h1 h2 ⊢
        obtain ⟨o, s2⟩ := r
        cases o with
        | none => simp at he
        | some msg => exact ⟨h1.trans hc0, h2.trans hst0⟩
  refine ⟨hthrow, ?_⟩
  intro videoId msg hid hne hfail
  obtain ⟨e, h⟩ := saveNotes_throws_of_write_failure notes s videoId msg hid hne hfail
  exact ⟨⟨e, h⟩, by rw [(hthrow e h).1]⟩

/-- Witness of `C29_cache_after_write`: a write that rejects on the watch page
of `abc`, with nothing cached before. -/
theorem C29_cache_after_write_witness :
    (saveNotes [exampleNote] quotaPage).2.cache = quotaPage.cache ∧
    (saveNotes [exampleNote] quotaPage).2.store = quotaPage.store :=
  (C29_cache_after_write [exampleNote] quotaPage).1
    (.noteError "Failed to save notes".data "storage".data) (by decide)

/-! ## Time stamps -/

theorem numToStr_eq (n : Nat) : numToStr n = Nat.toDigits 10 n := rfl

theorem digitValue_digitChar : ∀ k, k < 10 → digitValue (Nat.digitChar k) = some k := by
  decide

theorem digitValue_colon : digitValue ':' = none := by decide

theorem digitValue_zero : digitValue '0' = some 0 := by decide

/-- Reading the digits that `toDigitsCore` puts in front of `ds`. -/
theorem parseDigits_toDigitsCore (fuel : Nat) :
    ∀ (n : Nat) (ds : List Char), n < fuel →
      parseDigits 0 (Nat.toDigitsCore 10 fuel n ds) = parseDigits n ds := by
  induction fuel with
  | zero => intro n ds h; omega
  | succ fuel ih =>
    intro n ds h
    have hd : digitValue (Nat.digitChar (n % 10)) = some (n % 10) :=
      digitValue_digitChar (n % 10) (Nat.mod_lt n (by decide))
    simp only [Nat.toDigitsCore]
    by_cases h0 : n / 10 = 0
    · simp only [h0, if_true, parseDigits, hd]
      have : 0 * 10 + n % 10 = n := by omega
      rw [this]
    · simp only [h0, if_false]
      rw [ih (n / 10) _ (by omega)]
      simp only [parseDigits, hd]
      have : n / 10 * 10 + n % 10 = n := by omega
      rw [this]

/-- `Number(String(n)) = n`. -/
theorem jsNumber_numToStr (n : Nat) : jsNumber (numToStr n) = some n := by
  rw [numToStr_eq]
  unfold jsNumber Nat.toDigits
  rw [parseDigits_toDigitsCore (n + 1) n [] (by omega)]
  rfl

theorem parseDigits_zeros (k : Nat) (str : Str) :
    parseDigits 0 (List.replicate k '0' ++ str) = parseDigits 0 str := by
  induction k with
  | zero => rfl
  | succ k ih =>
    simp only [List.replicate_succ, List.cons_append, parseDigits, digitValue_zero]
    exact ih

/-- Zero padding does not change the number read. -/
theorem jsNumber_padStart2 (n : Nat) : jsNumber (padStart2 (numToStr n)) = some n := by
  unfold jsNumber padStart2
  rw [parseDigits_zeros]
  exact jsNumber_numToStr n

/-- A string that reads as a number holds no colon. -/
theorem no_colon_of_parse (str : Str) :
    ∀ acc v, parseDigits acc str = some v → ':' ∉ str := by
  induction str with
  | nil => intro acc v _; simp
  | cons c rest ih =>
    intro acc v h
    simp only [parseDigits] at h
    cases hd : digitValue c with
    | none => simp [hd] at h
    | some d =>
      simp only [hd] at h
      have hc : c ≠ ':' := by
        intro hh
        rw [hh, digitValue_colon] at hd
        simp at hd
      have := ih _ _ h
      simp only [List.mem_cons, not_or]
      exact ⟨fun hh => hc hh.symm, this⟩

theorem splitColonAux_no_colon (x : Str) :
    ∀ cur, ':' ∉ x → splitColonAux cur x = [cur ++ x] := by
  induction x with
  | nil => intro cur _; simp [splitColonAux]
  | cons c rest ih =>
    intro cur h
    simp only [List.mem_cons, not_or] at h
    have hc : c ≠ ':' := fun hh => h.1 hh.symm
    simp only [splitColonAux, hc, if_false]
    rw [ih _ h.2]
    simp

theorem splitColonAux_field (x rest : Str) :
    ∀ cur, ':' ∉ x →
      splitColonAux cur (x ++ ':' :: rest) = (cur ++ x) :: splitColonAux [] rest := by
  induction x with
  | nil => intro cur _; simp [splitColonAux]
  | cons c tl ih =>
    intro cur h
    simp only [List.mem_cons, not_or] at h
    have hc : c ≠ ':' := fun hh => h.1 hh.symm
    have hstep : splitColonAux cur (c :: tl ++ ':' :: rest)
        = splitColonAux (cur ++ [c]) (tl ++ ':' :: rest) := by
      show splitColonAux cur (c :: (tl ++ ':' :: rest)) = _
      simp only [splitColonAux, hc, if_false]
    rw [hstep, ih _ h.2]
    simp

theorem no_colon_padStart2 (n : Nat) : ':' ∉ padStart2 (numToStr n) :=
  no_colon_of_parse _ 0 n (jsNumber_padStart2 n)

theorem padStart2_length (str : Str) : 2 ≤ (padStart2 str).length := by
  simp only [padStart2, List.length_append, List.length_replicate]
  omega

/-- C30: time stamp round trip.  For every whole number of seconds `s`,
`convertTimestampToSeconds(formatTimestamp(s))` is `s`.  Below one hour
`formatTimestamp(s)` is `mm:ss`, two fields; from one hour on it is
`hh:mm:ss`, three fields; every field is zero-padded to two characters at
least. -/
theorem C30_timestamp_round_trip (s : Nat) :
    convertTimestampToSeconds (formatTimestamp s) = some s ∧
    (s < 3600 →
      formatTimestamp s
        = padStart2 (numToStr (s / 60)) ++ [':'] ++ padStart2 (numToStr (s % 60)) ∧
      (splitColon (formatTimestamp s)).length = 2) ∧
    (s ≥ 3600 →
      formatTimestamp s
        = padStart2 (numToStr (s / 3600)) ++ [':'] ++
            padStart2 (numToStr (s % 3600 / 60)) ++ [':'] ++ padStart2 (numToStr (s % 60)) ∧
      (splitColon (formatTimestamp s)).length = 3) ∧
    (∀ f ∈ splitColon (formatTimestamp s), 2 ≤ f.length) := by
  have hsplit2 : ∀ a b : Nat,
      splitColon (padStart2 (numToStr a) ++ [':'] ++ padStart2 (numToStr b))
        = [padStart2 (numToStr a), padStart2 (numToStr b)] := by
    intro a b
    unfold splitColon
    rw [List.append_assoc, List.singleton_append,
      splitColonAux_field _ _ [] (no_colon_padStart2 a),
      splitColonAux_no_colon _ [] (no_colon_padStart2 b)]
    simp
  have hsplit3 : ∀ a b c : Nat,
      splitColon (padStart2 (numToStr a) ++ [':'] ++ padStart2 (numToStr b) ++ [':'] ++
          padStart2 (numToStr c))
        = [padStart2 (numToStr a), padStart2 (numToStr b), padStart2 (numToStr c)] := by
    intro a b c
    unfold splitColon
    have hre : padStart2 (numToStr a) ++ [':'] ++ padStart2 (numToStr b) ++ [':'] ++
          padStart2 (numToStr c)
        = padStart2 (numToStr a) ++ ':' ::
            (padStart2 (numToStr b) ++ ':' :: padStart2 (numToStr c)) := by
      simp
    rw [hre, splitColonAux_field _ _ [] (no_colon_padStart2 a),
      splitColonAux_field _ _ [] (no_colon_padStart2 b),
      splitColonAux_no_colon _ [] (no_colon_padStart2 c)]
    simp
  by_cases hh : s / 3600 > 0
  · have hge : s ≥ 3600 := by omega
    have hfmt : formatTimestamp s
        = padStart2 (numToStr (s / 3600)) ++ [':'] ++
            padStart2 (numToStr (s % 3600 / 60)) ++ [':'] ++ padStart2 (numToStr (s % 60)) := by
      simp [formatTimestamp, hh]
    have hsp := hsplit3 (s / 3600) (s % 3600 / 60) (s % 60)
    refine ⟨?_, fun hlt => absurd hlt (by omega), fun _ => ⟨hfmt, by rw [hfmt, hsp]; rfl⟩, ?_⟩
    · rw [hfmt]
      unfold convertTimestampToSeconds
      rw [hsp]
      simp only [List.map_cons, List.map_nil, jsNumber_padStart2]
      congr 1
      omega
    · intro f hf
      rw [hfmt, hsp] at hf
      simp only [List.mem_cons, List.mem_singleton, List.not_mem_nil, or_false] at hf
      rcases hf with rfl | rfl | rfl <;> exact padStart2_length _
  · have hlt : s < 3600 := by omega
    have hmin : s % 3600 / 60 = s / 60 := by omega
    have hfmt : formatTimestamp s
        = padStart2 (numToStr (s / 60)) ++ [':'] ++ padStart2 (numToStr (s % 60)) := by
      simp [formatTimestamp, hh, hmin]
    have hsp := hsplit2 (s / 60) (s % 60)
    refine ⟨?_, fun _ => ⟨hfmt, by rw [hfmt, hsp]; rfl⟩, fun hge => absurd hge (by omega), ?_⟩
    · rw [hfmt]
      unfold convertTimestampToSeconds
      rw [hsp]
      simp only [List.map_cons, List.map_nil, jsNumber_padStart2]
      congr 1
      omega
    · intro f hf
      rw [hfmt, hsp] at hf
      simp only [List.mem_cons, List.mem_singleton, List.not_mem_nil, or_false] at hf
      rcases hf with rfl | rfl <;> exact padStart2_length _

/-- Witness of `C30_timestamp_round_trip`: one hour, two minutes and five
seconds. -/
theorem C30_timestamp_round_trip_witness :
    convertTimestampToSeconds (formatTimestamp 3725) = some 3725 ∧
    formatTimestamp 3725 = "01:02:05".data :=
  ⟨(C30_timestamp_round_trip 3725).1, by decide⟩

/-! ## The order of notes -/

/-- C23 at the failing input: the list holds a note at two minutes (`02:00`)
and `addNote` runs at one hour (`01:00:00`).  Both time stamps are those of
`formatTimestamp`, yet the sort reads `01:00:00` as one minute and puts the
note of second 3600 before the note of second 120; the list is not ascending
by `timestampInSeconds`, and it is saved in that order. -/
theorem C23_addNote_failing_input :
    (addNote (some 3600) twoMinutePage).notes =
      [{ timestamp := "01:00:00".data, timestampInSeconds := 3600, text := [] },
       { timestamp := "02:00".data, timestampInSeconds := 120, text := "intro".data }] ∧
    (∀ n ∈ (addNote (some 3600) twoMinutePage).notes,
      n.timestamp = formatTimestamp n.timestampInSeconds) ∧
    ¬ ascending (addNote (some 3600) twoMinutePage).notes ∧
    (mapGet (addNote (some 3600) twoMinutePage).st.store (notesKey "abc".data)).bind Val.notes
      = some (addNote (some 3600) twoMinutePage).notes ∧
    sortKey { timestamp := "01:00:00".data, timestampInSeconds := 3600, text := [] }
      = some 60 ∧
    sortKey { timestamp := "02:00".data, timestampInSeconds := 120, text := "intro".data }
      = some 120 := by
  decide

end OshiMemo
